import Mathlib

/-!
# FreqTracker channel pipeline (sdrangel, `plugins/channelrx/freqtracker/freqtracker.cpp`)

A shallow embedding of the `FreqTracker` channel sink: squelch step, tracker feed,
configuration application and the slow tick that feeds the frequency estimate back
into the frequency offset.

Conventions of the embedding

* `Real`, `float` and `double` values are exact rationals (`ℚ`); rounding, infinities and
  NaN are not modelled.  A conversion to an integer type truncates toward zero.
* The headers `freqtracker.h` and `freqtrackersettings.h`, which declare the members, are
  not available.  Counters and rates that the code compares with `0` and changes under a
  guard are natural numbers, signed quantities (`m_lastCorrAbs`, frequency offsets, input
  rate) are integers; machine widths are not modelled.
* The DSP classes used by the pipeline (`NCOF`, `Interpolator`, `fftfilt`,
  `MovingAverageUtil`, `PhaseLockComplex`, `FreqLockComplex`) are not available either.
  The state of each of them is the history of the calls made on it, and the values they
  return are read from a record of functions of that history (`Externals`), over which
  every general statement is quantified.
* An integer division by zero has no result: functions that can reach one return an
  `Option`.  The `while` loop of `feed` is bounded by a fuel parameter.
* The mutex `m_settingsMutex` is modelled by a machine in which two execution contexts
  run the statements of their methods in any order that the mutex allows.

The last sections embed parts of three other classes: the selection of devices in
`DeviceEnumerator` (`sdrbase/device/deviceenumerator.cpp`), the base rate, the raster
counters, the SSB buffer and the FM phase accumulator of `ATVModSource`
(`plugins/channeltx/modatv/atvmodsource.cpp`), and the data port handlers of
`RemoteSinkGUI` (`plugins/channelrx/remotesink/remotesinkgui.cpp`).
-/

namespace SDRangel

/-- Complex sample `std::complex<Real>`. -/
structure Complex where
  re : ℚ
  im : ℚ
deriving DecidableEq

/-- Complex product, as used by `c *= m_nco.nextIQ()`. -/
def Complex.mul (a b : Complex) : Complex :=
  { re := a.re * b.re - a.im * b.im, im := a.re * b.im + a.im * b.re }

/-- The enumeration `FreqTrackerSettings::TrackerType`. -/
inductive TrackerType where
  | TrackerNone
  | TrackerFLL
  | TrackerPLL
deriving DecidableEq

/-- Modelled from the spec: the declaration of `FreqTrackerSettings`
(`freqtrackersettings.h`) is missing.  These are the fields that `freqtracker.cpp` reads,
with the types of the Pipeline Configuration of the spec (section 3): rates, bandwidth
and thresholds are numbers, the squelch gate length is a count of 10 ms units. -/
structure FreqTrackerSettings where
  m_inputFrequencyOffset : Int
  m_rfBandwidth : ℚ
  m_log2Decim : Nat
  m_squelch : ℚ
  m_rgbColor : Nat
  m_title : String
  m_alphaEMA : ℚ
  m_tracking : Bool
  m_trackerType : TrackerType
  m_pllPskOrder : Nat
  m_rrc : Bool
  m_rrcRolloff : Nat
  m_squelchGate : Nat
  m_streamIndex : Nat
  m_useReverseAPI : Bool
  m_reverseAPIAddress : String
  m_reverseAPIPort : Nat
  m_reverseAPIDeviceIndex : Nat
  m_reverseAPIChannelIndex : Nat
deriving DecidableEq

/-- Calls made on the oscillator `m_nco`. -/
inductive NcoCall where
  | setFreq (freq : Int) (sampleRate : Int)
  | nextIQ
deriving DecidableEq

/-- Calls made on the phase locked loop `m_pll`. -/
inductive PllCall where
  | computeCoefficients (wn zeta k : ℚ)
  | setSampleRate (sampleRate : Nat)
  | setPskOrder (order : Nat)
  | reset
  | feed (re im : ℚ)
deriving DecidableEq

/-- Calls made on the frequency locked loop `m_fll`. -/
inductive FllCall where
  | setSampleRate (sampleRate : Nat)
  | reset
  | feed (re im : ℚ)
deriving DecidableEq

/-- Calls made on the resampler `m_interpolator`. -/
inductive InterpolatorCall where
  | create (nTaps : Nat) (sampleRate : ℚ) (cutoff : ℚ)
  | interpolate (distance : ℚ) (next : Complex)
  | decimate (distance : ℚ) (next : Complex)
deriving DecidableEq

/-- Calls made on the root raised cosine filter `m_rrcFilter`. -/
inductive FilterCall where
  | create_rrc_filter (fb : ℚ) (a : ℚ)
  | runFilt (c : Complex)
deriving DecidableEq

/-- The collaborators of `FreqTracker` whose code is not available, as parameters: the
classes `NCOF`, `Interpolator`, `fftfilt`, `MovingAverageUtil`, `PhaseLockComplex`,
`FreqLockComplex`, `CalcDb`, the device API and the constants `SDR_RX_SCALEF` and `M_PI`.
Each returned value is a function of the history of calls made on the object:
`nextIQ` gives the next oscillator sample, `interpolate` and `decimate` give the returned
flag, the updated `distance` and the updated output sample (their last argument is the
output sample before the call), `runFilt` gives the output buffer (`n_out` is its
length), `asDouble` the moving average of the values pushed so far, `pllGetFreq` and
`fllGetFreq` the current frequency estimates, and `getSampleMIMO` the source sample rate
per stream of a MIMO device, if the device is one. -/
structure Externals where
  SDR_RX_SCALEF : ℚ
  M_PI : ℚ
  powerFromdB : ℚ → ℚ
  nextIQ : List NcoCall → Complex
  interpolate : List InterpolatorCall → ℚ → Complex → Complex → Bool × ℚ × Complex
  decimate : List InterpolatorCall → ℚ → Complex → Complex → Bool × ℚ × Complex
  runFilt : List FilterCall → Complex → List Complex
  asDouble : List ℚ → ℚ
  pllGetFreq : List PllCall → ℚ
  fllGetFreq : List FllCall → ℚ
  getSampleMIMO : Option (Nat → Int)

/-- Modelled from the spec: the declaration of class `FreqTracker` (`freqtracker.h`) is
missing.  These are the data members that the DSP path of `freqtracker.cpp` reads or
writes.  The squelch counter is "a bounded integer counter (range `[0, 2*gate]`)" (spec,
section 3): counter and gate are natural numbers. -/
structure FreqTracker where
  m_settings : FreqTrackerSettings
  m_deviceSampleRate : Nat
  m_inputSampleRate : Int
  m_inputFrequencyOffset : Int
  m_channelSampleRate : Nat
  m_running : Bool
  m_squelchOpen : Bool
  m_squelchGate : Nat
  m_nco : List NcoCall
  m_pll : List PllCall
  m_fll : List FllCall
  m_interpolator : List InterpolatorCall
  m_interpolatorDistance : ℚ
  m_interpolatorDistanceRemain : ℚ
  m_rrcFilter : List FilterCall
  m_squelchLevel : ℚ
  m_squelchCount : Nat
  m_magsq : ℚ
  m_magsqSum : ℚ
  m_magsqPeak : ℚ
  m_magsqCount : Nat
  m_movingAverage : List ℚ
  m_timerConnected : Bool
  m_tickCount : Nat
  m_lastCorrAbs : Int
  m_avgDeltaFreq : ℚ
deriving DecidableEq

/-- Input sample (`Sample`), a pair of fixed-point amplitudes. -/
structure Sample where
  real : Int
  imag : Int
deriving DecidableEq

/-- The messages that `FreqTracker::handleMessage` tells apart. -/
inductive Message where
  | DSPSignalNotification (sampleRate : Nat) (centerFrequency : Int)
  | MsgChannelizerNotification (sampleRate : Int) (frequencyOffset : Int)
  | MsgConfigureFreqTracker (settings : FreqTrackerSettings) (force : Bool)
  | other

/-- The operations on a `FreqTracker` object: the public entry points (`start`, `stop`,
`feed`, `handleMessage`, the `tick` slot) and the private members that they invoke. -/
inductive Call where
  | start
  | stop
  | feed (block : List Sample)
  | tick
  | handleMessage (cmd : Message)
  | processOneSample (ci : Complex)
  | applySettings (settings : FreqTrackerSettings) (force : Bool)
  | applyChannelSettings (inputSampleRate inputFrequencyOffset : Int) (force : Bool)
  | setInterpolator
  | configureChannelizer

namespace FreqTracker

/-- Lines 175-187 of `processOneSample`: power of one filter output, moving average and
level statistics.  Returns the state together with the scaled `re` and `im`. -/
def updatePower (K : Externals) (s : FreqTracker) (sb : Complex) : FreqTracker × ℚ × ℚ :=
  let re := sb.re / K.SDR_RX_SCALEF
  let im := sb.im / K.SDR_RX_SCALEF
  let magsq := re * re + im * im
  let mavg := s.m_movingAverage ++ [magsq]
  ({ s with
      m_movingAverage := mavg
      m_magsq := K.asDouble mavg
      m_magsqSum := s.m_magsqSum + magsq
      m_magsqPeak := if magsq > s.m_magsqPeak then magsq else s.m_magsqPeak
      m_magsqCount := s.m_magsqCount + 1 }, re, im)

/-- Lines 189-218 of `processOneSample`: the squelch step. -/
def updateSquelch (s : FreqTracker) : FreqTracker :=
  if s.m_magsq < s.m_squelchLevel then
    if s.m_squelchGate > 0 then
      let count := if s.m_squelchCount > 0 then s.m_squelchCount - 1 else s.m_squelchCount
      { s with m_squelchCount := count, m_squelchOpen := decide (count ≥ s.m_squelchGate) }
    else
      { s with m_squelchOpen := false }
  else
    if s.m_squelchGate > 0 then
      let count :=
        if s.m_squelchCount < 2 * s.m_squelchGate then s.m_squelchCount + 1 else s.m_squelchCount
      { s with m_squelchCount := count, m_squelchOpen := decide (count ≥ s.m_squelchGate) }
    else
      { s with m_squelchOpen := true }

/-- Lines 220-230 of `processOneSample`: feed of the selected tracker. -/
def feedTracker (s : FreqTracker) (re im : ℚ) : FreqTracker :=
  if s.m_squelchOpen then
    if s.m_settings.m_trackerType = TrackerType.TrackerFLL then
      { s with m_fll := s.m_fll ++ [FllCall.feed re im] }
    else if s.m_settings.m_trackerType = TrackerType.TrackerPLL then
      { s with m_pll := s.m_pll ++ [PllCall.feed re im] }
    else s
  else s

/-- Body of the `for` loop of `processOneSample` (lines 175-230) for one output
`sideband[i]` of the filter stage. -/
def processSideband (K : Externals) (s : FreqTracker) (sb : Complex) : FreqTracker :=
  let p := updatePower K s sb
  feedTracker (updateSquelch p.1) p.2.1 p.2.2

/-- Method `FreqTracker::processOneSample`: with `m_rrc` the sample goes through the filter,
which gives `n_out` outputs; without it the sample itself is the single output. -/
def processOneSample (K : Externals) (s : FreqTracker) (ci : Complex) : FreqTracker :=
  if s.m_settings.m_rrc then
    (K.runFilt s.m_rrcFilter ci).foldl (processSideband K)
      { s with m_rrcFilter := s.m_rrcFilter ++ [FilterCall.runFilt ci] }
  else
    processSideband K s ci

/-- Method `FreqTracker::setInterpolator` (lines 478-487). -/
def setInterpolator (s : FreqTracker) : FreqTracker :=
  { s with
    m_interpolator := s.m_interpolator ++
      [InterpolatorCall.create 16 s.m_inputSampleRate (s.m_settings.m_rfBandwidth / (11 / 5))]
    m_interpolatorDistanceRemain := 0
    m_interpolatorDistance := (s.m_inputSampleRate : ℚ) / (s.m_channelSampleRate : ℚ)
    m_rrcFilter := s.m_rrcFilter ++
      [FilterCall.create_rrc_filter (s.m_settings.m_rfBandwidth / (s.m_channelSampleRate : ℚ))
        ((s.m_settings.m_rrcRolloff : ℚ) / 100)]
    m_squelchGate := (s.m_channelSampleRate / 100) * s.m_settings.m_squelchGate }

/-- Method `FreqTracker::applyChannelSettings` (lines 303-323). -/
def applyChannelSettings (s : FreqTracker) (inputSampleRate inputFrequencyOffset : Int)
    (force : Bool) : FreqTracker :=
  let s1 :=
    if s.m_inputFrequencyOffset ≠ inputFrequencyOffset ∨ s.m_inputSampleRate ≠ inputSampleRate
        ∨ force = true then
      { s with m_nco := s.m_nco ++ [NcoCall.setFreq (-inputFrequencyOffset) inputSampleRate] }
    else s
  let s2 := if s1.m_inputSampleRate ≠ inputSampleRate ∨ force = true then setInterpolator s1 else s1
  { s2 with m_inputSampleRate := inputSampleRate, m_inputFrequencyOffset := inputFrequencyOffset }

/-- Method `FreqTracker::configureChannelizer` (lines 489-515).  The request sent to the
channelizer and the notification pushed to the GUI queue leave the object unchanged; the
channelizer answers later with a `MsgChannelizerNotification` (see `handleMessage`). -/
def configureChannelizer (s : FreqTracker) : FreqTracker :=
  if s.m_channelSampleRate ≠ s.m_deviceSampleRate / 2 ^ s.m_settings.m_log2Decim then
    let rate := s.m_deviceSampleRate / 2 ^ s.m_settings.m_log2Decim
    { s with
      m_channelSampleRate := rate
      m_pll := s.m_pll ++ [PllCall.setSampleRate rate]
      m_fll := s.m_fll ++ [FllCall.setSampleRate rate] }
  else s

/-- Method `FreqTracker::connectTimer` (lines 517-525). -/
def connectTimer (s : FreqTracker) : FreqTracker :=
  if ¬ s.m_timerConnected then { s with m_tickCount := 0, m_timerConnected := true } else s

/-- Method `FreqTracker::disconnectTimer` (lines 527-534). -/
def disconnectTimer (s : FreqTracker) : FreqTracker :=
  if s.m_timerConnected then { s with m_timerConnected := false } else s

/-- Lines 373-377 of `applySettings`: change of the squelch threshold. -/
def applySquelch (K : Externals) (s : FreqTracker) (settings : FreqTrackerSettings)
    (force : Bool) : FreqTracker :=
  if s.m_settings.m_squelch ≠ settings.m_squelch ∨ force = true then
    { s with m_squelchLevel := K.powerFromdB settings.m_squelch }
  else s

/-- Lines 389-400 of `applySettings`: change of the tracking flag. -/
def applyTracking (s : FreqTracker) (settings : FreqTrackerSettings) (force : Bool) :
    FreqTracker :=
  if s.m_settings.m_tracking ≠ settings.m_tracking ∨ force = true then
    let s1 := { s with m_avgDeltaFreq := 0, m_lastCorrAbs := 0 }
    if settings.m_tracking then
      { s1 with m_pll := s1.m_pll ++ [PllCall.reset], m_fll := s1.m_fll ++ [FllCall.reset] }
    else s1
  else s

/-- Lines 402-419 of `applySettings`: change of the tracker type. -/
def applyTrackerType (s : FreqTracker) (settings : FreqTrackerSettings) (force : Bool) :
    FreqTracker :=
  if s.m_settings.m_trackerType ≠ settings.m_trackerType ∨ force = true then
    let s1 := { s with m_lastCorrAbs := 0, m_avgDeltaFreq := 0 }
    let s2 :=
      if settings.m_trackerType = TrackerType.TrackerFLL then
        { s1 with m_fll := s1.m_fll ++ [FllCall.reset] }
      else if settings.m_trackerType = TrackerType.TrackerPLL then
        { s1 with m_pll := s1.m_pll ++ [PllCall.reset] }
      else s1
    if settings.m_trackerType = TrackerType.TrackerNone then disconnectTimer s2
    else connectTimer s2
  else s

/-- Lines 421-428 of `applySettings`: change of the PSK order. -/
def applyPskOrder (s : FreqTracker) (settings : FreqTrackerSettings) (force : Bool) :
    FreqTracker :=
  if s.m_settings.m_pllPskOrder ≠ settings.m_pllPskOrder ∨ force = true then
    if settings.m_pllPskOrder < 32 then
      { s with m_pll := s.m_pll ++ [PllCall.setPskOrder settings.m_pllPskOrder] }
    else s
  else s

/-- Lines 444-457 of `applySettings`: change of the stream index (MIMO devices only). -/
def applyStreamIndex (K : Externals) (s : FreqTracker) (settings : FreqTrackerSettings) :
    FreqTracker :=
  if s.m_settings.m_streamIndex ≠ settings.m_streamIndex then
    match K.getSampleMIMO with
    | some getSourceSampleRate =>
      applyChannelSettings s (getSourceSampleRate settings.m_streamIndex)
        s.m_inputFrequencyOffset false
    | none => s
  else s

/-- Lines 373-457 of `applySettings`: the blocks that run, in order, before the new
configuration is stored. -/
def applyChanges (K : Externals) (s : FreqTracker) (settings : FreqTrackerSettings)
    (force : Bool) : FreqTracker :=
  applyStreamIndex K
    (applyPskOrder
      (applyTrackerType (applyTracking (applySquelch K s settings force) settings force)
        settings force)
      settings force)
    settings

/-- Lines 469-475 of `applySettings`: the new configuration is stored, then the
channelizer is configured or else the interpolator is set. -/
def commitSettings (s : FreqTracker) (settings : FreqTrackerSettings)
    (updateChannelizer updateInterpolator : Bool) : FreqTracker :=
  if updateChannelizer then configureChannelizer { s with m_settings := settings }
  else if updateInterpolator then setInterpolator { s with m_settings := settings }
  else { s with m_settings := settings }

/-- Method `FreqTracker::applySettings` (lines 325-476).  The list of reverse API keys and the
HTTP request of `webapiReverseSendSettings` do not touch the object and are left out. -/
def applySettings (K : Externals) (s : FreqTracker) (settings : FreqTrackerSettings)
    (force : Bool) : FreqTracker :=
  let updateChannelizer : Bool :=
    decide (s.m_settings.m_inputFrequencyOffset ≠ settings.m_inputFrequencyOffset ∨ force = true)
      || decide (s.m_settings.m_log2Decim ≠ settings.m_log2Decim ∨ force = true)
  let updateInterpolator : Bool :=
    decide (s.m_settings.m_rfBandwidth ≠ settings.m_rfBandwidth ∨ force = true)
      || decide (s.m_settings.m_rrcRolloff ≠ settings.m_rrcRolloff ∨ force = true)
      || decide (s.m_settings.m_squelchGate ≠ settings.m_squelchGate ∨ force = true)
  let s1 := applySquelch K s settings force
  let s2 := applyTracking s1 settings force
  let s3 := applyTrackerType s2 settings force
  let s4 := applyPskOrder s3 settings force
  let s5 := applyStreamIndex K s4 settings
  let s6 := { s5 with m_settings := settings }
  if updateChannelizer then configureChannelizer s6
  else if updateInterpolator then setInterpolator s6
  else s6

/-- Method `FreqTracker::start` (lines 234-240). -/
def start (s : FreqTracker) : FreqTracker :=
  let s1 := { s with m_squelchCount := 0 }
  let s2 := applyChannelSettings s1 s1.m_inputSampleRate s1.m_inputFrequencyOffset true
  { s2 with m_running := true }

/-- Method `FreqTracker::stop` (lines 242-246). -/
def stop (s : FreqTracker) : FreqTracker :=
  { s with m_running := false }

/-- Method `FreqTracker::getSquelchOpen` (inline accessor of the open flag). -/
def getSquelchOpen (s : FreqTracker) : Bool :=
  s.m_squelchOpen

/-- Method `FreqTracker::getFrequency` (lines 248-257). -/
def getFrequency (K : Externals) (s : FreqTracker) : ℚ :=
  if s.m_settings.m_trackerType = TrackerType.TrackerPLL then
    (K.pllGetFreq s.m_pll * (s.m_channelSampleRate : ℚ)) / (2 * K.M_PI)
  else if s.m_settings.m_trackerType = TrackerType.TrackerFLL then
    (K.fllGetFreq s.m_fll * (s.m_channelSampleRate : ℚ)) / (2 * K.M_PI)
  else 0

/-- Conversion of a `Real` to an integer type: truncation toward zero. -/
def truncate (x : ℚ) : Int :=
  if x < 0 then -Int.floor (-x) else Int.floor x

/-- Line 810 of `tick`: `uint32_t decayDivider = 200.0 * m_settings.m_alphaEMA`.  The
conversion of a value that `uint32_t` cannot hold (a negative one, or one from `2^32` on)
is undefined in C++; it is mapped to `0` here, which makes the division of line 811
undefined as well. -/
def decayDivider (s : FreqTracker) : Nat :=
  if truncate (200 * s.m_settings.m_alphaEMA) < 2 ^ 32 then
    Int.toNat (truncate (200 * s.m_settings.m_alphaEMA))
  else 0

/-- Line 811 of `tick`: the amount by which `m_lastCorrAbs` decays.  `none` stands for
the integer division by zero that the code performs when `decayDivider` is `0` (an
unsigned `m_channelSampleRate` is never below `0`). -/
def decayAmount (s : FreqTracker) : Option Int :=
  if s.m_channelSampleRate < decayDivider s then some 1
  else if decayDivider s = 0 then none
  else some ((s.m_channelSampleRate / decayDivider s : Nat) : Int)

/-- Line 812 of `tick`: the minimum correction. -/
def trim (s : FreqTracker) : Int :=
  ((s.m_channelSampleRate / 1000 : Nat) : Int)

/-- Lines 798-800 of `tick`: exponential moving average of the frequency estimate. -/
def tickAverage (K : Externals) (s : FreqTracker) : FreqTracker :=
  if getSquelchOpen s then
    { s with m_avgDeltaFreq :=
        s.m_settings.m_alphaEMA * getFrequency K s
          + (1 - s.m_settings.m_alphaEMA) * s.m_avgDeltaFreq }
  else s

/-- Line 816 of `tick`: the magnitude of the average frequency error, converted to
`int`. -/
def avgDeltaFreqAbs (s : FreqTracker) : Int :=
  truncate (if s.m_avgDeltaFreq < 0 then -s.m_avgDeltaFreq else s.m_avgDeltaFreq)

/-- Lines 820-821 of `tick`: a copy of the configuration in which the average frequency
error is added to the frequency offset (the sum is converted back to an integer). -/
def correctedSettings (s : FreqTracker) : FreqTrackerSettings :=
  let offset : Int := truncate ((s.m_settings.m_inputFrequencyOffset : ℚ) + s.m_avgDeltaFreq)
  { s.m_settings with m_inputFrequencyOffset := offset }

/-- Lines 802-832 of `tick`: tick counter and evaluation of a correction.  The Boolean
tells whether line 822 ran, that is whether the corrected offset was applied; `none`
stands for the undefined division of line 811. -/
def tickEvaluate (K : Externals) (s : FreqTracker) : Option (FreqTracker × Bool) :=
  if s.m_tickCount < 9 then
    some ({ s with m_tickCount := s.m_tickCount + 1 }, false)
  else if s.m_settings.m_tracking = true ∧ getSquelchOpen s = true then
    match decayAmount s with
    | none => none
    | some amount =>
      if s.m_lastCorrAbs < amount then
        let s1 := { s with m_lastCorrAbs := avgDeltaFreqAbs s }
        if s1.m_lastCorrAbs > trim s1 then
          some ({ (applySettings K s1 (correctedSettings s1) false) with m_tickCount := 0 }, true)
        else some ({ s1 with m_tickCount := 0 }, false)
      else
        some ({ s with m_lastCorrAbs := s.m_lastCorrAbs - amount, m_tickCount := 0 }, false)
  else some ({ s with m_tickCount := 0 }, false)

/-- Method `FreqTracker::tick` (lines 796-833), with the flag of `tickEvaluate`. -/
def tickStep (K : Externals) (s : FreqTracker) : Option (FreqTracker × Bool) :=
  tickEvaluate K (tickAverage K s)

/-- Method `FreqTracker::tick`: the state it leaves. -/
def tick (K : Externals) (s : FreqTracker) : Option FreqTracker :=
  (tickStep K s).map Prod.fst

/-- Whether `tick` applies a corrected frequency offset (line 822 runs). -/
def tickApplies (K : Externals) (s : FreqTracker) : Bool :=
  match tickStep K s with
  | some r => r.2
  | none => false

/-- Consecutive outputs of the filter stage, processed in order by the loop of
`processOneSample`. -/
def processAll (K : Externals) (s : FreqTracker) (sbs : List Complex) : FreqTracker :=
  sbs.foldl (processSideband K) s

/-- Every sample of the list, processed in order from `s`, has its smoothed power below
the squelch level. -/
def allBelow (K : Externals) : FreqTracker → List Complex → Bool
  | _, [] => true
  | s, sb :: rest =>
    decide ((processSideband K s sb).m_magsq < s.m_squelchLevel)
      && allBelow K (processSideband K s sb) rest

/-- Every sample of the list, processed in order from `s`, has its smoothed power at or
above the squelch level. -/
def allAbove (K : Externals) : FreqTracker → List Complex → Bool
  | _, [] => true
  | s, sb :: rest =>
    decide (s.m_squelchLevel ≤ (processSideband K s sb).m_magsq)
      && allAbove K (processSideband K s sb) rest

/-- The `while` loop of lines 138-141 of `feed`.  The loop runs for as long as the
resampler reports an output; `fuel` bounds the number of resampler calls and `none` means
that the bound was reached. -/
def interpolateLoop (K : Externals) :
    Nat → FreqTracker → Complex → Complex → Option (FreqTracker × Complex)
  | 0, _, _, _ => none
  | fuel + 1, s, c, ci =>
    let r := K.interpolate s.m_interpolator s.m_interpolatorDistanceRemain c ci
    let s1 :=
      { s with
        m_interpolator := s.m_interpolator ++
          [InterpolatorCall.interpolate s.m_interpolatorDistanceRemain c]
        m_interpolatorDistanceRemain := r.2.1 }
    if r.1 then interpolateLoop K fuel (processOneSample K s1 r.2.2) c r.2.2
    else some (s1, r.2.2)

/-- One iteration of the `for` loop of `feed` (lines 131-152): the input sample `it` is
mixed with the oscillator and resampled.  The local variable `ci` of `feed` is carried
from one iteration to the next. -/
def feedSample (K : Externals) (fuel : Nat) (sci : FreqTracker × Complex) (it : Sample) :
    Option (FreqTracker × Complex) :=
  let s := sci.1
  let ci := sci.2
  let c := Complex.mul { re := (it.real : ℚ), im := (it.imag : ℚ) } (K.nextIQ s.m_nco)
  let s0 := { s with m_nco := s.m_nco ++ [NcoCall.nextIQ] }
  if s0.m_interpolatorDistance < 1 then
    match interpolateLoop K fuel (processOneSample K s0 ci) c ci with
    | none => none
    | some r =>
      some ({ r.1 with m_interpolatorDistanceRemain :=
                r.1.m_interpolatorDistanceRemain + r.1.m_interpolatorDistance }, r.2)
  else
    let r := K.decimate s0.m_interpolator s0.m_interpolatorDistanceRemain c ci
    let s1 :=
      { s0 with
        m_interpolator := s0.m_interpolator ++
          [InterpolatorCall.decimate s0.m_interpolatorDistanceRemain c]
        m_interpolatorDistanceRemain := r.2.1 }
    if r.1 then
      let s2 := processOneSample K s1 r.2.2
      some ({ s2 with m_interpolatorDistanceRemain :=
                s2.m_interpolatorDistanceRemain + s2.m_interpolatorDistance }, r.2.2)
    else some (s1, r.2.2)

/-- The `for` loop of `feed` over the samples of the block. -/
def feedLoop (K : Externals) (fuel : Nat) :
    FreqTracker × Complex → List Sample → Option (FreqTracker × Complex)
  | sci, [] => some sci
  | sci, it :: rest =>
    match feedSample K fuel sci it with
    | none => none
    | some sci1 => feedLoop K fuel sci1 rest

/-- Method `FreqTracker::feed` (lines 118-156); `ci` is default constructed. -/
def feed (K : Externals) (fuel : Nat) (s : FreqTracker) (block : List Sample) :
    Option FreqTracker :=
  if ¬ s.m_running then some s
  else (feedLoop K fuel (s, { re := 0, im := 0 }) block).map Prod.fst

/-- Method `FreqTracker::handleMessage` (lines 259-301); the Boolean is the returned value. -/
def handleMessage (K : Externals) (s : FreqTracker) : Message → FreqTracker × Bool
  | Message.DSPSignalNotification sampleRate _ =>
    (configureChannelizer { s with m_deviceSampleRate := sampleRate }, true)
  | Message.MsgChannelizerNotification sampleRate frequencyOffset =>
    (setInterpolator (applyChannelSettings s sampleRate frequencyOffset false), true)
  | Message.MsgConfigureFreqTracker settings force =>
    (applySettings K s settings force, true)
  | Message.other => (s, false)

/-- The constructor `FreqTracker::FreqTracker` (lines 54-95).  `defaults` is the default
constructed `FreqTrackerSettings`; `squelchLevel`, `squelchCount` and `distance` stand for
the members that the constructor leaves without an initial value. -/
def construct (defaults : FreqTrackerSettings) (squelchLevel : ℚ) (squelchCount : Nat)
    (distance : ℚ) : FreqTracker :=
  let s : FreqTracker :=
    { m_settings := defaults
      m_deviceSampleRate := 48000
      m_inputSampleRate := 48000
      m_inputFrequencyOffset := 0
      m_channelSampleRate := 48000
      m_running := false
      m_squelchOpen := false
      m_squelchGate := 0
      m_nco := []
      m_pll := [PllCall.computeCoefficients (2 / 1000) (1 / 2) 10]
      m_fll := []
      m_interpolator := []
      m_interpolatorDistance := distance
      m_interpolatorDistanceRemain := distance
      m_rrcFilter := []
      m_squelchLevel := squelchLevel
      m_squelchCount := squelchCount
      m_magsq := 0
      m_magsqSum := 0
      m_magsqPeak := 0
      m_magsqCount := 0
      m_movingAverage := []
      m_timerConnected := false
      m_tickCount := 0
      m_lastCorrAbs := 0
      m_avgDeltaFreq := 0 }
  applyChannelSettings s s.m_inputSampleRate s.m_inputFrequencyOffset true

/-- One call on the object. -/
def call (K : Externals) (fuel : Nat) (s : FreqTracker) : Call → Option FreqTracker
  | Call.start => some (start s)
  | Call.stop => some (stop s)
  | Call.feed block => feed K fuel s block
  | Call.tick => tick K s
  | Call.handleMessage cmd => some (handleMessage K s cmd).1
  | Call.processOneSample ci => some (processOneSample K s ci)
  | Call.applySettings settings force => some (applySettings K s settings force)
  | Call.applyChannelSettings inputSampleRate inputFrequencyOffset force =>
    some (applyChannelSettings s inputSampleRate inputFrequencyOffset force)
  | Call.setInterpolator => some (setInterpolator s)
  | Call.configureChannelizer => some (configureChannelizer s)

/-- A sequence of calls, in order; `none` when one of them does not return. -/
def run (K : Externals) (fuel : Nat) : FreqTracker → List Call → Option FreqTracker
  | s, [] => some s
  | s, c :: rest =>
    match call K fuel s c with
    | none => none
    | some s1 => run K fuel s1 rest

/-- Whether a call is the `tick` slot. -/
def isTick : Call → Bool
  | Call.tick => true
  | _ => false

/-- No call of the sequence, run from `s`, lowers the squelch gate `m_squelchGate`. -/
def gateNeverLowered (K : Externals) (fuel : Nat) : FreqTracker → List Call → Bool
  | _, [] => true
  | s, c :: rest =>
    match call K fuel s c with
    | none => true
    | some s1 =>
      decide (s.m_squelchGate ≤ s1.m_squelchGate) && gateNeverLowered K fuel s1 rest

/-- The members that the sample path (`feed`, `processOneSample`) leaves unchanged,
together with the preservation of the counter bound. -/
structure SampleFrame (s s1 : FreqTracker) : Prop where
  settings : s1.m_settings = s.m_settings
  gate : s1.m_squelchGate = s.m_squelchGate
  level : s1.m_squelchLevel = s.m_squelchLevel
  channelSampleRate : s1.m_channelSampleRate = s.m_channelSampleRate
  tickCount : s1.m_tickCount = s.m_tickCount
  timerConnected : s1.m_timerConnected = s.m_timerConnected
  lastCorrAbs : s1.m_lastCorrAbs = s.m_lastCorrAbs
  avgDeltaFreq : s1.m_avgDeltaFreq = s.m_avgDeltaFreq
  inRange : s.m_squelchCount ≤ 2 * s.m_squelchGate →
    s1.m_squelchCount ≤ 2 * s1.m_squelchGate

/-- The members that no configuration operation touches (squelch counter and flag),
and the tick counter, which a configuration operation may only reset. -/
structure ConfigFrame (s s1 : FreqTracker) : Prop where
  squelchCount : s1.m_squelchCount = s.m_squelchCount
  squelchOpen : s1.m_squelchOpen = s.m_squelchOpen
  tickCount : s1.m_tickCount ≤ s.m_tickCount

/-- The frequency correction memory and the configuration are unchanged. -/
structure CorrectionFrame (s s1 : FreqTracker) : Prop where
  settings : s1.m_settings = s.m_settings
  avgDeltaFreq : s1.m_avgDeltaFreq = s.m_avgDeltaFreq
  lastCorrAbs : s1.m_lastCorrAbs = s.m_lastCorrAbs

end FreqTracker

/-- A concrete choice of the collaborators, on which the model can be evaluated: 16 bit
full scale, `355/113` for pi, a conversion from dB that is exact on multiples of 10 dB,
an oscillator at phase 0, a resampler that passes every input sample through `decimate`
and never produces a sample in `interpolate`, a filter stage that passes every sample, a
moving average over the last 16 values and trackers that report no frequency error. -/
def bench : Externals :=
  { SDR_RX_SCALEF := 32768
    M_PI := 355 / 113
    powerFromdB := fun dB => (10 : ℚ) ^ Int.floor (dB / 10)
    nextIQ := fun _ => { re := 1, im := 0 }
    interpolate := fun _ distance _ ci => (false, distance, ci)
    decimate := fun _ distance next _ => (true, distance, next)
    runFilt := fun _ c => [c]
    asDouble := fun samples => (samples.reverse.take 16).sum / 16
    pllGetFreq := fun _ => 0
    fllGetFreq := fun _ => 0
    getSampleMIMO := none }

/-- A configuration of the channel: 6 kHz bandwidth, squelch at -40 dB with a gate of
10 ms, frequency locked loop, no tracking. -/
def sampleSettings : FreqTrackerSettings :=
  { m_inputFrequencyOffset := 0
    m_rfBandwidth := 6000
    m_log2Decim := 0
    m_squelch := -40
    m_rgbColor := 0
    m_title := "Frequency Tracker"
    m_alphaEMA := 1 / 10
    m_tracking := false
    m_trackerType := TrackerType.TrackerFLL
    m_pllPskOrder := 2
    m_rrc := false
    m_rrcRolloff := 35
    m_squelchGate := 1
    m_streamIndex := 0
    m_useReverseAPI := false
    m_reverseAPIAddress := "127.0.0.1"
    m_reverseAPIPort := 8888
    m_reverseAPIDeviceIndex := 0
    m_reverseAPIChannelIndex := 0 }

/-- A started channel at 48 kS/s with `sampleSettings`: squelch level `1/10000`, gate of
480 samples, counter 0, squelch closed. -/
def startedChannel : FreqTracker :=
  FreqTracker.start (FreqTracker.construct sampleSettings (1 / 10000) 0 1)

/-- A sample at full scale on the real axis (power 1). -/
def strongSample : Complex :=
  { re := 32768, im := 0 }

/-- A silent sample (power 0). -/
def silentSample : Complex :=
  { re := 0, im := 0 }

/-- The channel `startedChannel` with the counter at 3 (squelch closed). -/
def countedChannel : FreqTracker :=
  { startedChannel with m_squelchCount := 3 }

/-- A started channel at 48 kS/s whose configuration has no squelch gate. -/
def ungatedChannel : FreqTracker :=
  FreqTracker.start
    (FreqTracker.construct { sampleSettings with m_squelchGate := 0 } (1 / 10000) 0 1)

/-- A freshly constructed channel with `sampleSettings`. -/
def constructedChannel : FreqTracker :=
  FreqTracker.construct sampleSettings (1 / 10000) 0 1

/-- A block of `n` full scale input samples. -/
def strongBlock (n : Nat) : List Sample :=
  List.replicate n { real := 32768, imag := 0 }

/-- A session in which the squelch gate is lowered while the counter is up: the channel
is configured with a decimation by 64 and a gate of 30 ms, the channelizer answers with
the rate of 750 S/s (gate of 21 samples), the channel is started, 15 strong samples are
fed (counter 15), and the gate is then configured to 10 ms (7 samples). -/
def loweredGateRun : List Call :=
  [ Call.handleMessage (Message.MsgConfigureFreqTracker
      { sampleSettings with m_log2Decim := 6, m_squelchGate := 3 } true),
    Call.handleMessage (Message.MsgChannelizerNotification 750 0),
    Call.start,
    Call.feed (strongBlock 15),
    Call.handleMessage (Message.MsgConfigureFreqTracker
      { sampleSettings with m_log2Decim := 6, m_squelchGate := 1 } false) ]

/-- The channel at the end of `loweredGateRun`. -/
def loweredGateChannel : FreqTracker :=
  match FreqTracker.run bench 1 constructedChannel loweredGateRun with
  | some s => s
  | none => constructedChannel

/-- A block of `n` silent input samples. -/
def silentBlock (n : Nat) : List Sample :=
  List.replicate n { real := 0, imag := 0 }

/-- A session that brings the counter exactly to the gate: decimation by 64 without a
squelch gate, rate of 750 S/s, start, one strong sample followed by 8 silent ones (the
counter stays at 0 without a gate), gate configured to 10 ms (7 samples), then 7 silent
samples whose moving average still holds the strong sample (counter 7, squelch open). -/
def thresholdRun : List Call :=
  [ Call.handleMessage (Message.MsgConfigureFreqTracker
      { sampleSettings with m_log2Decim := 6, m_squelchGate := 0 } true),
    Call.handleMessage (Message.MsgChannelizerNotification 750 0),
    Call.start,
    Call.feed (strongBlock 1 ++ silentBlock 8),
    Call.handleMessage (Message.MsgConfigureFreqTracker
      { sampleSettings with m_log2Decim := 6, m_squelchGate := 1 } false),
    Call.feed (silentBlock 7) ]

/-- The channel at the end of `thresholdRun`. -/
def thresholdChannel : FreqTracker :=
  match FreqTracker.run bench 1 constructedChannel thresholdRun with
  | some s => s
  | none => constructedChannel

/-- Whether a call on the frequency locked loop is a `feed`. -/
def FllCall.isFeed : FllCall → Bool
  | FllCall.feed _ _ => true
  | _ => false

/-- The collaborators of `bench` with a frequency locked loop that reports an error of
`355/1356` rad/sample (2000 Hz at 48 kS/s) until it has been fed twice, and none
afterwards. -/
def driftBench : Externals :=
  { bench with
    fllGetFreq := fun calls => if calls.countP FllCall.isFeed < 2 then 355 / 1356 else 0 }

/-- A tracking session: tracking is switched on without a squelch gate, the channel is
started and one strong sample opens the squelch; ten ticks follow, the tenth of which
applies a first correction; after one more strong sample the loop reports no error, and
nine more ticks follow. -/
def trackingRun : List Call :=
  [ Call.handleMessage (Message.MsgConfigureFreqTracker
      { sampleSettings with m_tracking := true, m_squelchGate := 0 } true),
    Call.start,
    Call.feed (strongBlock 1) ]
  ++ List.replicate 10 Call.tick
  ++ [ Call.feed (strongBlock 1) ]
  ++ List.replicate 9 Call.tick

/-- The channel at the end of `trackingRun`. -/
def convergingChannel : FreqTracker :=
  match FreqTracker.run driftBench 1 constructedChannel trackingRun with
  | some s => s
  | none => constructedChannel

/-- The channel `convergingChannel` after one more tick. -/
def correctedChannel : FreqTracker :=
  match FreqTracker.tick driftBench convergingChannel with
  | some s => s
  | none => convergingChannel

/-- The channel `correctedChannel` after a tick, a block of two samples and seven more
ticks. -/
def waitingChannel : FreqTracker :=
  match FreqTracker.run driftBench 1 correctedChannel
      ([Call.tick, Call.feed (strongBlock 2)] ++ List.replicate 7 Call.tick) with
  | some s => s
  | none => correctedChannel

/-- A short session after `start`: three strong samples are fed, then the bandwidth is
configured to 5 kHz. -/
def fedRun : List Call :=
  [ Call.feed (strongBlock 3),
    Call.applySettings { sampleSettings with m_rfBandwidth := 5000 } false ]

/-- The channel at the end of `fedRun`, run from the started `constructedChannel`. -/
def fedChannel : FreqTracker :=
  match FreqTracker.run bench 1 (FreqTracker.start constructedChannel) fedRun with
  | some s => s
  | none => constructedChannel

/-- A session without tracker: the tracker type is configured to none with tracking on
and without a squelch gate, the channel is started, a strong sample opens the squelch and
ten ticks follow. -/
def idleRun : List Call :=
  [ Call.applySettings
      { sampleSettings with
        m_trackerType := TrackerType.TrackerNone, m_tracking := true, m_squelchGate := 0 } false,
    Call.start,
    Call.feed (strongBlock 1) ]
  ++ List.replicate 10 Call.tick

/-- The channel at the end of `idleRun`. -/
def idleChannel : FreqTracker :=
  match FreqTracker.run bench 1 constructedChannel idleRun with
  | some s => s
  | none => constructedChannel

namespace FreqTracker

/-- The state with the call histories of the two trackers blanked. -/
def withoutTrackers (s : FreqTracker) : FreqTracker :=
  { s with m_pll := [], m_fll := [] }

/-- The members that only `applyChannelSettings` and `setInterpolator` write: rates and
offset of the input, oscillator, resampler, filter and squelch gate in samples. -/
structure ResamplerFrame (s s1 : FreqTracker) : Prop where
  deviceSampleRate : s1.m_deviceSampleRate = s.m_deviceSampleRate
  inputSampleRate : s1.m_inputSampleRate = s.m_inputSampleRate
  inputFrequencyOffset : s1.m_inputFrequencyOffset = s.m_inputFrequencyOffset
  squelchGate : s1.m_squelchGate = s.m_squelchGate
  nco : s1.m_nco = s.m_nco
  interpolator : s1.m_interpolator = s.m_interpolator
  interpolatorDistance : s1.m_interpolatorDistance = s.m_interpolatorDistance
  interpolatorDistanceRemain : s1.m_interpolatorDistanceRemain = s.m_interpolatorDistanceRemain
  rrcFilter : s1.m_rrcFilter = s.m_rrcFilter

end FreqTracker

/-- A malformed configuration: `sampleSettings` with an RF bandwidth of -1 Hz. -/
def malformedSettings : FreqTrackerSettings :=
  { sampleSettings with m_rfBandwidth := -1 }

/-- The collaborators of `bench` on a MIMO device whose stream 1 runs at 96 kS/s and whose
other streams run at 48 kS/s. -/
def mimoBench : Externals :=
  { bench with getSampleMIMO := some (fun index => if index = 1 then 96000 else 48000) }

/-- The PSK order that the phase locked loop holds: the argument of the most recent
`setPskOrder` call of its history, if there is one. -/
def configuredPskOrder (calls : List PllCall) : Option Nat :=
  calls.foldl
    (fun order call =>
      match call with
      | PllCall.setPskOrder n => some n
      | _ => order)
    none

/-- A channel on which a configuration has been applied with `force`: the phase locked
loop holds the PSK order 2 of `sampleSettings`. -/
def configuredChannel : FreqTracker :=
  FreqTracker.applySettings bench constructedChannel sampleSettings true

/-- A configuration that changes the squelch gate to 30 ms and the frequency offset to
1 kHz in the same call. -/
def gateAndOffsetSettings : FreqTrackerSettings :=
  { sampleSettings with m_squelchGate := 3, m_inputFrequencyOffset := 1000 }

namespace FreqTracker

/-- The members of the mixing and resampling stage of `feed`, which `processOneSample`
does not touch. -/
structure FeedFrame (s s1 : FreqTracker) : Prop where
  running : s1.m_running = s.m_running
  nco : s1.m_nco = s.m_nco
  interpolator : s1.m_interpolator = s.m_interpolator
  interpolatorDistance : s1.m_interpolatorDistance = s.m_interpolatorDistance
  interpolatorDistanceRemain : s1.m_interpolatorDistanceRemain = s.m_interpolatorDistanceRemain

/-- The `else` branch of the loop body of `feed` (lines 133 and 145-151) on its own: the
input sample is mixed with the oscillator and given to `Interpolator::decimate`;
`processOneSample` runs on the output of `decimate` when `decimate` reports one. -/
def decimateSample (K : Externals) (sci : FreqTracker × Complex) (it : Sample) :
    FreqTracker × Complex :=
  let s := sci.1
  let ci := sci.2
  let c := Complex.mul { re := (it.real : ℚ), im := (it.imag : ℚ) } (K.nextIQ s.m_nco)
  let s0 := { s with m_nco := s.m_nco ++ [NcoCall.nextIQ] }
  let r := K.decimate s0.m_interpolator s0.m_interpolatorDistanceRemain c ci
  let s1 :=
    { s0 with
      m_interpolator := s0.m_interpolator ++
        [InterpolatorCall.decimate s0.m_interpolatorDistanceRemain c]
      m_interpolatorDistanceRemain := r.2.1 }
  if r.1 then
    let s2 := processOneSample K s1 r.2.2
    ({ s2 with m_interpolatorDistanceRemain :=
          s2.m_interpolatorDistanceRemain + s2.m_interpolatorDistance }, r.2.2)
  else (s1, r.2.2)

/-- The samples of a block after the mixing of line 133 (`c *= m_nco.nextIQ()`), in input
order; `nco` is the history of the oscillator before the block. -/
def mixed (K : Externals) : List NcoCall → List Sample → List Complex
  | _, [] => []
  | nco, it :: rest =>
    Complex.mul { re := (it.real : ℚ), im := (it.imag : ℚ) } (K.nextIQ nco)
      :: mixed K (nco ++ [NcoCall.nextIQ]) rest

end FreqTracker

/-- The first two calls of `loweredGateRun`: decimation by 64 and a gate of 30 ms are
configured, and the channelizer answers with the rate of 750 S/s. -/
def slowChannel : FreqTracker :=
  match FreqTracker.run bench 1 constructedChannel (loweredGateRun.take 2) with
  | some s => s
  | none => constructedChannel

/-- A channel whose input rate is half of the channel rate: the channelizer notifies an
input rate of 24 kS/s and the channel is started (ratio `1/2`, interpolating branch). -/
def interpolatingChannel : FreqTracker :=
  match FreqTracker.run bench 1 constructedChannel
      [Call.handleMessage (Message.MsgChannelizerNotification 24000 0), Call.start] with
  | some s => s
  | none => constructedChannel

/-! ## Execution contexts and the settings mutex

`m_settingsMutex` is locked in `feed` (line 127, unlocked at line 155) and in
`setInterpolator` (line 480, unlocked at line 486), and nowhere else in
`freqtracker.cpp`.  The methods are split here into the statements that run between two
operations on the mutex, and two execution contexts run their statements in any order
that the mutex allows. -/

/-- The execution contexts that call into a `FreqTracker`: the worker that feeds the
sample blocks and the control context from which configuration and timer calls arrive. -/
inductive Context where
  | worker
  | control
deriving DecidableEq

/-- A statement of a method as far as `m_settingsMutex` is concerned: `lock()`,
`unlock()`, or code that does not touch the mutex, which acts on the object and on the
local variable `ci` of `feed` and has no result when it does not return. -/
inductive Statement where
  | lock
  | unlock
  | run (f : FreqTracker × Complex → Option (FreqTracker × Complex))

/-- The object shared by two contexts: the channel, the local `ci` of `feed`, the owner
of the recursive mutex `m_settingsMutex` with its lock count, and the statements that
each context has still to run. -/
structure Machine where
  channel : FreqTracker
  ci : Complex
  owner : Option Context
  depth : Nat
  worker : List Statement
  control : List Statement

/-- Whether a call on the resampler creates it anew. -/
def InterpolatorCall.isCreate : InterpolatorCall → Bool
  | InterpolatorCall.create _ _ _ => true
  | _ => false

/-- Whether a call on the filter creates its taps anew. -/
def FilterCall.isCreate : FilterCall → Bool
  | FilterCall.create_rrc_filter _ _ => true
  | _ => false

namespace FreqTracker

/-- What `setInterpolator` writes under the lock and `feed` relies on is unchanged:
resampler ratio, squelch gate in samples, and no new creation of the resampler or of the
filter. -/
structure ResamplerKept (s s1 : FreqTracker) : Prop where
  interpolatorDistance : s1.m_interpolatorDistance = s.m_interpolatorDistance
  squelchGate : s1.m_squelchGate = s.m_squelchGate
  interpolator : s1.m_interpolator.filter InterpolatorCall.isCreate
    = s.m_interpolator.filter InterpolatorCall.isCreate
  rrcFilter : s1.m_rrcFilter.filter FilterCall.isCreate
    = s.m_rrcFilter.filter FilterCall.isCreate

/-- Code of a method that acts on the object only and always returns. -/
def onChannel (f : FreqTracker → FreqTracker) :
    FreqTracker × Complex → Option (FreqTracker × Complex) :=
  fun x => some (f x.1, x.2)

/-- Method `feed` after the test of `m_running` (lines 127-155): the mutex is locked,
the loop body runs once per sample of the block, the mutex is unlocked. -/
def feedProgram (K : Externals) (fuel : Nat) (block : List Sample) : List Statement :=
  Statement.lock
    :: (block.map (fun it => Statement.run (fun x => feedSample K fuel x it))
        ++ [Statement.unlock])

/-- Method `setInterpolator` (lines 478-487): the body runs between `lock()` and
`unlock()`. -/
def setInterpolatorProgram : List Statement :=
  [Statement.lock, Statement.run (onChannel setInterpolator), Statement.unlock]

/-- Method `applyChannelSettings` (lines 303-323), called in the state `s`: the
oscillator is set and the members are assigned outside the mutex, `setInterpolator` is
called in between. -/
def applyChannelSettingsProgram (s : FreqTracker) (inputSampleRate inputFrequencyOffset : Int)
    (force : Bool) : List Statement :=
  (if s.m_inputFrequencyOffset ≠ inputFrequencyOffset ∨ s.m_inputSampleRate ≠ inputSampleRate
        ∨ force = true then
      [Statement.run (onChannel (fun x =>
        { x with m_nco := x.m_nco ++ [NcoCall.setFreq (-inputFrequencyOffset) inputSampleRate] }))]
    else [])
  ++ (if s.m_inputSampleRate ≠ inputSampleRate ∨ force = true then setInterpolatorProgram
      else [])
  ++ [Statement.run (onChannel (fun x =>
        { x with m_inputSampleRate := inputSampleRate,
                 m_inputFrequencyOffset := inputFrequencyOffset }))]

/-- Method `applySettings` (lines 325-476), called in the state `s`: the blocks of lines
373-428 run outside the mutex, a change of the stream index calls
`applyChannelSettings`, the configuration is stored outside the mutex (line 469), and
then the channelizer is configured, outside the mutex, or else `setInterpolator` is
called. -/
def applySettingsProgram (K : Externals) (s : FreqTracker) (settings : FreqTrackerSettings)
    (force : Bool) : List Statement :=
  let updateChannelizer : Bool :=
    decide (s.m_settings.m_inputFrequencyOffset ≠ settings.m_inputFrequencyOffset ∨ force = true)
      || decide (s.m_settings.m_log2Decim ≠ settings.m_log2Decim ∨ force = true)
  let updateInterpolator : Bool :=
    decide (s.m_settings.m_rfBandwidth ≠ settings.m_rfBandwidth ∨ force = true)
      || decide (s.m_settings.m_rrcRolloff ≠ settings.m_rrcRolloff ∨ force = true)
      || decide (s.m_settings.m_squelchGate ≠ settings.m_squelchGate ∨ force = true)
  [ Statement.run (onChannel (fun x => applySquelch K x settings force)),
    Statement.run (onChannel (fun x => applyTracking x settings force)),
    Statement.run (onChannel (fun x => applyTrackerType x settings force)),
    Statement.run (onChannel (fun x => applyPskOrder x settings force)) ]
  ++ (if s.m_settings.m_streamIndex ≠ settings.m_streamIndex then
        match K.getSampleMIMO with
        | some getSourceSampleRate =>
          applyChannelSettingsProgram s (getSourceSampleRate settings.m_streamIndex)
            s.m_inputFrequencyOffset false
        | none => []
      else [])
  ++ [Statement.run (onChannel (fun x => { x with m_settings := settings }))]
  ++ (if updateChannelizer then [Statement.run (onChannel configureChannelizer)]
      else if updateInterpolator then setInterpolatorProgram
      else [])

/-- The slot `tick` (lines 796-833): it never touches the mutex, since the configuration
that it applies differs from the current one in the frequency offset only. -/
def tickProgram (K : Externals) : List Statement :=
  [Statement.run (fun x => (tick K x.1).map (fun s => (s, x.2)))]

/-- A program run by one context on its own: the mutex is always free. -/
def alone : List Statement → FreqTracker × Complex → Option (FreqTracker × Complex)
  | [], x => some x
  | Statement.lock :: rest, x => alone rest x
  | Statement.unlock :: rest, x => alone rest x
  | Statement.run f :: rest, x =>
    match f x with
    | none => none
    | some y => alone rest y

/-- Every statement of the program that runs while the context does not hold the mutex
keeps the resampler; `depth` is the number of locks that the context holds at the start
of the program, and the program unlocks only what it holds. -/
def Guarded : Nat → List Statement → Prop
  | _, [] => True
  | depth, Statement.lock :: rest => Guarded (depth + 1) rest
  | depth, Statement.unlock :: rest => 0 < depth ∧ Guarded (depth - 1) rest
  | depth, Statement.run f :: rest =>
    (depth = 0 → ∀ x y, f x = some y → ResamplerKept x.1 y.1) ∧ Guarded depth rest

end FreqTracker

namespace Machine

/-- The statements that a context has still to run. -/
def program (m : Machine) : Context → List Statement
  | Context.worker => m.worker
  | Context.control => m.control

/-- The machine after a context has run its first statement. -/
def advance (m : Machine) (t : Context) (rest : List Statement) : Machine :=
  match t with
  | Context.worker => { m with worker := rest }
  | Context.control => { m with control := rest }

/-- One statement of the context `t`.  There is no result when the context has nothing
to run, when it waits for the mutex, when it unlocks a mutex that it does not hold, or
when the statement does not return. -/
def step (m : Machine) (t : Context) : Option Machine :=
  match m.program t with
  | [] => none
  | Statement.lock :: rest =>
    if m.owner = none ∨ m.owner = some t then
      some (advance { m with owner := some t, depth := m.depth + 1 } t rest)
    else none
  | Statement.unlock :: rest =>
    if m.owner = some t then
      some (advance
        { m with owner := if m.depth ≤ 1 then none else some t, depth := m.depth - 1 } t rest)
    else none
  | Statement.run f :: rest =>
    match f (m.channel, m.ci) with
    | none => none
    | some r => some (advance { m with channel := r.1, ci := r.2 } t rest)

/-- The machine after the contexts have run one statement each in the order of the
schedule. -/
def schedule : Machine → List Context → Option Machine
  | m, [] => some m
  | m, t :: rest =>
    match step m t with
    | none => none
    | some m1 => schedule m1 rest

/-- The machines that a schedule goes through, in order. -/
def trace : Machine → List Context → Option (List Machine)
  | _, [] => some []
  | m, t :: rest =>
    match step m t with
    | none => none
    | some m1 => (trace m1 rest).map (fun ms => m1 :: ms)

/-- The machine in which the worker is about to run `feed` and the control context is
about to run the program `control`, with the mutex free. -/
def start (K : Externals) (fuel : Nat) (s : FreqTracker) (block : List Sample)
    (control : List Statement) : Machine :=
  { channel := s
    ci := { re := 0, im := 0 }
    owner := none
    depth := 0
    worker := FreqTracker.feedProgram K fuel block
    control := control }

/-- The worker is inside a block: what it has still to run are loop bodies of `feed` and
the final `unlock()`. -/
def MidBlock (K : Externals) (fuel : Nat) (m : Machine) : Prop :=
  ∃ rest : List Sample,
    m.worker = rest.map (fun it => Statement.run (fun x => FreqTracker.feedSample K fuel x it))
      ++ [Statement.unlock]

/-- The mutex and the programs fit.  The worker has not started `feed`, or is inside the
block and owns the mutex, or has finished; a free mutex has no lock count; the control
context keeps the resampler in the statements that it runs outside the mutex. -/
def Invariant (K : Externals) (fuel : Nat) (block : List Sample) (m : Machine) : Prop :=
  ((m.worker = FreqTracker.feedProgram K fuel block ∧ m.owner ≠ some Context.worker) ∨
    (MidBlock K fuel m ∧ m.owner = some Context.worker ∧ m.depth = 1) ∨
    (m.worker = [] ∧ m.owner ≠ some Context.worker)) ∧
  (m.owner = none → m.depth = 0) ∧
  (m.owner = some Context.control → FreqTracker.Guarded m.depth m.control) ∧
  (m.owner ≠ some Context.control → FreqTracker.Guarded 0 m.control)

end Machine

/-- The configuration of `ungatedChannel` with the squelch threshold raised to 10 dB. -/
def raisedSquelchSettings : FreqTrackerSettings :=
  { sampleSettings with m_squelchGate := 0, m_squelch := 10 }

/-- A race: the worker locks the mutex and processes the first of two strong samples,
the control context applies `raisedSquelchSettings` to the end without ever needing the
mutex, and the worker processes the second sample and unlocks. -/
def raceSchedule : List Context :=
  [Context.worker, Context.worker]
  ++ List.replicate 5 Context.control
  ++ [Context.worker, Context.worker]

/-- The machine in which `ungatedChannel` is fed two strong samples while
`raisedSquelchSettings` is applied. -/
def raceMachine : Machine :=
  Machine.start bench 1 ungatedChannel (strongBlock 2)
    (FreqTracker.applySettingsProgram bench ungatedChannel raisedSquelchSettings false)

/-- The machine `raceMachine` after the worker has locked the mutex. -/
def lockedRaceMachine : Machine :=
  match Machine.schedule raceMachine [Context.worker] with
  | some m => m
  | none => raceMachine

/-! ## Device enumeration (`sdrbase/device/deviceenumerator.cpp`) -/

/-- The enumeration `PluginInterface::SamplingDevice::SamplingDeviceType`. -/
inductive SamplingDeviceType where
  | PhysicalDevice
  | BuiltInDevice
deriving DecidableEq

/-- The enumeration `PluginInterface::SamplingDevice::StreamType`. -/
inductive StreamType where
  | StreamSingleRx
  | StreamSingleTx
  | StreamMIMO
deriving DecidableEq

/-- The structure `PluginInterface::SamplingDevice` (`plugininterface.h`, lines 51-81);
`claimed` is the device set index if claimed, else `-1`. -/
structure SamplingDevice where
  displayedName : String
  hardwareId : String
  id : String
  serial : String
  sequence : Int
  type : SamplingDeviceType
  streamType : StreamType
  deviceNbItems : Int
  deviceItemIndex : Int
  claimed : Int
deriving DecidableEq

/-- An entry of an enumeration (`DeviceEnumerator::DeviceEnumeration`).  The header
`deviceenumerator.h` is not available: the members are those that
`deviceenumerator.cpp` passes to the constructor and reads; the pointer to the plugin is
left out. -/
structure DeviceEnumeration where
  m_samplingDevice : SamplingDevice
  m_index : Int
deriving DecidableEq

/-- The three enumerations held by `DeviceEnumerator`. -/
structure DeviceEnumerator where
  m_rxEnumeration : List DeviceEnumeration
  m_txEnumeration : List DeviceEnumeration
  m_mimoEnumeration : List DeviceEnumeration
deriving DecidableEq

namespace DeviceEnumerator

/-- The constructor of `PluginInterface::SamplingDevice`, which initialises `claimed` to
`-1`. -/
def samplingDevice (displayedName hardwareId id serial : String) (sequence : Int)
    (type : SamplingDeviceType) (streamType : StreamType)
    (deviceNbItems deviceItemIndex : Int) : SamplingDevice :=
  { displayedName := displayedName
    hardwareId := hardwareId
    id := id
    serial := serial
    sequence := sequence
    type := type
    streamType := streamType
    deviceNbItems := deviceNbItems
    deviceItemIndex := deviceItemIndex
    claimed := -1 }

/-- The inner loop of `enumerateRxDevices` (lines 46-56): the sampling devices of one
registration are pushed back with consecutive indexes.  The state is the enumeration and
the next index. -/
def pushDevices (acc : List DeviceEnumeration × Int) (samplingDevices : List SamplingDevice) :
    List DeviceEnumeration × Int :=
  samplingDevices.foldl
    (fun a d => (a.1 ++ [{ m_samplingDevice := d, m_index := a.2 }], a.2 + 1)) acc

/-- Method `DeviceEnumerator::enumerateRxDevices` (lines 35-59).  The argument holds, per
registration of the plugin manager, the sampling devices that the plugin enumerates. -/
def enumerateRxDevices (d : DeviceEnumerator) (registrations : List (List SamplingDevice)) :
    DeviceEnumerator :=
  { d with m_rxEnumeration := (registrations.foldl pushDevices ([], 0)).1 }

/-- Method `DeviceEnumerator::enumerateTxDevices` (lines 61-85). -/
def enumerateTxDevices (d : DeviceEnumerator) (registrations : List (List SamplingDevice)) :
    DeviceEnumerator :=
  { d with m_txEnumeration := (registrations.foldl pushDevices ([], 0)).1 }

/-- Method `DeviceEnumerator::enumerateMIMODevices` (lines 87-111). -/
def enumerateMIMODevices (d : DeviceEnumerator) (registrations : List (List SamplingDevice)) :
    DeviceEnumerator :=
  { d with m_mimoEnumeration := (registrations.foldl pushDevices ([], 0)).1 }

/-- The body of the loop of `changeRxSelection` (lines 153-158), which is the same text
in `changeTxSelection` and `changeMIMOSelection`: the claim of the tab is released, then
the entry with the device index is claimed. -/
def changeEntry (tabIndex deviceIndex : Int) (it : DeviceEnumeration) : DeviceEnumeration :=
  let it1 :=
    if it.m_samplingDevice.claimed = tabIndex then
      { it with m_samplingDevice := { it.m_samplingDevice with claimed := -1 } }
    else it
  if it1.m_index = deviceIndex then
    { it1 with m_samplingDevice := { it1.m_samplingDevice with claimed := tabIndex } }
  else it1

/-- Method `DeviceEnumerator::changeRxSelection` (lines 149-160). -/
def changeRxSelection (d : DeviceEnumerator) (tabIndex deviceIndex : Int) : DeviceEnumerator :=
  { d with m_rxEnumeration := d.m_rxEnumeration.map (changeEntry tabIndex deviceIndex) }

/-- Method `DeviceEnumerator::changeTxSelection` (lines 162-173). -/
def changeTxSelection (d : DeviceEnumerator) (tabIndex deviceIndex : Int) : DeviceEnumerator :=
  { d with m_txEnumeration := d.m_txEnumeration.map (changeEntry tabIndex deviceIndex) }

/-- Method `DeviceEnumerator::changeMIMOSelection` (lines 175-186). -/
def changeMIMOSelection (d : DeviceEnumerator) (tabIndex deviceIndex : Int) :
    DeviceEnumerator :=
  { d with m_mimoEnumeration := d.m_mimoEnumeration.map (changeEntry tabIndex deviceIndex) }

/-- The relation between an entry before and after a change of selection by the tab
`tabIndex` to the device `deviceIndex`: the entry is the same but for its claim, it is
claimed by the tab iff its index is the device index, and it keeps its claim when it
neither has the device index nor was claimed by the tab. -/
def Reselected (tabIndex deviceIndex : Int) (before after : DeviceEnumeration) : Prop :=
  after.m_index = before.m_index ∧
  { after.m_samplingDevice with claimed := 0 } = { before.m_samplingDevice with claimed := 0 } ∧
  (after.m_samplingDevice.claimed = tabIndex ↔ before.m_index = deviceIndex) ∧
  (before.m_index ≠ deviceIndex → before.m_samplingDevice.claimed ≠ tabIndex →
    after.m_samplingDevice.claimed = before.m_samplingDevice.claimed)

/-- The number of entries of an enumeration that the tab `tabIndex` claims. -/
def claimedBy (tabIndex : Int) (enumeration : List DeviceEnumeration) : Nat :=
  enumeration.countP (fun it => decide (it.m_samplingDevice.claimed = tabIndex))

/-- Outcome of a change of selection on one enumeration: entry by entry the relation
`Reselected` holds, and when the indexes are pairwise distinct and the device index is
present exactly one entry is claimed by the tab afterwards. -/
def SelectionChanged (tabIndex deviceIndex : Int)
    (before after : List DeviceEnumeration) : Prop :=
  List.Forall₂ (Reselected tabIndex deviceIndex) before after ∧
  ((before.map DeviceEnumeration.m_index).Nodup →
    deviceIndex ∈ before.map DeviceEnumeration.m_index → claimedBy tabIndex after = 1)

/-- The sampling devices of two registrations: a built-in file input, and two dongles
enumerated by one plugin. -/
def sampleRegistrations : List (List SamplingDevice) :=
  [ [ samplingDevice "FileInput" "FileInput" "sdrangel.samplesource.fileinput" "0" 0
        SamplingDeviceType.BuiltInDevice StreamType.StreamSingleRx 1 0 ],
    [ samplingDevice "RTL-SDR[0]" "RTLSDR" "sdrangel.samplesource.rtlsdr" "0001" 0
        SamplingDeviceType.PhysicalDevice StreamType.StreamSingleRx 1 0,
      samplingDevice "RTL-SDR[1]" "RTLSDR" "sdrangel.samplesource.rtlsdr" "0002" 1
        SamplingDeviceType.PhysicalDevice StreamType.StreamSingleRx 1 0 ] ]

/-- An enumerator whose Rx enumeration holds the devices of `sampleRegistrations`, the
second of which is claimed by the tab 0. -/
def sampleEnumerator : DeviceEnumerator :=
  changeRxSelection
    (enumerateRxDevices
      { m_rxEnumeration := [], m_txEnumeration := [], m_mimoEnumeration := [] }
      sampleRegistrations)
    0 1

end DeviceEnumerator

/-! ## ATV modulator (`plugins/channeltx/modatv/atvmodsource.cpp`) -/

namespace ATVModSource

/-- Conversion of an `int` to `uint32_t`: the value modulo `2^32`. -/
def toUInt32 (x : Int) : Nat :=
  (x % 2 ^ 32).toNat

/-- Conversion of an unsigned 32 bit value to `int`: values from `2^31` on wrap to the
negative range. -/
def toInt32 (x : Nat) : Int :=
  if x % 2 ^ 32 < 2 ^ 31 then ((x % 2 ^ 32 : Nat) : Int) else ((x % 2 ^ 32 : Nat) : Int) - 2 ^ 32

/-- The `for` loop of `getBaseValues` (lines 495-499): `i` counts down and the loop is
left at the first `i` for which `i * linesPerSecond` is a multiple of 10, or at 0.  The
result is the value of `i` after the loop. -/
def searchPoints (linesPerSecond : Int) : Nat → Nat
  | 0 => 0
  | i + 1 =>
    if Int.tmod (((i + 1 : Nat) : Int) * linesPerSecond) 10 = 0 then i + 1
    else searchPoints linesPerSecond i

/-- Method `ATVModSource::getBaseValues` (lines 490-503); the result is the pair
`(sampleRateUnits, nbPointsPerRateUnit)` and `none` stands for the integer division by
zero of line 492.  The multiplication of line 502 is done on unsigned 32 bit values. -/
def getBaseValues (outputSampleRate linesPerSecond : Int) : Option (Int × Nat) :=
  if linesPerSecond = 0 then none
  else
    let maxPoints : Int := Int.tdiv outputSampleRate linesPerSecond
    let i : Int :=
      if maxPoints > 0 then ((searchPoints linesPerSecond maxPoints.toNat : Nat) : Int)
      else maxPoints
    let nbPointsPerRateUnit : Nat := toUInt32 (if i = 0 then maxPoints else i)
    let sampleRateUnits : Int :=
      toInt32 ((nbPointsPerRateUnit * toUInt32 linesPerSecond) % 2 ^ 32)
    some (sampleRateUnits, nbPointsPerRateUnit)

end ATVModSource

namespace ATVModSource

/-- The members of `ATVModSource` that the raster counters of `pullVideo` read or write.
The header `atvmodsource.h` is not available; the counters and the raster sizes are
integers here. -/
structure Raster where
  m_horizontalCount : Int
  m_lineCount : Int
  m_nbHorizPoints : Int
  m_nbLines : Int
  m_evenImage : Bool
deriving DecidableEq

/-- Lines 283-298 and 466-470 of `ATVModSource::pullVideo`: the advance of the raster
counters after the sample of the current point has been pulled.  The computation of the
sample (lines 244-281, `pullImageLine` and `pullVSyncLine` of the missing header) and the
fetch of the next video or camera frame (lines 298-465) do not assign the counters and
are left out. -/
def pullVideo (r : Raster) : Raster :=
  if r.m_horizontalCount < r.m_nbHorizPoints - 1 then
    { r with m_horizontalCount := r.m_horizontalCount + 1 }
  else
    let r1 :=
      if r.m_lineCount < r.m_nbLines - 1 then
        let r2 := { r with m_lineCount := r.m_lineCount + 1 }
        if r2.m_lineCount > Int.tdiv r2.m_nbLines 2 then { r2 with m_evenImage := !r2.m_evenImage }
        else r2
      else
        { r with m_lineCount := 0, m_evenImage := !r.m_evenImage }
    { r1 with m_horizontalCount := 0 }

/-- A raster of 4 points by 3 lines, at the last point of the last line. -/
def smallRaster : Raster :=
  { m_horizontalCount := 3, m_lineCount := 2, m_nbHorizPoints := 4, m_nbLines := 3,
    m_evenImage := true }

end ATVModSource

namespace ATVModSource

/-- The constant `ATVModSource::m_ssbFftLen` (line 40). -/
def m_ssbFftLen : Nat := 1024

/-- The number of samples of the buffer `m_SSBFilterBuffer` that the constructor
allocates (line 70: `new Complex[m_ssbFftLen>>1]`). -/
def bufferLength : Nat := m_ssbFftLen >>> 1

/-- The single sideband stage of `ATVModSource`: the filter `m_SSBFilter`, whose code
(`fftfilt`) is not available and whose state is the number of `runSSB` calls made on it
since it was last created, and the index into the buffer `m_SSBFilterBuffer`. -/
structure SSBStage where
  m_SSBFilter : Nat
  m_SSBFilterBufferIndex : Int
deriving DecidableEq

/-- What one `modulateSSB` call does to the buffer: the number of samples that `memcpy`
writes from the start of the buffer, and the index of the sample that is returned. -/
structure SSBAccess where
  copied : Int
  readIndex : Int
deriving DecidableEq

/-- The SSB stage after the constructor (lines 59-71): a new filter and the index 0. -/
def constructSSB : SSBStage :=
  { m_SSBFilter := 0, m_SSBFilterBufferIndex := 0 }

/-- Lines 912-914 of `applyChannelSettings` and lines 975-977 of `applySettings`: the
filter is created anew, the buffer is cleared and the index is reset. -/
def resetSSB (s : SSBStage) : SSBStage :=
  { s with m_SSBFilter := 0, m_SSBFilterBufferIndex := 0 }

/-- Method `ATVModSource::modulateSSB` (lines 204-221).  `runSSB` gives the number of
samples `n_out` that the filter returns, as a function of the number of calls made on
the filter before this one. -/
def modulateSSB (runSSB : Nat → Int) (s : SSBStage) : SSBStage × SSBAccess :=
  let n_out := runSSB s.m_SSBFilter
  let s1 := { s with m_SSBFilter := s.m_SSBFilter + 1 }
  let s2 := if n_out > 0 then { s1 with m_SSBFilterBufferIndex := 0 } else s1
  let s3 := { s2 with m_SSBFilterBufferIndex := s2.m_SSBFilterBufferIndex + 1 }
  (s3, { copied := if n_out > 0 then n_out else 0, readIndex := s3.m_SSBFilterBufferIndex - 1 })

/-- The operations on the SSB stage: a `modulateSSB` call, or a reconfiguration that
creates the filter anew. -/
inductive SSBCall where
  | modulateSSB
  | reset
deriving DecidableEq

/-- A sequence of operations on the SSB stage, with the buffer accesses of its
`modulateSSB` calls in order. -/
def runSSBCalls (runSSB : Nat → Int) : SSBStage → List SSBCall → SSBStage × List SSBAccess
  | s, [] => (s, [])
  | s, SSBCall.modulateSSB :: rest =>
    let r := modulateSSB runSSB s
    let t := runSSBCalls runSSB r.1 rest
    (t.1, r.2 :: t.2)
  | s, SSBCall.reset :: rest => runSSBCalls runSSB (resetSSB s) rest

/-- A filter that returns half of its FFT size on every `(m_ssbFftLen/2)`-th call since it
was created and nothing on every other call. -/
def blockFilter (calls : Nat) : Int :=
  if (calls + 1) % (m_ssbFftLen / 2) = 0 then ((m_ssbFftLen / 2 : Nat) : Int) else 0

/-- The buffer index is not negative and never runs ahead of the position of the filter
in its block. -/
def SSBInvariant (s : SSBStage) : Prop :=
  0 ≤ s.m_SSBFilterBufferIndex ∧
  s.m_SSBFilterBufferIndex ≤ ((s.m_SSBFilter % (m_ssbFftLen / 2) : Nat) : Int) + 1

end ATVModSource

namespace ATVModSource

/-- Lines 180-183 of `ATVModSource::modulateSample`, the FM case: the new value of the
phase accumulator `m_modPhasor` for the video level `t`.  `M_PI` is the constant of the C
library and `fmExcursion` is `m_settings.m_fmExcursion`; the computation of the sample
from the accumulator (`cos`, `sin`, lines 184-185) is left out. -/
def modulateFM (M_PI fmExcursion : ℚ) (m_modPhasor t : ℚ) : ℚ :=
  let p1 := m_modPhasor + (t - 1 / 2) * fmExcursion * 2 * M_PI
  let p2 := if p1 > 2 * M_PI then p1 - 2 * M_PI else p1
  if p2 < 2 * M_PI then p2 + 2 * M_PI else p2

/-- The values that the phase accumulator takes over consecutive FM `modulateSample`
steps, each given by its video level and the FM excursion in force. -/
def phasors (M_PI : ℚ) : ℚ → List (ℚ × ℚ) → List ℚ
  | _, [] => []
  | m_modPhasor, step :: rest =>
    modulateFM M_PI step.2 m_modPhasor step.1
      :: phasors M_PI (modulateFM M_PI step.2 m_modPhasor step.1) rest

end ATVModSource

/-! ## Remote sink GUI (`plugins/channelrx/remotesink/remotesinkgui.cpp`) -/

/-- The fields of `RemoteSinkSettings` that the data address and data port handlers
write (the header `remotesinksettings.h` is not available). -/
structure RemoteSinkSettings where
  m_dataAddress : String
  m_dataPort : Int
deriving DecidableEq

/-- The members of `RemoteSinkGUI` that the two data port handlers read or write: the
texts of the address and port fields of the form, the settings, and the number of calls
of `applySettings()` made so far. -/
structure RemoteSinkGUI where
  dataAddress : String
  dataPort : String
  m_settings : RemoteSinkSettings
  applySettingsCalls : Nat
deriving DecidableEq

namespace RemoteSinkGUI

/-- Method `RemoteSinkGUI::on_dataPort_returnPressed` (lines 322-337).  `toInt` stands
for `QString::toInt`, which returns the value and the flag `ok`. -/
def on_dataPort_returnPressed (toInt : String → Int × Bool) (g : RemoteSinkGUI) :
    RemoteSinkGUI :=
  let dataOk := (toInt g.dataPort).2
  let dataPort := (toInt g.dataPort).1
  if (!dataOk) || decide (dataPort < 1024) || decide (dataPort > 65535) then g
  else
    { g with
      m_settings := { g.m_settings with m_dataPort := dataPort }
      applySettingsCalls := g.applySettingsCalls + 1 }

/-- Method `RemoteSinkGUI::on_dataApplyButton_clicked` (lines 339-353). -/
def on_dataApplyButton_clicked (toInt : String → Int × Bool) (g : RemoteSinkGUI) :
    RemoteSinkGUI :=
  let g1 := { g with m_settings := { g.m_settings with m_dataAddress := g.dataAddress } }
  let dataOk := (toInt g1.dataPort).2
  let udpDataPort := (toInt g1.dataPort).1
  let g2 :=
    if dataOk && decide (udpDataPort ≥ 1024) && decide (udpDataPort < 65535) then
      { g1 with m_settings := { g1.m_settings with m_dataPort := udpDataPort } }
    else g1
  { g2 with applySettingsCalls := g2.applySettingsCalls + 1 }

/-- A reading of decimal integers for `QString::toInt`: the value and `true`, or `0` and
`false` when the text is not a decimal integer. -/
def decimalToInt (text : String) : Int × Bool :=
  match text.toInt? with
  | some value => (value, true)
  | none => (0, false)

/-- A form with the port 9090 in use and the text `65535` in the port field. -/
def lastPortForm : RemoteSinkGUI :=
  { dataAddress := "127.0.0.1"
    dataPort := "65535"
    m_settings := { m_dataAddress := "127.0.0.1", m_dataPort := 9090 }
    applySettingsCalls := 0 }

end RemoteSinkGUI

namespace FreqTracker

/-! ## Frame lemmas of the sample step -/

theorem updatePower_squelch (K : Externals) (s : FreqTracker) (sb : Complex) :
    (updatePower K s sb).1.m_squelchGate = s.m_squelchGate ∧
    (updatePower K s sb).1.m_squelchCount = s.m_squelchCount ∧
    (updatePower K s sb).1.m_squelchLevel = s.m_squelchLevel ∧
    (updatePower K s sb).1.m_squelchOpen = s.m_squelchOpen ∧
    (updatePower K s sb).1.m_settings = s.m_settings ∧
    (updatePower K s sb).1.m_pll = s.m_pll ∧
    (updatePower K s sb).1.m_fll = s.m_fll := by
  simp [updatePower]

theorem updateSquelch_frame (s : FreqTracker) :
    (updateSquelch s).m_squelchGate = s.m_squelchGate ∧
    (updateSquelch s).m_squelchLevel = s.m_squelchLevel ∧
    (updateSquelch s).m_magsq = s.m_magsq ∧
    (updateSquelch s).m_settings = s.m_settings ∧
    (updateSquelch s).m_pll = s.m_pll ∧
    (updateSquelch s).m_fll = s.m_fll := by
  unfold updateSquelch
  split_ifs <;> simp

theorem feedTracker_frame (s : FreqTracker) (re im : ℚ) :
    (feedTracker s re im).m_squelchGate = s.m_squelchGate ∧
    (feedTracker s re im).m_squelchLevel = s.m_squelchLevel ∧
    (feedTracker s re im).m_squelchCount = s.m_squelchCount ∧
    (feedTracker s re im).m_squelchOpen = s.m_squelchOpen ∧
    (feedTracker s re im).m_magsq = s.m_magsq ∧
    (feedTracker s re im).m_settings = s.m_settings := by
  unfold feedTracker
  split_ifs <;> simp

/-- The squelch fields after one processed output are those of `updateSquelch` applied
to the state with the new smoothed power. -/
theorem processSideband_squelch (K : Externals) (s : FreqTracker) (sb : Complex) :
    (processSideband K s sb).m_squelchGate = s.m_squelchGate ∧
    (processSideband K s sb).m_squelchLevel = s.m_squelchLevel ∧
    (processSideband K s sb).m_settings = s.m_settings ∧
    (processSideband K s sb).m_magsq = (updatePower K s sb).1.m_magsq ∧
    (processSideband K s sb).m_squelchCount =
      (updateSquelch (updatePower K s sb).1).m_squelchCount ∧
    (processSideband K s sb).m_squelchOpen =
      (updateSquelch (updatePower K s sb).1).m_squelchOpen := by
  have hp := updatePower_squelch K s sb
  have hu := updateSquelch_frame (updatePower K s sb).1
  have hf := feedTracker_frame (updateSquelch (updatePower K s sb).1)
    (updatePower K s sb).2.1 (updatePower K s sb).2.2
  simp only [processSideband]
  refine ⟨?_, ?_, ?_, ?_, ?_, ?_⟩
  · rw [hf.1, hu.1, hp.1]
  · rw [hf.2.1, hu.2.1, hp.2.2.1]
  · rw [hf.2.2.2.2.2, hu.2.2.2.1, hp.2.2.2.2.1]
  · rw [hf.2.2.2.2.1, hu.2.2.1]
  · rw [hf.2.2.1]
  · rw [hf.2.2.2.1]

/-- The squelch step at or above the threshold with a positive gate. -/
theorem updateSquelch_above (s : FreqTracker) (hG : 0 < s.m_squelchGate)
    (hge : s.m_squelchLevel ≤ s.m_magsq) :
    (updateSquelch s).m_squelchCount
      = (if s.m_squelchCount < 2 * s.m_squelchGate then s.m_squelchCount + 1
          else s.m_squelchCount) ∧
    (updateSquelch s).m_squelchOpen
      = decide ((updateSquelch s).m_squelchCount ≥ s.m_squelchGate) := by
  have hnlt : ¬ s.m_magsq < s.m_squelchLevel := not_lt.mpr hge
  have hG1 : s.m_squelchGate > 0 := hG
  unfold updateSquelch
  rw [if_neg hnlt, if_pos hG1]
  exact ⟨rfl, rfl⟩

/-- The squelch step below the threshold with a positive gate. -/
theorem updateSquelch_below (s : FreqTracker) (hG : 0 < s.m_squelchGate)
    (hlt : s.m_magsq < s.m_squelchLevel) :
    (updateSquelch s).m_squelchCount = s.m_squelchCount - 1 ∧
    (updateSquelch s).m_squelchOpen
      = decide ((updateSquelch s).m_squelchCount ≥ s.m_squelchGate) := by
  have hG1 : s.m_squelchGate > 0 := hG
  unfold updateSquelch
  rw [if_pos hlt, if_pos hG1]
  refine ⟨?_, rfl⟩
  show (if s.m_squelchCount > 0 then s.m_squelchCount - 1 else s.m_squelchCount) = _
  split_ifs with h0
  · rfl
  · omega

/-- One processed sample below the threshold with a positive gate. -/
theorem squelch_below_step (K : Externals) (s : FreqTracker) (sb : Complex)
    (hG : 0 < s.m_squelchGate)
    (hlt : (processSideband K s sb).m_magsq < s.m_squelchLevel) :
    (processSideband K s sb).m_squelchCount = s.m_squelchCount - 1 ∧
    (processSideband K s sb).m_squelchOpen
      = decide ((processSideband K s sb).m_squelchCount ≥ s.m_squelchGate) := by
  obtain ⟨_, _, _, hm, hc, ho⟩ := processSideband_squelch K s sb
  obtain ⟨hpg, hpc, hpl, _⟩ := updatePower_squelch K s sb
  rw [hm, ← hpl] at hlt
  have hu := updateSquelch_below (updatePower K s sb).1 (by rw [hpg]; exact hG) hlt
  rw [hpc, hpg] at hu
  rw [hc, ho]
  exact hu

/-- One processed sample at or above the threshold with a positive gate. -/
theorem squelch_above_step (K : Externals) (s : FreqTracker) (sb : Complex)
    (hG : 0 < s.m_squelchGate)
    (hge : s.m_squelchLevel ≤ (processSideband K s sb).m_magsq) :
    (processSideband K s sb).m_squelchCount
      = (if s.m_squelchCount < 2 * s.m_squelchGate then s.m_squelchCount + 1
          else s.m_squelchCount) ∧
    (processSideband K s sb).m_squelchOpen
      = decide ((processSideband K s sb).m_squelchCount ≥ s.m_squelchGate) := by
  obtain ⟨_, _, _, hm, hc, ho⟩ := processSideband_squelch K s sb
  obtain ⟨hpg, hpc, hpl, _⟩ := updatePower_squelch K s sb
  rw [hm, ← hpl] at hge
  have hu := updateSquelch_above (updatePower K s sb).1 (by rw [hpg]; exact hG) hge
  rw [hpc, hpg] at hu
  rw [hc, ho]
  exact hu

/-! ## The squelch step (C1, C2, C3) -/

/-- C1. Squelch step below the threshold with a gate: when the gate `G` is positive and
the smoothed power computed for the processed sample is below the squelch level, the
step sets the counter to `max (counter - 1) 0` and the open flag to
`new counter >= G`; without the filter stage `processOneSample` is exactly this step. -/
theorem squelch_below_threshold_with_gate (K : Externals) (s : FreqTracker) (sb : Complex)
    (hG : 0 < s.m_squelchGate)
    (hlt : (processSideband K s sb).m_magsq < s.m_squelchLevel) :
    ((processSideband K s sb).m_squelchCount : Int) = max ((s.m_squelchCount : Int) - 1) 0 ∧
    (processSideband K s sb).m_squelchOpen
      = decide ((processSideband K s sb).m_squelchCount ≥ s.m_squelchGate) ∧
    (s.m_settings.m_rrc = false → processOneSample K s sb = processSideband K s sb) := by
  obtain ⟨_, _, _, hm, hc, ho⟩ := processSideband_squelch K s sb
  obtain ⟨hpg, hpc, hpl, _⟩ := updatePower_squelch K s sb
  rw [hm, ← hpl] at hlt
  rw [hc, ho]
  refine ⟨?_, ?_, ?_⟩
  · unfold updateSquelch
    rw [if_pos hlt, if_pos (by rw [hpg]; exact hG)]
    simp only [hpc]
    split_ifs with h0
    · have : 1 ≤ s.m_squelchCount := h0
      rw [Nat.cast_sub this]
      simp
      omega
    · have : s.m_squelchCount = 0 := by omega
      simp [this]
  · unfold updateSquelch
    rw [if_pos hlt, if_pos (by rw [hpg]; exact hG)]
    simp only [hpg]
  · intro hr
    simp [processOneSample, hr]

/-- Witness of C1: on `countedChannel` (gate 480, counter 3) a silent sample brings the
counter to 2 and leaves the squelch closed. -/
theorem squelch_below_threshold_with_gate_witness :
    0 < countedChannel.m_squelchGate ∧
    (processSideband bench countedChannel silentSample).m_magsq < countedChannel.m_squelchLevel ∧
    ((processSideband bench countedChannel silentSample).m_squelchCount : Int)
      = max ((countedChannel.m_squelchCount : Int) - 1) 0 :=
  have h1 : 0 < countedChannel.m_squelchGate := by decide
  have h2 : (processSideband bench countedChannel silentSample).m_magsq
      < countedChannel.m_squelchLevel := by
    simp [processSideband, updatePower, updateSquelch, feedTracker, countedChannel,
      startedChannel, start, construct, applyChannelSettings, setInterpolator, bench,
      silentSample, sampleSettings]
  ⟨h1, h2, (squelch_below_threshold_with_gate bench countedChannel silentSample h1 h2).1⟩

/-- C2 (as amended). Squelch step at or above the threshold with a gate: when the gate
`G` is positive and the smoothed power computed for the processed sample is at least the
squelch level, the step increments the counter if it is below `2 * G` and leaves it
unchanged otherwise; for a counter that does not exceed `2 * G` this is
`min (counter + 1) (2 * G)`.  The open flag is then `new counter >= G`. -/
theorem squelch_above_threshold_with_gate (K : Externals) (s : FreqTracker) (sb : Complex)
    (hG : 0 < s.m_squelchGate)
    (hge : s.m_squelchLevel ≤ (processSideband K s sb).m_magsq) :
    (processSideband K s sb).m_squelchCount
      = (if s.m_squelchCount < 2 * s.m_squelchGate then s.m_squelchCount + 1
          else s.m_squelchCount) ∧
    (s.m_squelchCount ≤ 2 * s.m_squelchGate →
      (processSideband K s sb).m_squelchCount
        = min (s.m_squelchCount + 1) (2 * s.m_squelchGate)) ∧
    (processSideband K s sb).m_squelchOpen
      = decide ((processSideband K s sb).m_squelchCount ≥ s.m_squelchGate) ∧
    (s.m_settings.m_rrc = false → processOneSample K s sb = processSideband K s sb) := by
  obtain ⟨_, _, _, hm, hc, ho⟩ := processSideband_squelch K s sb
  obtain ⟨hpg, hpc, hpl, _⟩ := updatePower_squelch K s sb
  rw [hm, ← hpl] at hge
  have hu := updateSquelch_above (updatePower K s sb).1 (by rw [hpg]; exact hG) hge
  rw [hpc, hpg] at hu
  rw [hc, ho]
  refine ⟨hu.1, ?_, hu.2, ?_⟩
  · intro hle
    rw [hu.1]
    split_ifs with h0
    · omega
    · omega
  · intro hr
    simp [processOneSample, hr]

/-- Witness of C2 (as amended): on `countedChannel` (gate 480, counter 3) a full scale
sample brings the counter to 4. -/
theorem squelch_above_threshold_with_gate_witness :
    0 < countedChannel.m_squelchGate ∧
    countedChannel.m_squelchLevel ≤ (processSideband bench countedChannel strongSample).m_magsq ∧
    (processSideband bench countedChannel strongSample).m_squelchCount
      = (if countedChannel.m_squelchCount < 2 * countedChannel.m_squelchGate
          then countedChannel.m_squelchCount + 1 else countedChannel.m_squelchCount) :=
  have h1 : 0 < countedChannel.m_squelchGate := by decide
  have h2 : countedChannel.m_squelchLevel
      ≤ (processSideband bench countedChannel strongSample).m_magsq := by decide!
  ⟨h1, h2, (squelch_above_threshold_with_gate bench countedChannel strongSample h1 h2).1⟩

/-- Counterexample to C2 as stated: at the end of `loweredGateRun` the gate is 7 and the
counter is 15; a further sample at or above the threshold leaves the counter at 15,
which is not `min (15 + 1) (2 * 7)`. -/
theorem squelch_above_threshold_counterexample :
    run bench 1 constructedChannel loweredGateRun = some loweredGateChannel ∧
    0 < loweredGateChannel.m_squelchGate ∧
    loweredGateChannel.m_squelchLevel
      ≤ (processSideband bench loweredGateChannel strongSample).m_magsq ∧
    loweredGateChannel.m_squelchGate = 7 ∧
    loweredGateChannel.m_squelchCount = 15 ∧
    (processSideband bench loweredGateChannel strongSample).m_squelchCount = 15 ∧
    (processSideband bench loweredGateChannel strongSample).m_squelchCount
      ≠ min (loweredGateChannel.m_squelchCount + 1) (2 * loweredGateChannel.m_squelchGate) := by
  decide!

/-- C3. Squelch with gate 0: after the step the open flag equals
`smoothed power >= squelch level`, whatever the counter and the previous flag were, and
the counter is not changed; without the filter stage `processOneSample` is exactly this
step. -/
theorem squelch_without_gate (K : Externals) (s : FreqTracker) (sb : Complex)
    (hG : s.m_squelchGate = 0) :
    (processSideband K s sb).m_squelchOpen
      = decide (s.m_squelchLevel ≤ (processSideband K s sb).m_magsq) ∧
    (processSideband K s sb).m_squelchCount = s.m_squelchCount ∧
    (s.m_settings.m_rrc = false → processOneSample K s sb = processSideband K s sb) := by
  obtain ⟨_, _, _, hm, hc, ho⟩ := processSideband_squelch K s sb
  obtain ⟨hpg, hpc, hpl, _⟩ := updatePower_squelch K s sb
  have hg0 : ¬ (updatePower K s sb).1.m_squelchGate > 0 := by rw [hpg, hG]; exact lt_irrefl 0
  rw [hm, hc, ho, ← hpl]
  refine ⟨?_, ?_, ?_⟩
  · unfold updateSquelch
    by_cases hlt : (updatePower K s sb).1.m_magsq < (updatePower K s sb).1.m_squelchLevel
    · rw [if_pos hlt, if_neg hg0]
      simp [hlt]
    · rw [if_neg hlt, if_neg hg0]
      simp [not_lt.mp hlt]
  · unfold updateSquelch
    split_ifs <;> simp [hpc]
  · intro hr
    simp [processOneSample, hr]

/-- Witness of C3: `ungatedChannel` has gate 0, and a full scale sample opens it at
once. -/
theorem squelch_without_gate_witness :
    ungatedChannel.m_squelchGate = 0 ∧
    (processSideband bench ungatedChannel strongSample).m_squelchOpen
      = decide (ungatedChannel.m_squelchLevel
          ≤ (processSideband bench ungatedChannel strongSample).m_magsq) :=
  have h1 : ungatedChannel.m_squelchGate = 0 := by decide
  ⟨h1, (squelch_without_gate bench ungatedChannel strongSample h1).1⟩

/-! ## Hysteresis of the squelch (C5, C6) -/

theorem processAll_cons (K : Externals) (s : FreqTracker) (sb : Complex) (rest : List Complex) :
    processAll K s (sb :: rest) = processAll K (processSideband K s sb) rest := rfl

/-- Consecutive samples below the threshold: the counter goes down by the number of
samples (not below 0) and, if there was a sample, the flag tells whether the counter
is still at or above the gate. -/
theorem processAll_below (K : Externals) (sbs : List Complex) :
    ∀ s : FreqTracker, 0 < s.m_squelchGate → allBelow K s sbs = true →
      (processAll K s sbs).m_squelchGate = s.m_squelchGate ∧
      (processAll K s sbs).m_squelchCount = s.m_squelchCount - sbs.length ∧
      (sbs ≠ [] → (processAll K s sbs).m_squelchOpen
        = decide ((processAll K s sbs).m_squelchCount ≥ s.m_squelchGate)) := by
  induction sbs with
  | nil => intro s _ _; simp [processAll]
  | cons sb rest ih =>
    intro s hG hall
    simp only [allBelow, Bool.and_eq_true, decide_eq_true_eq] at hall
    obtain ⟨hg, hl, _, _, _, _⟩ := processSideband_squelch K s sb
    have h1 := squelch_below_step K s sb hG hall.1
    have ih1 := ih (processSideband K s sb) (by rw [hg]; exact hG) hall.2
    rw [processAll_cons]
    rw [hg] at ih1
    refine ⟨ih1.1, ?_, ?_⟩
    · rw [ih1.2.1, h1.1, List.length_cons]; omega
    · intro _
      by_cases hr : rest = []
      · subst hr
        simp only [processAll, List.foldl_nil]
        exact h1.2
      · exact ih1.2.2 hr

/-- Consecutive samples at or above the threshold, from a counter within `2 * gate`: the
counter goes up by the number of samples, up to `2 * gate`. -/
theorem processAll_above (K : Externals) (sbs : List Complex) :
    ∀ s : FreqTracker, 0 < s.m_squelchGate → s.m_squelchCount ≤ 2 * s.m_squelchGate →
      allAbove K s sbs = true →
      (processAll K s sbs).m_squelchGate = s.m_squelchGate ∧
      (processAll K s sbs).m_squelchCount
        = min (s.m_squelchCount + sbs.length) (2 * s.m_squelchGate) ∧
      (sbs ≠ [] → (processAll K s sbs).m_squelchOpen
        = decide ((processAll K s sbs).m_squelchCount ≥ s.m_squelchGate)) := by
  induction sbs with
  | nil => intro s _ hle _; simp [processAll, hle]
  | cons sb rest ih =>
    intro s hG hle hall
    simp only [allAbove, Bool.and_eq_true, decide_eq_true_eq] at hall
    obtain ⟨hg, hl, _, _, _, _⟩ := processSideband_squelch K s sb
    have h1 := squelch_above_step K s sb hG hall.1
    have hc : (processSideband K s sb).m_squelchCount
        = min (s.m_squelchCount + 1) (2 * s.m_squelchGate) := by
      rw [h1.1]; split_ifs <;> omega
    have ih1 := ih (processSideband K s sb) (by rw [hg]; exact hG)
      (by rw [hg, hc]; omega) hall.2
    rw [processAll_cons]
    rw [hg] at ih1
    refine ⟨ih1.1, ?_, ?_⟩
    · rw [ih1.2.1, hc, List.length_cons]; omega
    · intro _
      by_cases hr : rest = []
      · subst hr
        simp only [processAll, List.foldl_nil]
        exact h1.2
      · exact ih1.2.2 hr

theorem allBelow_take (K : Externals) (sbs : List Complex) :
    ∀ (s : FreqTracker) (n : Nat), allBelow K s sbs = true → allBelow K s (sbs.take n) = true := by
  induction sbs with
  | nil => intro s n h; simpa using h
  | cons sb rest ih =>
    intro s n h
    cases n with
    | zero => simp [allBelow]
    | succ n =>
      simp only [allBelow, Bool.and_eq_true, decide_eq_true_eq, List.take_succ_cons] at h ⊢
      exact ⟨h.1, ih _ n h.2⟩

theorem allAbove_take (K : Externals) (sbs : List Complex) :
    ∀ (s : FreqTracker) (n : Nat), allAbove K s sbs = true → allAbove K s (sbs.take n) = true := by
  induction sbs with
  | nil => intro s n h; simpa using h
  | cons sb rest ih =>
    intro s n h
    cases n with
    | zero => simp [allAbove]
    | succ n =>
      simp only [allAbove, Bool.and_eq_true, decide_eq_true_eq, List.take_succ_cons] at h ⊢
      exact ⟨h.1, ih _ n h.2⟩

/-- C5 (as amended). Short excursions do not flip the squelch: with a gate `G > 0`, from
a counter `c >= G` any `k <= c - G` consecutive samples below the threshold leave the
squelch open after each of them (from the saturated counter `2 * G` this is every
`k <= G`); from a counter `c < G` any `k < G - c` consecutive samples at or above the
threshold leave it closed after each of them (from the counter 0 this is every
`k < G`). -/
theorem squelch_short_excursion (K : Externals) (s : FreqTracker) (sbs : List Complex)
    (hG : 0 < s.m_squelchGate) :
    (s.m_squelchGate ≤ s.m_squelchCount → allBelow K s sbs = true →
      sbs.length ≤ s.m_squelchCount - s.m_squelchGate →
      ∀ n, 0 < n → n ≤ sbs.length → (processAll K s (sbs.take n)).m_squelchOpen = true) ∧
    (s.m_squelchCount < s.m_squelchGate → allAbove K s sbs = true →
      sbs.length < s.m_squelchGate - s.m_squelchCount →
      ∀ n, 0 < n → n ≤ sbs.length → (processAll K s (sbs.take n)).m_squelchOpen = false) := by
  constructor
  · intro hc hall hlen n hn hnl
    have hl : (sbs.take n).length = n := by rw [List.length_take]; omega
    have hne : sbs.take n ≠ [] := by
      intro h
      rw [h, List.length_nil] at hl
      omega
    obtain ⟨_, hcount, hopen⟩ := processAll_below K (sbs.take n) s hG (allBelow_take K sbs s n hall)
    rw [hopen hne, hcount, hl]
    simp only [ge_iff_le, decide_eq_true_eq]
    omega
  · intro hc hall hlen n hn hnl
    have hl : (sbs.take n).length = n := by rw [List.length_take]; omega
    have hne : sbs.take n ≠ [] := by
      intro h
      rw [h, List.length_nil] at hl
      omega
    obtain ⟨_, hcount, hopen⟩ :=
      processAll_above K (sbs.take n) s hG (by omega) (allAbove_take K sbs s n hall)
    rw [hopen hne, hcount, hl]
    simp only [ge_iff_le, decide_eq_false_iff_not, not_le]
    omega

/-- Witness of C5 (as amended): `countedChannel` has gate 480 and counter 3; two full
scale samples leave its squelch closed after each of them. -/
theorem squelch_short_excursion_witness :
    0 < countedChannel.m_squelchGate ∧
    (processAll bench countedChannel ([strongSample, strongSample].take 1)).m_squelchOpen = false ∧
    (processAll bench countedChannel ([strongSample, strongSample].take 2)).m_squelchOpen = false :=
  have h1 : 0 < countedChannel.m_squelchGate := by decide
  have h := (squelch_short_excursion bench countedChannel [strongSample, strongSample] h1).2
    (by decide) (by decide!) (by decide)
  ⟨h1, h 1 (by decide) (by decide), h 2 (by decide) (by decide)⟩

/-- Counterexample to C5 as stated: at the end of `thresholdRun` the gate is 7, the
counter is 7 and the squelch is open; a single sample below the threshold (1 < 7)
brings the counter to 6 and closes the squelch. -/
theorem squelch_short_excursion_counterexample :
    run bench 1 constructedChannel thresholdRun = some thresholdChannel ∧
    thresholdChannel.m_squelchGate = 7 ∧
    thresholdChannel.m_squelchCount = 7 ∧
    thresholdChannel.m_squelchOpen = true ∧
    (processSideband bench thresholdChannel silentSample).m_magsq
      < thresholdChannel.m_squelchLevel ∧
    (processSideband bench thresholdChannel silentSample).m_squelchCount = 6 ∧
    (processSideband bench thresholdChannel silentSample).m_squelchOpen = false := by
  decide!

/-- C6. Long excursions always flip the squelch: with a gate `G > 0` and a counter in
`[0, 2 * G]`, after `2 * G` or more consecutive samples below the threshold the squelch
is closed, and after `2 * G` or more consecutive samples at or above the threshold the
squelch is open. -/
theorem squelch_long_excursion (K : Externals) (s : FreqTracker) (sbs : List Complex)
    (hG : 0 < s.m_squelchGate) (hc : s.m_squelchCount ≤ 2 * s.m_squelchGate)
    (hlen : 2 * s.m_squelchGate ≤ sbs.length) :
    (allBelow K s sbs = true → (processAll K s sbs).m_squelchOpen = false) ∧
    (allAbove K s sbs = true → (processAll K s sbs).m_squelchOpen = true) := by
  have hne : sbs ≠ [] := by
    intro h
    rw [h, List.length_nil] at hlen
    omega
  constructor
  · intro hall
    obtain ⟨_, hcount, hopen⟩ := processAll_below K sbs s hG hall
    rw [hopen hne, hcount]
    simp only [ge_iff_le, decide_eq_false_iff_not, not_le]
    omega
  · intro hall
    obtain ⟨_, hcount, hopen⟩ := processAll_above K sbs s hG hc hall
    rw [hopen hne, hcount]
    simp only [ge_iff_le, decide_eq_true_eq]
    omega

/-- Witness of C6: `thresholdChannel` has gate 7, counter 7 and an open squelch; 14
silent samples are all below the threshold and close it. -/
theorem squelch_long_excursion_witness :
    0 < thresholdChannel.m_squelchGate ∧
    thresholdChannel.m_squelchCount ≤ 2 * thresholdChannel.m_squelchGate ∧
    2 * thresholdChannel.m_squelchGate ≤ (List.replicate 14 silentSample).length ∧
    allBelow bench thresholdChannel (List.replicate 14 silentSample) = true ∧
    (processAll bench thresholdChannel (List.replicate 14 silentSample)).m_squelchOpen = false :=
  have h1 : 0 < thresholdChannel.m_squelchGate := by decide!
  have h2 : thresholdChannel.m_squelchCount ≤ 2 * thresholdChannel.m_squelchGate := by decide!
  have h3 : 2 * thresholdChannel.m_squelchGate ≤ (List.replicate 14 silentSample).length := by
    decide!
  have h4 : allBelow bench thresholdChannel (List.replicate 14 silentSample) = true := by
    decide!
  ⟨h1, h2, h3, h4,
    (squelch_long_excursion bench thresholdChannel (List.replicate 14 silentSample) h1 h2 h3).1 h4⟩

/-! ## Feed of the trackers (C7) -/

/-- C7. Trackers run only while the squelch is open: for every processed output, with
`re` and `im` the scaled components, an open squelch (the flag computed for that
sample) with type FLL feeds the FLL only, with type PLL feeds the PLL only, and a closed
squelch or the type none leaves both tracker states unchanged; hence a tracker is fed
iff the squelch is open and the type is FLL or PLL. -/
theorem trackers_fed_iff_open (K : Externals) (s : FreqTracker) (sb : Complex) :
    ((processSideband K s sb).m_squelchOpen = true ∧
        s.m_settings.m_trackerType = TrackerType.TrackerFLL →
      (processSideband K s sb).m_fll
        = s.m_fll ++ [FllCall.feed (sb.re / K.SDR_RX_SCALEF) (sb.im / K.SDR_RX_SCALEF)] ∧
      (processSideband K s sb).m_pll = s.m_pll) ∧
    ((processSideband K s sb).m_squelchOpen = true ∧
        s.m_settings.m_trackerType = TrackerType.TrackerPLL →
      (processSideband K s sb).m_pll
        = s.m_pll ++ [PllCall.feed (sb.re / K.SDR_RX_SCALEF) (sb.im / K.SDR_RX_SCALEF)] ∧
      (processSideband K s sb).m_fll = s.m_fll) ∧
    ((processSideband K s sb).m_squelchOpen = false ∨
        s.m_settings.m_trackerType = TrackerType.TrackerNone →
      (processSideband K s sb).m_pll = s.m_pll ∧ (processSideband K s sb).m_fll = s.m_fll) ∧
    (((processSideband K s sb).m_pll ≠ s.m_pll ∨ (processSideband K s sb).m_fll ≠ s.m_fll) ↔
      ((processSideband K s sb).m_squelchOpen = true ∧
        (s.m_settings.m_trackerType = TrackerType.TrackerFLL ∨
          s.m_settings.m_trackerType = TrackerType.TrackerPLL))) := by
  obtain ⟨_, _, _, _, _, ho⟩ := processSideband_squelch K s sb
  obtain ⟨_, _, _, _, hps, hpp, hpf⟩ := updatePower_squelch K s sb
  obtain ⟨_, _, _, hus, hup, huf⟩ := updateSquelch_frame (updatePower K s sb).1
  rw [ho]
  have hty : (updateSquelch (updatePower K s sb).1).m_settings.m_trackerType
      = s.m_settings.m_trackerType := by rw [hus, hps]
  have hpll : (updateSquelch (updatePower K s sb).1).m_pll = s.m_pll := by rw [hup, hpp]
  have hfll : (updateSquelch (updatePower K s sb).1).m_fll = s.m_fll := by rw [huf, hpf]
  have hre : (updatePower K s sb).2.1 = sb.re / K.SDR_RX_SCALEF := rfl
  have him : (updatePower K s sb).2.2 = sb.im / K.SDR_RX_SCALEF := rfl
  simp only [processSideband]
  rw [hre, him]
  generalize updateSquelch (updatePower K s sb).1 = u at hty hpll hfll
  unfold feedTracker
  rw [hty]
  cases hopen : u.m_squelchOpen <;> cases htype : s.m_settings.m_trackerType <;>
    simp [hpll, hfll]

/-! ## Frame lemmas of the sample path -/

theorem SampleFrame.sampleRefl (s : FreqTracker) : SampleFrame s s :=
  ⟨rfl, rfl, rfl, rfl, rfl, rfl, rfl, rfl, fun h => h⟩

theorem SampleFrame.sampleTrans {a b c : FreqTracker} (h1 : SampleFrame a b) (h2 : SampleFrame b c) :
    SampleFrame a c :=
  ⟨h2.settings.trans h1.settings, h2.gate.trans h1.gate, h2.level.trans h1.level,
    h2.channelSampleRate.trans h1.channelSampleRate, h2.tickCount.trans h1.tickCount,
    h2.timerConnected.trans h1.timerConnected, h2.lastCorrAbs.trans h1.lastCorrAbs,
    h2.avgDeltaFreq.trans h1.avgDeltaFreq, fun h => h2.inRange (h1.inRange h)⟩

theorem updatePower_sampleFrame (K : Externals) (s : FreqTracker) (sb : Complex) :
    SampleFrame s (updatePower K s sb).1 :=
  ⟨rfl, rfl, rfl, rfl, rfl, rfl, rfl, rfl, fun h => h⟩

theorem updateSquelch_sampleFrame (s : FreqTracker) : SampleFrame s (updateSquelch s) := by
  unfold updateSquelch
  split_ifs <;> refine ⟨rfl, rfl, rfl, rfl, rfl, rfl, rfl, rfl, ?_⟩ <;> intro h <;>
    dsimp only <;> omega

theorem feedTracker_sampleFrame (s : FreqTracker) (re im : ℚ) :
    SampleFrame s (feedTracker s re im) := by
  unfold feedTracker
  split_ifs
  · exact ⟨rfl, rfl, rfl, rfl, rfl, rfl, rfl, rfl, fun h => h⟩
  · exact ⟨rfl, rfl, rfl, rfl, rfl, rfl, rfl, rfl, fun h => h⟩
  · exact SampleFrame.sampleRefl s
  · exact SampleFrame.sampleRefl s

theorem processSideband_sampleFrame (K : Externals) (s : FreqTracker) (sb : Complex) :
    SampleFrame s (processSideband K s sb) :=
  ((updatePower_sampleFrame K s sb).sampleTrans (updateSquelch_sampleFrame _)).sampleTrans
    (feedTracker_sampleFrame _ _ _)

theorem foldl_processSideband_sampleFrame (K : Externals) (sbs : List Complex) :
    ∀ s : FreqTracker, SampleFrame s (sbs.foldl (processSideband K) s) := by
  induction sbs with
  | nil => intro s; exact SampleFrame.sampleRefl s
  | cons sb rest ih =>
    intro s
    exact (processSideband_sampleFrame K s sb).sampleTrans (ih _)

theorem processOneSample_sampleFrame (K : Externals) (s : FreqTracker) (ci : Complex) :
    SampleFrame s (processOneSample K s ci) := by
  unfold processOneSample
  split_ifs
  · have h0 : SampleFrame s { s with m_rrcFilter := s.m_rrcFilter ++ [FilterCall.runFilt ci] } :=
      ⟨rfl, rfl, rfl, rfl, rfl, rfl, rfl, rfl, fun h => h⟩
    exact h0.sampleTrans (foldl_processSideband_sampleFrame K _ _)
  · exact processSideband_sampleFrame K s ci

theorem interpolateLoop_sampleFrame (K : Externals) (c : Complex) :
    ∀ (fuel : Nat) (s : FreqTracker) (ci : Complex) (r : FreqTracker × Complex),
      interpolateLoop K fuel s c ci = some r → SampleFrame s r.1 := by
  intro fuel
  induction fuel with
  | zero => intro s ci r h; simp [interpolateLoop] at h
  | succ n ih =>
    intro s ci r h
    simp only [interpolateLoop] at h
    split_ifs at h with hb
    · have h1 := ih _ _ _ h
      have h0 : SampleFrame s
          { s with
            m_interpolator := s.m_interpolator ++
              [InterpolatorCall.interpolate s.m_interpolatorDistanceRemain c]
            m_interpolatorDistanceRemain :=
              (K.interpolate s.m_interpolator s.m_interpolatorDistanceRemain c ci).2.1 } :=
        ⟨rfl, rfl, rfl, rfl, rfl, rfl, rfl, rfl, fun h => h⟩
      exact (h0.sampleTrans (processOneSample_sampleFrame K _ _)).sampleTrans h1
    · have hr := Option.some.inj h
      rw [← hr]
      exact ⟨rfl, rfl, rfl, rfl, rfl, rfl, rfl, rfl, fun h => h⟩

theorem feedSample_sampleFrame (K : Externals) (fuel : Nat) (sci r : FreqTracker × Complex)
    (it : Sample) (h : feedSample K fuel sci it = some r) : SampleFrame sci.1 r.1 := by
  unfold feedSample at h
  simp only at h
  have h0 : SampleFrame sci.1 { sci.1 with m_nco := sci.1.m_nco ++ [NcoCall.nextIQ] } :=
    ⟨rfl, rfl, rfl, rfl, rfl, rfl, rfl, rfl, fun h => h⟩
  split_ifs at h with hd hb
  · split at h
    · exact absurd h (by simp)
    · rename_i r1 hloop
      have h1 := interpolateLoop_sampleFrame K _ _ _ _ _ hloop
      have hr := Option.some.inj h
      rw [← hr]
      have h2 : SampleFrame r1.1
          { r1.1 with m_interpolatorDistanceRemain :=
              r1.1.m_interpolatorDistanceRemain + r1.1.m_interpolatorDistance } :=
        ⟨rfl, rfl, rfl, rfl, rfl, rfl, rfl, rfl, fun h => h⟩
      exact ((h0.sampleTrans (processOneSample_sampleFrame K _ _)).sampleTrans h1).sampleTrans h2
  · have hr := Option.some.inj h
    rw [← hr]
    refine (h0.sampleTrans ?_).sampleTrans
      ((processOneSample_sampleFrame K _ _).sampleTrans
        ⟨rfl, rfl, rfl, rfl, rfl, rfl, rfl, rfl, fun h => h⟩)
    exact ⟨rfl, rfl, rfl, rfl, rfl, rfl, rfl, rfl, fun h => h⟩
  · have hr := Option.some.inj h
    rw [← hr]
    exact h0.sampleTrans ⟨rfl, rfl, rfl, rfl, rfl, rfl, rfl, rfl, fun h => h⟩

theorem feedLoop_sampleFrame (K : Externals) (fuel : Nat) (block : List Sample) :
    ∀ (sci r : FreqTracker × Complex), feedLoop K fuel sci block = some r →
      SampleFrame sci.1 r.1 := by
  induction block with
  | nil =>
    intro sci r h
    simp only [feedLoop] at h
    rw [← Option.some.inj h]
    exact SampleFrame.sampleRefl _
  | cons it rest ih =>
    intro sci r h
    simp only [feedLoop] at h
    split at h
    · exact absurd h (by simp)
    · rename_i sci1 h1
      exact (feedSample_sampleFrame K fuel sci sci1 it h1).sampleTrans (ih _ _ h)

theorem feed_sampleFrame (K : Externals) (fuel : Nat) (s s1 : FreqTracker) (block : List Sample)
    (h : feed K fuel s block = some s1) : SampleFrame s s1 := by
  unfold feed at h
  split_ifs at h with hr
  · cases hl : feedLoop K fuel (s, { re := 0, im := 0 }) block with
    | none => rw [hl] at h; simp at h
    | some r =>
      rw [hl] at h
      simp only [Option.map_some'] at h
      rw [← Option.some.inj h]
      exact feedLoop_sampleFrame K fuel block _ _ hl
  · rw [← Option.some.inj h]
    exact SampleFrame.sampleRefl s

/-! ## Frame lemmas of the configuration operations -/

theorem ConfigFrame.configRefl (s : FreqTracker) : ConfigFrame s s :=
  ⟨rfl, rfl, le_refl _⟩

theorem ConfigFrame.configTrans {a b c : FreqTracker} (h1 : ConfigFrame a b) (h2 : ConfigFrame b c) :
    ConfigFrame a c :=
  ⟨h2.squelchCount.trans h1.squelchCount, h2.squelchOpen.trans h1.squelchOpen,
    le_trans h2.tickCount h1.tickCount⟩

theorem CorrectionFrame.correctionRefl (s : FreqTracker) : CorrectionFrame s s :=
  ⟨rfl, rfl, rfl⟩

theorem CorrectionFrame.correctionTrans {a b c : FreqTracker} (h1 : CorrectionFrame a b)
    (h2 : CorrectionFrame b c) : CorrectionFrame a c :=
  ⟨h2.settings.trans h1.settings, h2.avgDeltaFreq.trans h1.avgDeltaFreq,
    h2.lastCorrAbs.trans h1.lastCorrAbs⟩

theorem setInterpolator_configFrame (s : FreqTracker) : ConfigFrame s (setInterpolator s) :=
  ⟨rfl, rfl, le_refl _⟩

theorem setInterpolator_correctionFrame (s : FreqTracker) :
    CorrectionFrame s (setInterpolator s) :=
  ⟨rfl, rfl, rfl⟩

theorem applyChannelSettings_configFrame (s : FreqTracker) (rate offset : Int) (force : Bool) :
    ConfigFrame s (applyChannelSettings s rate offset force) := by
  simp only [applyChannelSettings]
  split_ifs <;> exact ⟨rfl, rfl, le_refl _⟩

theorem applyChannelSettings_correctionFrame (s : FreqTracker) (rate offset : Int)
    (force : Bool) : CorrectionFrame s (applyChannelSettings s rate offset force) := by
  simp only [applyChannelSettings]
  split_ifs <;> exact ⟨rfl, rfl, rfl⟩

theorem configureChannelizer_configFrame (s : FreqTracker) :
    ConfigFrame s (configureChannelizer s) := by
  simp only [configureChannelizer]
  split_ifs <;> exact ⟨rfl, rfl, le_refl _⟩

theorem configureChannelizer_correctionFrame (s : FreqTracker) :
    CorrectionFrame s (configureChannelizer s) := by
  simp only [configureChannelizer]
  split_ifs <;> exact ⟨rfl, rfl, rfl⟩

theorem configureChannelizer_gate (s : FreqTracker) :
    (configureChannelizer s).m_squelchGate = s.m_squelchGate := by
  simp only [configureChannelizer]
  split_ifs <;> rfl

theorem connectTimer_configFrame (s : FreqTracker) : ConfigFrame s (connectTimer s) := by
  unfold connectTimer
  split_ifs
  all_goals first
    | exact ConfigFrame.configRefl s
    | exact ⟨rfl, rfl, Nat.zero_le _⟩

theorem connectTimer_correctionFrame (s : FreqTracker) :
    CorrectionFrame s (connectTimer s) := by
  unfold connectTimer
  split_ifs <;> exact ⟨rfl, rfl, rfl⟩

theorem disconnectTimer_configFrame (s : FreqTracker) : ConfigFrame s (disconnectTimer s) := by
  unfold disconnectTimer
  split_ifs <;> exact ⟨rfl, rfl, le_refl _⟩

theorem disconnectTimer_correctionFrame (s : FreqTracker) :
    CorrectionFrame s (disconnectTimer s) := by
  unfold disconnectTimer
  split_ifs <;> exact ⟨rfl, rfl, rfl⟩

theorem applySquelch_configFrame (K : Externals) (s : FreqTracker) (c : FreqTrackerSettings)
    (force : Bool) : ConfigFrame s (applySquelch K s c force) := by
  unfold applySquelch
  split_ifs <;> exact ⟨rfl, rfl, le_refl _⟩

theorem applySquelch_correctionFrame (K : Externals) (s : FreqTracker)
    (c : FreqTrackerSettings) (force : Bool) : CorrectionFrame s (applySquelch K s c force) := by
  unfold applySquelch
  split_ifs <;> exact ⟨rfl, rfl, rfl⟩

theorem applyTracking_configFrame (s : FreqTracker) (c : FreqTrackerSettings) (force : Bool) :
    ConfigFrame s (applyTracking s c force) := by
  simp only [applyTracking]
  split_ifs <;> exact ⟨rfl, rfl, le_refl _⟩

theorem applyTracking_settings (s : FreqTracker) (c : FreqTrackerSettings) (force : Bool) :
    (applyTracking s c force).m_settings = s.m_settings := by
  simp only [applyTracking]
  split_ifs <;> rfl

/-- Without a change of the tracking flag and without `force` the correction memory is
kept. -/
theorem applyTracking_correctionFrame (s : FreqTracker) (c : FreqTrackerSettings)
    (h : s.m_settings.m_tracking = c.m_tracking) :
    CorrectionFrame s (applyTracking s c false) := by
  unfold applyTracking
  rw [if_neg (by simp [h])]
  exact CorrectionFrame.correctionRefl s

theorem applyTrackerType_configFrame (s : FreqTracker) (c : FreqTrackerSettings)
    (force : Bool) : ConfigFrame s (applyTrackerType s c force) := by
  simp only [applyTrackerType]
  split_ifs
  all_goals first
    | exact ConfigFrame.configRefl s
    | (refine ConfigFrame.configTrans ?_ (disconnectTimer_configFrame _)
       exact ⟨rfl, rfl, le_refl _⟩)
    | (refine ConfigFrame.configTrans ?_ (connectTimer_configFrame _)
       exact ⟨rfl, rfl, le_refl _⟩)

theorem applyTrackerType_settings (s : FreqTracker) (c : FreqTrackerSettings) (force : Bool) :
    (applyTrackerType s c force).m_settings = s.m_settings := by
  simp only [applyTrackerType]
  split_ifs
  all_goals first
    | rfl
    | exact (disconnectTimer_correctionFrame _).settings
    | exact (connectTimer_correctionFrame _).settings

/-- Without a change of the tracker type and without `force` the correction memory is
kept. -/
theorem applyTrackerType_correctionFrame (s : FreqTracker) (c : FreqTrackerSettings)
    (h : s.m_settings.m_trackerType = c.m_trackerType) :
    CorrectionFrame s (applyTrackerType s c false) := by
  unfold applyTrackerType
  rw [if_neg (by simp [h])]
  exact CorrectionFrame.correctionRefl s

theorem applyPskOrder_configFrame (s : FreqTracker) (c : FreqTrackerSettings) (force : Bool) :
    ConfigFrame s (applyPskOrder s c force) := by
  unfold applyPskOrder
  split_ifs <;> exact ⟨rfl, rfl, le_refl _⟩

theorem applyPskOrder_correctionFrame (s : FreqTracker) (c : FreqTrackerSettings)
    (force : Bool) : CorrectionFrame s (applyPskOrder s c force) := by
  unfold applyPskOrder
  split_ifs <;> exact ⟨rfl, rfl, rfl⟩

theorem applyStreamIndex_configFrame (K : Externals) (s : FreqTracker)
    (c : FreqTrackerSettings) : ConfigFrame s (applyStreamIndex K s c) := by
  unfold applyStreamIndex
  split_ifs
  · split
    · exact applyChannelSettings_configFrame _ _ _ _
    · exact ConfigFrame.configRefl s
  · exact ConfigFrame.configRefl s

theorem applyStreamIndex_correctionFrame (K : Externals) (s : FreqTracker)
    (c : FreqTrackerSettings) : CorrectionFrame s (applyStreamIndex K s c) := by
  unfold applyStreamIndex
  split_ifs
  · split
    · exact applyChannelSettings_correctionFrame _ _ _ _
    · exact CorrectionFrame.correctionRefl s
  · exact CorrectionFrame.correctionRefl s

/-- The method `applySettings` is the sequence of its blocks followed by the storage of the
configuration. -/
theorem applySettings_eq (K : Externals) (s : FreqTracker) (c : FreqTrackerSettings)
    (force : Bool) :
    applySettings K s c force
      = commitSettings (applyChanges K s c force) c
          (decide (s.m_settings.m_inputFrequencyOffset ≠ c.m_inputFrequencyOffset ∨ force = true)
            || decide (s.m_settings.m_log2Decim ≠ c.m_log2Decim ∨ force = true))
          (decide (s.m_settings.m_rfBandwidth ≠ c.m_rfBandwidth ∨ force = true)
            || decide (s.m_settings.m_rrcRolloff ≠ c.m_rrcRolloff ∨ force = true)
            || decide (s.m_settings.m_squelchGate ≠ c.m_squelchGate ∨ force = true)) :=
  rfl

theorem applyChanges_configFrame (K : Externals) (s : FreqTracker) (c : FreqTrackerSettings)
    (force : Bool) : ConfigFrame s (applyChanges K s c force) :=
  ((((applySquelch_configFrame K s c force).configTrans (applyTracking_configFrame _ _ _)).configTrans
    (applyTrackerType_configFrame _ _ _)).configTrans (applyPskOrder_configFrame _ _ _)).configTrans
    (applyStreamIndex_configFrame K _ _)

theorem commitSettings_configFrame (s : FreqTracker) (c : FreqTrackerSettings)
    (b1 b2 : Bool) : ConfigFrame s (commitSettings s c b1 b2) := by
  have h6 : ConfigFrame s { s with m_settings := c } := ⟨rfl, rfl, le_refl _⟩
  unfold commitSettings
  split_ifs
  · exact h6.configTrans (configureChannelizer_configFrame _)
  · exact h6.configTrans (setInterpolator_configFrame _)
  · exact h6

theorem commitSettings_settings (s : FreqTracker) (c : FreqTrackerSettings) (b1 b2 : Bool) :
    (commitSettings s c b1 b2).m_settings = c ∧
    (commitSettings s c b1 b2).m_avgDeltaFreq = s.m_avgDeltaFreq ∧
    (commitSettings s c b1 b2).m_lastCorrAbs = s.m_lastCorrAbs := by
  unfold commitSettings
  split_ifs
  · exact ⟨(configureChannelizer_correctionFrame _).settings,
      (configureChannelizer_correctionFrame _).avgDeltaFreq,
      (configureChannelizer_correctionFrame _).lastCorrAbs⟩
  · exact ⟨rfl, rfl, rfl⟩
  · exact ⟨rfl, rfl, rfl⟩

/-- The method `applySettings` leaves the squelch counter and flag alone and may only reset the tick
counter. -/
theorem applySettings_configFrame (K : Externals) (s : FreqTracker) (c : FreqTrackerSettings)
    (force : Bool) : ConfigFrame s (applySettings K s c force) := by
  rw [applySettings_eq]
  exact (applyChanges_configFrame K s c force).configTrans (commitSettings_configFrame _ _ _ _)

/-- The method `applySettings` installs the configuration it is given. -/
theorem applySettings_settings (K : Externals) (s : FreqTracker) (c : FreqTrackerSettings)
    (force : Bool) : (applySettings K s c force).m_settings = c := by
  rw [applySettings_eq]
  exact (commitSettings_settings _ _ _ _).1

/-- Without `force` and without a change of the tracking flag or of the tracker type,
`applySettings` keeps the frequency correction memory. -/
theorem applySettings_correction (K : Externals) (s : FreqTracker) (c : FreqTrackerSettings)
    (h1 : s.m_settings.m_tracking = c.m_tracking)
    (h2 : s.m_settings.m_trackerType = c.m_trackerType) :
    (applySettings K s c false).m_avgDeltaFreq = s.m_avgDeltaFreq ∧
    (applySettings K s c false).m_lastCorrAbs = s.m_lastCorrAbs := by
  have ha := applySquelch_correctionFrame K s c false
  have hb := applyTracking_correctionFrame (applySquelch K s c false) c
    (by rw [ha.settings]; exact h1)
  have hc := applyTrackerType_correctionFrame (applyTracking (applySquelch K s c false) c false) c
    (by rw [hb.settings, ha.settings]; exact h2)
  have h5 : CorrectionFrame s (applyChanges K s c false) :=
    (((ha.correctionTrans hb).correctionTrans hc).correctionTrans (applyPskOrder_correctionFrame _ _ _)).correctionTrans
      (applyStreamIndex_correctionFrame K _ _)
  rw [applySettings_eq]
  obtain ⟨_, h6, h7⟩ := commitSettings_settings (applyChanges K s c false) c
    (decide (s.m_settings.m_inputFrequencyOffset ≠ c.m_inputFrequencyOffset ∨ false = true)
      || decide (s.m_settings.m_log2Decim ≠ c.m_log2Decim ∨ false = true))
    (decide (s.m_settings.m_rfBandwidth ≠ c.m_rfBandwidth ∨ false = true)
      || decide (s.m_settings.m_rrcRolloff ≠ c.m_rrcRolloff ∨ false = true)
      || decide (s.m_settings.m_squelchGate ≠ c.m_squelchGate ∨ false = true))
  exact ⟨h6.trans h5.avgDeltaFreq, h7.trans h5.lastCorrAbs⟩

/-! ## The slow tick -/

/-- The paths through lines 802-832 of `tick`. -/
theorem tickEvaluate_cases (K : Externals) (u : FreqTracker) (r : FreqTracker × Bool)
    (h : tickEvaluate K u = some r) :
    (u.m_tickCount < 9 ∧ r = ({ u with m_tickCount := u.m_tickCount + 1 }, false)) ∨
    (¬ u.m_tickCount < 9 ∧ ¬ (u.m_settings.m_tracking = true ∧ u.m_squelchOpen = true) ∧
      r = ({ u with m_tickCount := 0 }, false)) ∨
    (¬ u.m_tickCount < 9 ∧ u.m_settings.m_tracking = true ∧ u.m_squelchOpen = true ∧
      ∃ amount, decayAmount u = some amount ∧ ¬ u.m_lastCorrAbs < amount ∧
        r = ({ u with m_lastCorrAbs := u.m_lastCorrAbs - amount, m_tickCount := 0 }, false)) ∨
    (¬ u.m_tickCount < 9 ∧ u.m_settings.m_tracking = true ∧ u.m_squelchOpen = true ∧
      ∃ amount, decayAmount u = some amount ∧ u.m_lastCorrAbs < amount ∧
        ¬ avgDeltaFreqAbs u > trim u ∧
        r = ({ u with m_lastCorrAbs := avgDeltaFreqAbs u, m_tickCount := 0 }, false)) ∨
    (¬ u.m_tickCount < 9 ∧ u.m_settings.m_tracking = true ∧ u.m_squelchOpen = true ∧
      ∃ amount, decayAmount u = some amount ∧ u.m_lastCorrAbs < amount ∧
        avgDeltaFreqAbs u > trim u ∧
        r = ({ (applySettings K { u with m_lastCorrAbs := avgDeltaFreqAbs u }
                  (correctedSettings { u with m_lastCorrAbs := avgDeltaFreqAbs u }) false)
                with m_tickCount := 0 }, true)) := by
  unfold tickEvaluate at h
  by_cases h9 : u.m_tickCount < 9
  · rw [if_pos h9] at h
    exact Or.inl ⟨h9, (Option.some.inj h).symm⟩
  · rw [if_neg h9] at h
    by_cases ht : u.m_settings.m_tracking = true ∧ getSquelchOpen u = true
    · rw [if_pos ht] at h
      cases hd : decayAmount u with
      | none => rw [hd] at h; simp at h
      | some amount =>
        rw [hd] at h
        simp only at h
        by_cases hl : u.m_lastCorrAbs < amount
        · rw [if_pos hl] at h
          by_cases hm : avgDeltaFreqAbs u > trim u
          · have hm1 : ({ u with m_lastCorrAbs := avgDeltaFreqAbs u } : FreqTracker).m_lastCorrAbs
                > trim { u with m_lastCorrAbs := avgDeltaFreqAbs u } := hm
            rw [if_pos hm1] at h
            exact Or.inr (Or.inr (Or.inr (Or.inr
              ⟨h9, ht.1, ht.2, amount, rfl, hl, hm, (Option.some.inj h).symm⟩)))
          · have hm1 : ¬ ({ u with m_lastCorrAbs := avgDeltaFreqAbs u } : FreqTracker).m_lastCorrAbs
                > trim { u with m_lastCorrAbs := avgDeltaFreqAbs u } := hm
            rw [if_neg hm1] at h
            exact Or.inr (Or.inr (Or.inr (Or.inl
              ⟨h9, ht.1, ht.2, amount, rfl, hl, hm, (Option.some.inj h).symm⟩)))
        · rw [if_neg hl] at h
          exact Or.inr (Or.inr (Or.inl
            ⟨h9, ht.1, ht.2, amount, rfl, hl, (Option.some.inj h).symm⟩))
    · rw [if_neg ht] at h
      exact Or.inr (Or.inl ⟨h9, ht, (Option.some.inj h).symm⟩)

/-- What lines 802-832 of `tick` leave alone: squelch counter, flag and gate and the
average frequency error; the tick counter goes up by one or back to 0. -/
theorem tickEvaluate_frame (K : Externals) (u : FreqTracker) (r : FreqTracker × Bool)
    (h : tickEvaluate K u = some r) :
    r.1.m_squelchCount = u.m_squelchCount ∧
    r.1.m_avgDeltaFreq = u.m_avgDeltaFreq ∧
    r.1.m_tickCount ≤ u.m_tickCount + 1 ∧
    (r.2 = true → r.1.m_tickCount = 0) ∧
    (u.m_tickCount < 9 → r.2 = false) := by
  rcases tickEvaluate_cases K u r h with
    ⟨h9, hr⟩ | ⟨h9, _, hr⟩ | ⟨h9, _, _, amount, _, _, hr⟩ | ⟨h9, _, _, amount, _, _, _, hr⟩ |
    ⟨h9, _, _, amount, _, _, _, hr⟩
  · subst hr
    exact ⟨rfl, rfl, le_refl _, by simp, fun _ => rfl⟩
  · subst hr
    exact ⟨rfl, rfl, Nat.zero_le _, fun _ => rfl, fun _ => rfl⟩
  · subst hr
    exact ⟨rfl, rfl, Nat.zero_le _, fun _ => rfl, fun _ => rfl⟩
  · subst hr
    exact ⟨rfl, rfl, Nat.zero_le _, fun _ => rfl, fun _ => rfl⟩
  · subst hr
    have hc := applySettings_configFrame K { u with m_lastCorrAbs := avgDeltaFreqAbs u }
      (correctedSettings { u with m_lastCorrAbs := avgDeltaFreqAbs u }) false
    have ha := applySettings_correction K { u with m_lastCorrAbs := avgDeltaFreqAbs u }
      (correctedSettings { u with m_lastCorrAbs := avgDeltaFreqAbs u }) rfl rfl
    exact ⟨hc.squelchCount, ha.1, Nat.zero_le _, fun _ => rfl, fun h => absurd h h9⟩

theorem tickAverage_frame (K : Externals) (s : FreqTracker) :
    (tickAverage K s).m_squelchCount = s.m_squelchCount ∧
    (tickAverage K s).m_squelchGate = s.m_squelchGate ∧
    (tickAverage K s).m_squelchOpen = s.m_squelchOpen ∧
    (tickAverage K s).m_tickCount = s.m_tickCount ∧
    (tickAverage K s).m_settings = s.m_settings ∧
    (tickAverage K s).m_lastCorrAbs = s.m_lastCorrAbs ∧
    (tickAverage K s).m_channelSampleRate = s.m_channelSampleRate := by
  unfold tickAverage
  split_ifs <;> exact ⟨rfl, rfl, rfl, rfl, rfl, rfl, rfl⟩

/-- A tick before the tenth since the last evaluation applies no correction. -/
theorem tickApplies_false_of_lt (K : Externals) (s : FreqTracker) (h : s.m_tickCount < 9) :
    tickApplies K s = false := by
  unfold tickApplies tickStep
  cases hr : tickEvaluate K (tickAverage K s) with
  | none => rfl
  | some r =>
    have hf := tickEvaluate_frame K _ r hr
    exact hf.2.2.2.2 (by rw [(tickAverage_frame K s).2.2.2.1]; exact h)

/-- The tick counter after `tick`. -/
theorem tick_tickCount (K : Externals) (s s1 : FreqTracker) (h : tick K s = some s1) :
    s1.m_tickCount ≤ s.m_tickCount + 1 ∧ s1.m_squelchCount = s.m_squelchCount := by
  unfold tick tickStep at h
  cases hr : tickEvaluate K (tickAverage K s) with
  | none => rw [hr] at h; simp at h
  | some r =>
    rw [hr] at h
    simp only [Option.map_some'] at h
    have hf := tickEvaluate_frame K _ r hr
    rw [← Option.some.inj h]
    obtain ⟨hc, _, _, ht, _⟩ := tickAverage_frame K s
    exact ⟨by rw [← ht]; exact hf.2.2.1, hf.1.trans hc⟩

/-! ## Frame lemmas of the calls -/

theorem start_frame (s : FreqTracker) :
    (start s).m_squelchCount = 0 ∧ (start s).m_tickCount ≤ s.m_tickCount := by
  have h := applyChannelSettings_configFrame { s with m_squelchCount := 0 }
    s.m_inputSampleRate s.m_inputFrequencyOffset true
  exact ⟨h.squelchCount, h.tickCount⟩

theorem handleMessage_configFrame (K : Externals) (s : FreqTracker) (cmd : Message) :
    ConfigFrame s (handleMessage K s cmd).1 := by
  cases cmd with
  | DSPSignalNotification sampleRate centerFrequency =>
    refine ConfigFrame.configTrans ?_ (configureChannelizer_configFrame _)
    exact ⟨rfl, rfl, le_refl _⟩
  | MsgChannelizerNotification sampleRate frequencyOffset =>
    exact (applyChannelSettings_configFrame s _ _ _).configTrans (setInterpolator_configFrame _)
  | MsgConfigureFreqTracker settings force =>
    exact applySettings_configFrame K s settings force
  | other => exact ConfigFrame.configRefl s

/-- Every call keeps the counter within twice the gate unless it lowers the gate, and
only `tick` increments the tick counter. -/
theorem call_frame (K : Externals) (fuel : Nat) (s s1 : FreqTracker) (c : Call)
    (h : call K fuel s c = some s1) :
    (s.m_squelchCount ≤ 2 * s.m_squelchGate → s.m_squelchGate ≤ s1.m_squelchGate →
      s1.m_squelchCount ≤ 2 * s1.m_squelchGate) ∧
    s1.m_tickCount ≤ s.m_tickCount + (if isTick c = true then 1 else 0) := by
  have config : ∀ {a b : FreqTracker}, ConfigFrame a b →
      (a.m_squelchCount ≤ 2 * a.m_squelchGate → a.m_squelchGate ≤ b.m_squelchGate →
        b.m_squelchCount ≤ 2 * b.m_squelchGate) ∧ b.m_tickCount ≤ a.m_tickCount := by
    intro a b hf
    refine ⟨fun h1 h2 => ?_, hf.tickCount⟩
    rw [hf.squelchCount]
    omega
  have sample : ∀ {a b : FreqTracker}, SampleFrame a b →
      (a.m_squelchCount ≤ 2 * a.m_squelchGate → a.m_squelchGate ≤ b.m_squelchGate →
        b.m_squelchCount ≤ 2 * b.m_squelchGate) ∧ b.m_tickCount ≤ a.m_tickCount :=
    fun hf => ⟨fun h1 _ => hf.inRange h1, le_of_eq hf.tickCount⟩
  cases c with
  | start =>
    simp only [call, Option.some.injEq] at h
    subst h
    simp only [isTick, Bool.false_eq_true, if_false, Nat.add_zero]
    exact ⟨fun _ _ => by rw [(start_frame s).1]; exact Nat.zero_le _, (start_frame s).2⟩
  | stop =>
    simp only [call, Option.some.injEq] at h
    subst h
    simp only [isTick, Bool.false_eq_true, if_false, Nat.add_zero]
    have hs : ConfigFrame s (stop s) := ⟨rfl, rfl, le_refl _⟩
    exact config hs
  | feed block =>
    simp only [call] at h
    simp only [isTick, Bool.false_eq_true, if_false, Nat.add_zero]
    exact sample (feed_sampleFrame K fuel s s1 block h)
  | tick =>
    simp only [call] at h
    simp only [isTick, if_true]
    obtain ⟨ht, hc⟩ := tick_tickCount K s s1 h
    refine ⟨fun h1 h2 => ?_, ht⟩
    rw [hc]
    omega
  | handleMessage cmd =>
    simp only [call, Option.some.injEq] at h
    subst h
    simp only [isTick, Bool.false_eq_true, if_false, Nat.add_zero]
    exact config (handleMessage_configFrame K s cmd)
  | processOneSample ci =>
    simp only [call, Option.some.injEq] at h
    subst h
    simp only [isTick, Bool.false_eq_true, if_false, Nat.add_zero]
    exact sample (processOneSample_sampleFrame K s ci)
  | applySettings settings force =>
    simp only [call, Option.some.injEq] at h
    subst h
    simp only [isTick, Bool.false_eq_true, if_false, Nat.add_zero]
    exact config (applySettings_configFrame K s settings force)
  | applyChannelSettings inputSampleRate inputFrequencyOffset force =>
    simp only [call, Option.some.injEq] at h
    subst h
    simp only [isTick, Bool.false_eq_true, if_false, Nat.add_zero]
    exact config (applyChannelSettings_configFrame s _ _ _)
  | setInterpolator =>
    simp only [call, Option.some.injEq] at h
    subst h
    simp only [isTick, Bool.false_eq_true, if_false, Nat.add_zero]
    exact config (setInterpolator_configFrame s)
  | configureChannelizer =>
    simp only [call, Option.some.injEq] at h
    subst h
    simp only [isTick, Bool.false_eq_true, if_false, Nat.add_zero]
    exact config (configureChannelizer_configFrame s)

/-! ## The counter bound as an invariant (C4) -/

/-- The counter bound is kept along a run in which no call lowers the gate. -/
theorem run_counter_inRange (K : Externals) (fuel : Nat) (calls : List Call) :
    ∀ s s1 : FreqTracker, s.m_squelchCount ≤ 2 * s.m_squelchGate →
      run K fuel s calls = some s1 → gateNeverLowered K fuel s calls = true →
      s1.m_squelchCount ≤ 2 * s1.m_squelchGate := by
  induction calls with
  | nil =>
    intro s s1 hin hrun _
    simp only [run, Option.some.injEq] at hrun
    rw [← hrun]
    exact hin
  | cons c rest ih =>
    intro s s1 hin hrun hgate
    simp only [run] at hrun
    simp only [gateNeverLowered] at hgate
    cases hc : call K fuel s c with
    | none => rw [hc] at hrun; simp at hrun
    | some s2 =>
      rw [hc] at hrun hgate
      simp only [Bool.and_eq_true, decide_eq_true_eq] at hgate
      exact ih s2 s1 ((call_frame K fuel s s2 c hc).1 hin hgate.1) hrun hgate.2

/-- C4 (as amended). The counter bound as a state invariant: in every state reached from
`start()` by a sequence of calls (sample steps, `feed`, `tick`, messages and the
configuration operations `applySettings`, `applyChannelSettings`, `setInterpolator`,
`configureChannelizer`) none of which lowers the gate `m_squelchGate`, the counter
satisfies `0 <= counter <= 2 * gate`. -/
theorem squelch_counter_bound (K : Externals) (fuel : Nat) (s0 s : FreqTracker)
    (calls : List Call)
    (hrun : run K fuel (start s0) calls = some s)
    (hgate : gateNeverLowered K fuel (start s0) calls = true) :
    (0 : Int) ≤ (s.m_squelchCount : Int) ∧ s.m_squelchCount ≤ 2 * s.m_squelchGate := by
  refine ⟨Int.natCast_nonneg _, ?_⟩
  refine run_counter_inRange K fuel calls (start s0) s ?_ hrun hgate
  rw [(start_frame s0).1]
  exact Nat.zero_le _

/-- Witness of C4 (as amended): `constructedChannel` is started, three strong samples are
fed and the bandwidth is changed (which runs `setInterpolator` with the same gate); the
run ends in `fedChannel`. -/
theorem squelch_counter_bound_witness :
    run bench 1 (start constructedChannel) fedRun = some fedChannel ∧
    gateNeverLowered bench 1 (start constructedChannel) fedRun = true ∧
    fedChannel.m_squelchCount ≤ 2 * fedChannel.m_squelchGate :=
  have h1 : run bench 1 (start constructedChannel) fedRun = some fedChannel := by decide!
  have h2 : gateNeverLowered bench 1 (start constructedChannel) fedRun = true := by decide!
  ⟨h1, h2, (squelch_counter_bound bench 1 constructedChannel fedChannel fedRun h1 h2).2⟩

/-- Counterexample to C4 as stated: in `loweredGateRun` the channel is started, fed 15
samples at or above the threshold under a gate of 21 samples, and then configured with a
gate of 7 samples; the counter is 15, above `2 * 7`. -/
theorem squelch_counter_bound_counterexample :
    run bench 1 constructedChannel loweredGateRun = some loweredGateChannel ∧
    loweredGateChannel.m_squelchCount = 15 ∧
    loweredGateChannel.m_squelchGate = 7 ∧
    ¬ loweredGateChannel.m_squelchCount ≤ 2 * loweredGateChannel.m_squelchGate := by
  decide!

/-! ## The slow tick (C8, C9, C10) -/

theorem decayAmount_isSome (s : FreqTracker) (h : decayDivider s ≠ 0) :
    ∃ amount, decayAmount s = some amount := by
  unfold decayAmount
  split_ifs
  · exact ⟨_, rfl⟩
  · exact ⟨_, rfl⟩

theorem tickAverage_decay (K : Externals) (s : FreqTracker) :
    decayDivider (tickAverage K s) = decayDivider s ∧
    decayAmount (tickAverage K s) = decayAmount s ∧
    trim (tickAverage K s) = trim s := by
  unfold tickAverage
  split_ifs <;> exact ⟨rfl, rfl, rfl⟩

theorem tickEvaluate_isSome (K : Externals) (u : FreqTracker) (h : decayDivider u ≠ 0) :
    (tickEvaluate K u).isSome = true := by
  obtain ⟨amount, ha⟩ := decayAmount_isSome u h
  unfold tickEvaluate
  rw [ha]
  dsimp only
  split_ifs <;> rfl

/-- C8. Tick EMA update: `tick()` with the squelch open replaces the average frequency
error by `alpha * freq + (1 - alpha) * avg`, where `freq` is `getFrequency()` and `alpha`
is `m_settings.m_alphaEMA`; with the squelch closed it leaves the average unchanged.
`tick()` returns whenever the decay divider of line 810 is not 0. -/
theorem tick_average_update (K : Externals) (s : FreqTracker) :
    (decayDivider s ≠ 0 → (tick K s).isSome = true) ∧
    ∀ s1, tick K s = some s1 →
      (s.m_squelchOpen = true →
        s1.m_avgDeltaFreq
          = s.m_settings.m_alphaEMA * getFrequency K s
            + (1 - s.m_settings.m_alphaEMA) * s.m_avgDeltaFreq) ∧
      (s.m_squelchOpen = false → s1.m_avgDeltaFreq = s.m_avgDeltaFreq) := by
  constructor
  · intro hd
    have h := tickEvaluate_isSome K (tickAverage K s) (by rw [(tickAverage_decay K s).1]; exact hd)
    unfold tick tickStep
    rw [Option.isSome_map']
    exact h
  · intro s1 h
    unfold tick tickStep at h
    cases hr : tickEvaluate K (tickAverage K s) with
    | none => rw [hr] at h; simp at h
    | some r =>
      rw [hr] at h
      simp only [Option.map_some'] at h
      have hf := tickEvaluate_frame K _ r hr
      rw [← Option.some.inj h, hf.2.1]
      constructor
      · intro ho
        unfold tickAverage getSquelchOpen
        rw [if_pos ho]
      · intro hc
        unfold tickAverage getSquelchOpen
        rw [if_neg (by rw [hc]; exact Bool.false_ne_true)]

/-- Witness of C8: the tick on `convergingChannel` (squelch open, the loop reports no
error, `alpha = 1/10`) returns `correctedChannel`, whose average is nine tenths of the
previous one. -/
theorem tick_average_update_witness :
    tick driftBench convergingChannel = some correctedChannel ∧
    convergingChannel.m_squelchOpen = true ∧
    correctedChannel.m_avgDeltaFreq
      = convergingChannel.m_settings.m_alphaEMA * getFrequency driftBench convergingChannel
        + (1 - convergingChannel.m_settings.m_alphaEMA) * convergingChannel.m_avgDeltaFreq :=
  have h1 : tick driftBench convergingChannel = some correctedChannel := by decide!
  have h2 : convergingChannel.m_squelchOpen = true := by decide!
  ⟨h1, h2, ((tick_average_update driftBench convergingChannel).2 correctedChannel h1).1 h2⟩

/-- The integer magnitude of line 816 is a lower bound of the magnitude of the average. -/
theorem lt_abs_of_avgDeltaFreqAbs (u : FreqTracker) (n : Int) (h : avgDeltaFreqAbs u > n) :
    (n : ℚ) < |u.m_avgDeltaFreq| := by
  unfold avgDeltaFreqAbs truncate at h
  have key : ∀ y : ℚ, 0 ≤ y → (if y < 0 then -Int.floor (-y) else Int.floor y) > n →
      (n : ℚ) < y := by
    intro y hy hfl
    rw [if_neg (not_lt.mpr hy)] at hfl
    have h1 : n + 1 ≤ Int.floor y := hfl
    have h2 : ((n + 1 : Int) : ℚ) ≤ y := Int.le_floor.mp h1
    push_cast at h2
    linarith
  by_cases hneg : u.m_avgDeltaFreq < 0
  · rw [if_pos hneg] at h
    rw [abs_of_neg hneg]
    exact key _ (by linarith) h
  · rw [if_neg hneg] at h
    rw [abs_of_nonneg (not_lt.mp hneg)]
    exact key _ (not_lt.mp hneg) h

/-- C9 (as amended). Condition for applying a frequency correction: whenever `tick()`
applies `offset += avg`, it is an evaluating tick (the tick counter has reached 9) with
tracking on and the squelch open, the last correction magnitude held before the tick
(`m_lastCorrAbs`) is below the decay amount of line 811, and `|avg|` exceeds the minimum
trim threshold `channelSampleRate / 1000`; the new offset is the old one plus `avg`,
converted to an integer.  (`|avg|` is not compared with `m_lastCorrAbs`.) -/
theorem tick_correction_condition (K : Externals) (s s1 : FreqTracker)
    (h : tickStep K s = some (s1, true)) :
    ¬ s.m_tickCount < 9 ∧ s.m_settings.m_tracking = true ∧ s.m_squelchOpen = true ∧
    (∃ amount, decayAmount s = some amount ∧ s.m_lastCorrAbs < amount) ∧
    (trim s : ℚ) < |(tickAverage K s).m_avgDeltaFreq| ∧
    s1.m_settings.m_inputFrequencyOffset
      = truncate ((s.m_settings.m_inputFrequencyOffset : ℚ)
          + (tickAverage K s).m_avgDeltaFreq) := by
  unfold tickStep at h
  obtain ⟨_, _, ho, ht, hs, hl, _⟩ := tickAverage_frame K s
  obtain ⟨_, hda, htr⟩ := tickAverage_decay K s
  rcases tickEvaluate_cases K _ _ h with
    ⟨_, hr⟩ | ⟨_, _, hr⟩ | ⟨_, _, _, _, _, _, hr⟩ | ⟨_, _, _, _, _, _, _, hr⟩ |
    ⟨h9, htrk, hopen, amount, ha, hlt, hm, hr⟩
  · exact absurd (congrArg Prod.snd hr) (by simp)
  · exact absurd (congrArg Prod.snd hr) (by simp)
  · exact absurd (congrArg Prod.snd hr) (by simp)
  · exact absurd (congrArg Prod.snd hr) (by simp)
  · rw [ht] at h9
    rw [hs] at htrk
    rw [ho] at hopen
    rw [hda] at ha
    rw [hl] at hlt
    rw [htr] at hm
    refine ⟨h9, htrk, hopen, ⟨amount, ha, hlt⟩, lt_abs_of_avgDeltaFreqAbs _ _ hm, ?_⟩
    have h1 := congrArg Prod.fst hr
    simp only at h1
    rw [h1]
    show (applySettings K _ _ false).m_settings.m_inputFrequencyOffset = _
    rw [applySettings_settings]
    show truncate (((tickAverage K s).m_settings.m_inputFrequencyOffset : ℚ)
      + (tickAverage K s).m_avgDeltaFreq) = _
    rw [hs]

/-- Witness of C9 (as amended): the tick on `convergingChannel` applies a correction and
yields `correctedChannel`. -/
theorem tick_correction_condition_witness :
    tickStep driftBench convergingChannel = some (correctedChannel, true) ∧
    (trim convergingChannel : ℚ) < |(tickAverage driftBench convergingChannel).m_avgDeltaFreq| ∧
    correctedChannel.m_settings.m_inputFrequencyOffset
      = truncate ((convergingChannel.m_settings.m_inputFrequencyOffset : ℚ)
          + (tickAverage driftBench convergingChannel).m_avgDeltaFreq) :=
  have h1 : tickStep driftBench convergingChannel = some (correctedChannel, true) := by decide!
  ⟨h1, (tick_correction_condition driftBench convergingChannel correctedChannel h1).2.2.2.2.1,
    (tick_correction_condition driftBench convergingChannel correctedChannel h1).2.2.2.2.2⟩

/-- Counterexample to C9 as stated: at the end of `trackingRun` the last correction
magnitude is 1302 and the tick applies a correction (the offset goes from 1302 to 1756)
although the average it applies, between 454 and 455, is below that magnitude. -/
theorem tick_correction_counterexample :
    run driftBench 1 constructedChannel trackingRun = some convergingChannel ∧
    tickApplies driftBench convergingChannel = true ∧
    convergingChannel.m_lastCorrAbs = 1302 ∧
    (0 : ℚ) ≤ (tickAverage driftBench convergingChannel).m_avgDeltaFreq ∧
    (tickAverage driftBench convergingChannel).m_avgDeltaFreq < 455 ∧
    ¬ ((tickAverage driftBench convergingChannel).m_avgDeltaFreq
        > (convergingChannel.m_lastCorrAbs : ℚ)) ∧
    convergingChannel.m_settings.m_inputFrequencyOffset = 1302 ∧
    correctedChannel.m_settings.m_inputFrequencyOffset = 1756 := by
  decide!

/-- Along a run the tick counter grows by at most the number of ticks. -/
theorem run_tickCount (K : Externals) (fuel : Nat) (calls : List Call) :
    ∀ s s1 : FreqTracker, run K fuel s calls = some s1 →
      s1.m_tickCount ≤ s.m_tickCount + calls.countP isTick := by
  induction calls with
  | nil =>
    intro s s1 hrun
    simp only [run, Option.some.injEq] at hrun
    rw [← hrun]
    simp
  | cons c rest ih =>
    intro s s1 hrun
    simp only [run] at hrun
    cases hc : call K fuel s c with
    | none => rw [hc] at hrun; simp at hrun
    | some s2 =>
      rw [hc] at hrun
      have h1 := (call_frame K fuel s s2 c hc).2
      have h2 := ih s2 s1 hrun
      rw [List.countP_cons]
      omega

/-- C10. Feedback damping: after a tick that applies a frequency offset correction, in
every sequence of calls (ticks, `feed`, `applySettings` and the other operations, in any
order) that holds fewer than 9 ticks, the channel is in a state in which a tick applies
no correction.  Between two correcting ticks there are therefore at least 9 ticks
without correction: the second is at least the tenth tick after the first (debounce
count of 10 ticks), and with the empty sequence, a correction is never applied on two
consecutive ticks. -/
theorem corrections_ten_ticks_apart (K : Externals) (fuel : Nat) (s s1 s2 : FreqTracker)
    (calls : List Call)
    (h1 : tickStep K s = some (s1, true))
    (hticks : calls.countP isTick < 9)
    (hrun : run K fuel s1 calls = some s2) :
    tickApplies K s2 = false := by
  have h0 : s1.m_tickCount = 0 := (tickEvaluate_frame K _ _ h1).2.2.2.1 rfl
  have h2 := run_tickCount K fuel calls s1 s2 hrun
  exact tickApplies_false_of_lt K s2 (by omega)

/-- Witness of C10: the tick on `convergingChannel` applies a correction; after a tick, a
block of samples and seven more ticks (8 ticks in all) the channel is `waitingChannel`,
on which a tick applies no correction. -/
theorem corrections_ten_ticks_apart_witness :
    tickStep driftBench convergingChannel = some (correctedChannel, true) ∧
    run driftBench 1 correctedChannel
      ([Call.tick, Call.feed (strongBlock 2)] ++ List.replicate 7 Call.tick)
      = some waitingChannel ∧
    tickApplies driftBench waitingChannel = false :=
  have h1 : tickStep driftBench convergingChannel = some (correctedChannel, true) := by decide!
  have h2 : run driftBench 1 correctedChannel
      ([Call.tick, Call.feed (strongBlock 2)] ++ List.replicate 7 Call.tick)
      = some waitingChannel := by decide!
  ⟨h1, h2, corrections_ten_ticks_apart driftBench 1 convergingChannel correctedChannel
    waitingChannel ([Call.tick, Call.feed (strongBlock 2)] ++ List.replicate 7 Call.tick)
    h1 (by decide) h2⟩

/-! ## The tick with a closed squelch or without a tracker (C11, C12) -/

/-- C11. No correction while the squelch is closed: in every state in which the squelch
is closed, `tick()` returns and changes nothing but the tick counter, which goes up by
one below 9 and back to 0 otherwise; the configuration (in particular the frequency
offset), the average frequency error and the last correction magnitude are as before. -/
theorem tick_closed_squelch (K : Externals) (s : FreqTracker) (hclosed : s.m_squelchOpen = false) :
    tick K s
      = some { s with m_tickCount := if s.m_tickCount < 9 then s.m_tickCount + 1 else 0 } ∧
    tickApplies K s = false ∧
    ∀ s1, tick K s = some s1 →
      s1.m_settings = s.m_settings ∧
      s1.m_settings.m_inputFrequencyOffset = s.m_settings.m_inputFrequencyOffset ∧
      s1.m_avgDeltaFreq = s.m_avgDeltaFreq ∧
      s1.m_lastCorrAbs = s.m_lastCorrAbs := by
  have ha : tickAverage K s = s := by
    unfold tickAverage getSquelchOpen
    rw [if_neg (by rw [hclosed]; exact Bool.false_ne_true)]
  have hno : ¬ (s.m_settings.m_tracking = true ∧ getSquelchOpen s = true) := by
    intro h
    have h2 : s.m_squelchOpen = true := h.2
    rw [hclosed] at h2
    exact Bool.false_ne_true h2
  have hstep : tickStep K s
      = some ({ s with m_tickCount := if s.m_tickCount < 9 then s.m_tickCount + 1 else 0 },
          false) := by
    unfold tickStep
    rw [ha]
    unfold tickEvaluate
    by_cases h9 : s.m_tickCount < 9
    · rw [if_pos h9, if_pos h9]
    · rw [if_neg h9, if_neg hno, if_neg h9]
  have htick : tick K s
      = some { s with m_tickCount := if s.m_tickCount < 9 then s.m_tickCount + 1 else 0 } := by
    unfold tick
    rw [hstep]
    rfl
  refine ⟨htick, ?_, ?_⟩
  · unfold tickApplies
    rw [hstep]
  · intro s1 h1
    rw [htick] at h1
    rw [← Option.some.inj h1]
    exact ⟨rfl, rfl, rfl, rfl⟩

/-- Witness of C11: `startedChannel` has a closed squelch; its tick only counts. -/
theorem tick_closed_squelch_witness :
    startedChannel.m_squelchOpen = false ∧
    tick bench startedChannel
      = some { startedChannel with
          m_tickCount := if startedChannel.m_tickCount < 9 then startedChannel.m_tickCount + 1
            else 0 } :=
  have h1 : startedChannel.m_squelchOpen = false := by decide
  ⟨h1, (tick_closed_squelch bench startedChannel h1).1⟩

/-! ## Reset of the frequency correction memory (C17) -/

theorem applyTracking_memory (s : FreqTracker) (c : FreqTrackerSettings) (force : Bool) :
    (applyTracking s c force).m_settings = s.m_settings ∧
    (applyTracking s c force).m_avgDeltaFreq
      = (if s.m_settings.m_tracking ≠ c.m_tracking ∨ force = true then 0
          else s.m_avgDeltaFreq) ∧
    (applyTracking s c force).m_lastCorrAbs
      = (if s.m_settings.m_tracking ≠ c.m_tracking ∨ force = true then 0
          else s.m_lastCorrAbs) := by
  simp only [applyTracking]
  split_ifs <;> exact ⟨rfl, rfl, rfl⟩

theorem applyTrackerType_memory (s : FreqTracker) (c : FreqTrackerSettings) (force : Bool) :
    (applyTrackerType s c force).m_settings = s.m_settings ∧
    (applyTrackerType s c force).m_avgDeltaFreq
      = (if s.m_settings.m_trackerType ≠ c.m_trackerType ∨ force = true then 0
          else s.m_avgDeltaFreq) ∧
    (applyTrackerType s c force).m_lastCorrAbs
      = (if s.m_settings.m_trackerType ≠ c.m_trackerType ∨ force = true then 0
          else s.m_lastCorrAbs) := by
  by_cases h : s.m_settings.m_trackerType ≠ c.m_trackerType ∨ force = true
  · rw [if_pos h, if_pos h]
    simp only [applyTrackerType]
    rw [if_pos h]
    split_ifs
    all_goals first
      | exact ⟨(disconnectTimer_correctionFrame _).settings,
          (disconnectTimer_correctionFrame _).avgDeltaFreq,
          (disconnectTimer_correctionFrame _).lastCorrAbs⟩
      | exact ⟨(connectTimer_correctionFrame _).settings,
          (connectTimer_correctionFrame _).avgDeltaFreq,
          (connectTimer_correctionFrame _).lastCorrAbs⟩
  · rw [if_neg h, if_neg h]
    unfold applyTrackerType
    rw [if_neg h]
    exact ⟨rfl, rfl, rfl⟩

/-- The frequency correction memory after `applySettings`: zero when the tracking flag or
the tracker type changes or `force` is set, unchanged otherwise. -/
theorem applySettings_memory (K : Externals) (s : FreqTracker) (c : FreqTrackerSettings)
    (force : Bool) :
    (applySettings K s c force).m_avgDeltaFreq
      = (if s.m_settings.m_tracking ≠ c.m_tracking ∨ s.m_settings.m_trackerType ≠ c.m_trackerType
            ∨ force = true then 0 else s.m_avgDeltaFreq) ∧
    (applySettings K s c force).m_lastCorrAbs
      = (if s.m_settings.m_tracking ≠ c.m_tracking ∨ s.m_settings.m_trackerType ≠ c.m_trackerType
            ∨ force = true then 0 else s.m_lastCorrAbs) := by
  have ha := applySquelch_correctionFrame K s c force
  obtain ⟨hb1, hb2, hb3⟩ := applyTracking_memory (applySquelch K s c force) c force
  obtain ⟨_, hc2, hc3⟩ :=
    applyTrackerType_memory (applyTracking (applySquelch K s c force) c force) c force
  have hd := applyPskOrder_correctionFrame
    (applyTrackerType (applyTracking (applySquelch K s c force) c force) c force) c force
  have he := applyStreamIndex_correctionFrame K
    (applyPskOrder (applyTrackerType (applyTracking (applySquelch K s c force) c force) c force)
      c force) c
  rw [applySettings_eq]
  obtain ⟨_, h6, h7⟩ := commitSettings_settings (applyChanges K s c force) c
    (decide (s.m_settings.m_inputFrequencyOffset ≠ c.m_inputFrequencyOffset ∨ force = true)
      || decide (s.m_settings.m_log2Decim ≠ c.m_log2Decim ∨ force = true))
    (decide (s.m_settings.m_rfBandwidth ≠ c.m_rfBandwidth ∨ force = true)
      || decide (s.m_settings.m_rrcRolloff ≠ c.m_rrcRolloff ∨ force = true)
      || decide (s.m_settings.m_squelchGate ≠ c.m_squelchGate ∨ force = true))
  rw [h6, h7]
  unfold applyChanges
  rw [he.avgDeltaFreq, he.lastCorrAbs, hd.avgDeltaFreq, hd.lastCorrAbs, hc2, hc3, hb1, hb2, hb3,
    ha.settings, ha.avgDeltaFreq, ha.lastCorrAbs]
  by_cases h1 : s.m_settings.m_tracking ≠ c.m_tracking
  · by_cases h2 : s.m_settings.m_trackerType ≠ c.m_trackerType ∨ force = true
    · simp [h1, h2]
    · have h3 : ¬ force = true := fun h => h2 (Or.inr h)
      have h4 : ¬ s.m_settings.m_trackerType ≠ c.m_trackerType := fun h => h2 (Or.inl h)
      simp [h1, h3]
  · by_cases h2 : s.m_settings.m_trackerType ≠ c.m_trackerType
    · simp [h2]
    · by_cases h3 : force = true
      · simp [h3]
      · simp [h1, h2, h3]

/-- C17. Reset of the frequency correction memory: `applySettings(c, force)` sets both
the average frequency error and the last correction magnitude to 0 when the tracking
flag or the tracker type of `c` differs from the current configuration or `force` is
set, and leaves both unchanged otherwise; in particular the reconfiguration issued by
`tick()`, which only changes the offset, does not reset them. -/
theorem correction_memory_reset (K : Externals) (s : FreqTracker) (c : FreqTrackerSettings)
    (force : Bool) :
    (s.m_settings.m_tracking ≠ c.m_tracking ∨ s.m_settings.m_trackerType ≠ c.m_trackerType
        ∨ force = true →
      (applySettings K s c force).m_avgDeltaFreq = 0 ∧
      (applySettings K s c force).m_lastCorrAbs = 0) ∧
    (¬ (s.m_settings.m_tracking ≠ c.m_tracking ∨ s.m_settings.m_trackerType ≠ c.m_trackerType
        ∨ force = true) →
      (applySettings K s c force).m_avgDeltaFreq = s.m_avgDeltaFreq ∧
      (applySettings K s c force).m_lastCorrAbs = s.m_lastCorrAbs) ∧
    (applySettings K s (correctedSettings s) false).m_avgDeltaFreq = s.m_avgDeltaFreq ∧
    (applySettings K s (correctedSettings s) false).m_lastCorrAbs = s.m_lastCorrAbs := by
  obtain ⟨h1, h2⟩ := applySettings_memory K s c force
  refine ⟨fun h => ?_, fun h => ?_, ?_⟩
  · rw [h1, h2, if_pos h, if_pos h]
    exact ⟨rfl, rfl⟩
  · rw [h1, h2, if_neg h, if_neg h]
    exact ⟨rfl, rfl⟩
  · exact applySettings_correction K s (correctedSettings s) rfl rfl

/-! ## Tracker type none (C12) -/

theorem getFrequency_none (K : Externals) (s : FreqTracker)
    (h : s.m_settings.m_trackerType = TrackerType.TrackerNone) : getFrequency K s = 0 := by
  unfold getFrequency
  rw [h]
  simp

theorem tickAverage_none (K : Externals) (s : FreqTracker)
    (h : s.m_settings.m_trackerType = TrackerType.TrackerNone) (h0 : s.m_avgDeltaFreq = 0) :
    (tickAverage K s).m_avgDeltaFreq = 0 := by
  unfold tickAverage
  split_ifs
  · show s.m_settings.m_alphaEMA * getFrequency K s
      + (1 - s.m_settings.m_alphaEMA) * s.m_avgDeltaFreq = 0
    rw [getFrequency_none K s h, h0]
    ring
  · exact h0

/-- The configuration after lines 802-832 of `tick`: the one before, unless a correction
is applied, which keeps the tracker type. -/
theorem tickEvaluate_settings (K : Externals) (u : FreqTracker) (r : FreqTracker × Bool)
    (h : tickEvaluate K u = some r) :
    r.1.m_settings.m_trackerType = u.m_settings.m_trackerType ∧
    (r.2 = false → r.1.m_settings = u.m_settings) ∧
    (r.2 = true → avgDeltaFreqAbs u > trim u) := by
  rcases tickEvaluate_cases K u r h with
    ⟨_, hr⟩ | ⟨_, _, hr⟩ | ⟨_, _, _, amount, _, _, hr⟩ | ⟨_, _, _, amount, _, _, _, hr⟩ |
    ⟨_, _, _, amount, _, _, hm, hr⟩
  · subst hr
    exact ⟨rfl, fun _ => rfl, fun h => absurd h (by simp)⟩
  · subst hr
    exact ⟨rfl, fun _ => rfl, fun h => absurd h (by simp)⟩
  · subst hr
    exact ⟨rfl, fun _ => rfl, fun h => absurd h (by simp)⟩
  · subst hr
    exact ⟨rfl, fun _ => rfl, fun h => absurd h (by simp)⟩
  · subst hr
    have hs := applySettings_settings K { u with m_lastCorrAbs := avgDeltaFreqAbs u }
      (correctedSettings { u with m_lastCorrAbs := avgDeltaFreqAbs u }) false
    refine ⟨?_, fun h => absurd h (by simp), fun _ => hm⟩
    show (applySettings K _ _ false).m_settings.m_trackerType = _
    rw [hs]
    rfl

theorem avgDeltaFreqAbs_zero (u : FreqTracker) (h : u.m_avgDeltaFreq = 0) :
    avgDeltaFreqAbs u = 0 := by
  unfold avgDeltaFreqAbs truncate
  rw [h]
  simp

theorem trim_nonneg (u : FreqTracker) : 0 ≤ trim u := by
  unfold trim
  exact Int.natCast_nonneg _

/-- While the tracker type is none the average frequency error is 0: this holds after
construction and is kept by every call. -/
theorem call_noTracker (K : Externals) (fuel : Nat) (s s1 : FreqTracker) (c : Call)
    (h : call K fuel s c = some s1)
    (hinv : s.m_settings.m_trackerType = TrackerType.TrackerNone → s.m_avgDeltaFreq = 0) :
    s1.m_settings.m_trackerType = TrackerType.TrackerNone → s1.m_avgDeltaFreq = 0 := by
  have correction : ∀ {a b : FreqTracker}, CorrectionFrame a b →
      (a.m_settings.m_trackerType = TrackerType.TrackerNone → a.m_avgDeltaFreq = 0) →
      b.m_settings.m_trackerType = TrackerType.TrackerNone → b.m_avgDeltaFreq = 0 := by
    intro a b hf ha hb
    rw [hf.settings] at hb
    rw [hf.avgDeltaFreq]
    exact ha hb
  have sample : ∀ {a b : FreqTracker}, SampleFrame a b →
      (a.m_settings.m_trackerType = TrackerType.TrackerNone → a.m_avgDeltaFreq = 0) →
      b.m_settings.m_trackerType = TrackerType.TrackerNone → b.m_avgDeltaFreq = 0 := by
    intro a b hf ha hb
    rw [hf.settings] at hb
    rw [hf.avgDeltaFreq]
    exact ha hb
  have apply : ∀ (a : FreqTracker) (cfg : FreqTrackerSettings) (force : Bool),
      (a.m_settings.m_trackerType = TrackerType.TrackerNone → a.m_avgDeltaFreq = 0) →
      (applySettings K a cfg force).m_settings.m_trackerType = TrackerType.TrackerNone →
      (applySettings K a cfg force).m_avgDeltaFreq = 0 := by
    intro a cfg force ha hb
    rw [applySettings_settings] at hb
    rw [(applySettings_memory K a cfg force).1]
    split_ifs with hch
    · rfl
    · have hty : a.m_settings.m_trackerType = cfg.m_trackerType := by
        by_contra hne
        exact hch (Or.inr (Or.inl hne))
      exact ha (hty.trans hb)
  cases c with
  | start =>
    simp only [call, Option.some.injEq] at h
    subst h
    have hf : CorrectionFrame s (start s) := by
      have h0 := applyChannelSettings_correctionFrame { s with m_squelchCount := 0 }
        s.m_inputSampleRate s.m_inputFrequencyOffset true
      exact ⟨h0.settings, h0.avgDeltaFreq, h0.lastCorrAbs⟩
    exact correction hf hinv
  | stop =>
    simp only [call, Option.some.injEq] at h
    subst h
    exact hinv
  | feed block =>
    simp only [call] at h
    exact sample (feed_sampleFrame K fuel s s1 block h) hinv
  | tick =>
    simp only [call] at h
    unfold tick tickStep at h
    cases hr : tickEvaluate K (tickAverage K s) with
    | none => rw [hr] at h; simp at h
    | some r =>
      rw [hr] at h
      simp only [Option.map_some'] at h
      rw [← Option.some.inj h]
      intro hb
      rw [(tickEvaluate_settings K _ r hr).1, (tickAverage_frame K s).2.2.2.2.1] at hb
      rw [(tickEvaluate_frame K _ r hr).2.1]
      exact tickAverage_none K s hb (hinv hb)
  | handleMessage cmd =>
    simp only [call, Option.some.injEq] at h
    subst h
    cases cmd with
    | DSPSignalNotification sampleRate centerFrequency =>
      have hf := configureChannelizer_correctionFrame { s with m_deviceSampleRate := sampleRate }
      exact correction ⟨hf.settings, hf.avgDeltaFreq, hf.lastCorrAbs⟩ hinv
    | MsgChannelizerNotification sampleRate frequencyOffset =>
      exact correction ((applyChannelSettings_correctionFrame s _ _ _).correctionTrans
        (setInterpolator_correctionFrame _)) hinv
    | MsgConfigureFreqTracker settings force => exact apply s settings force hinv
    | other => exact hinv
  | processOneSample ci =>
    simp only [call, Option.some.injEq] at h
    subst h
    exact sample (processOneSample_sampleFrame K s ci) hinv
  | applySettings settings force =>
    simp only [call, Option.some.injEq] at h
    subst h
    exact apply s settings force hinv
  | applyChannelSettings inputSampleRate inputFrequencyOffset force =>
    simp only [call, Option.some.injEq] at h
    subst h
    exact correction (applyChannelSettings_correctionFrame s _ _ _) hinv
  | setInterpolator =>
    simp only [call, Option.some.injEq] at h
    subst h
    exact correction (setInterpolator_correctionFrame s) hinv
  | configureChannelizer =>
    simp only [call, Option.some.injEq] at h
    subst h
    exact correction (configureChannelizer_correctionFrame s) hinv

theorem run_noTracker (K : Externals) (fuel : Nat) (calls : List Call) :
    ∀ s s1 : FreqTracker,
      (s.m_settings.m_trackerType = TrackerType.TrackerNone → s.m_avgDeltaFreq = 0) →
      run K fuel s calls = some s1 →
      s1.m_settings.m_trackerType = TrackerType.TrackerNone → s1.m_avgDeltaFreq = 0 := by
  induction calls with
  | nil =>
    intro s s1 hinv hrun
    simp only [run, Option.some.injEq] at hrun
    rw [← hrun]
    exact hinv
  | cons c rest ih =>
    intro s s1 hinv hrun
    simp only [run] at hrun
    cases hc : call K fuel s c with
    | none => rw [hc] at hrun; simp at hrun
    | some s2 =>
      rw [hc] at hrun
      exact ih s2 s1 (call_noTracker K fuel s s2 c hc hinv) hrun

theorem construct_avgDeltaFreq (defaults : FreqTrackerSettings) (squelchLevel : ℚ)
    (squelchCount : Nat) (distance : ℚ) :
    (construct defaults squelchLevel squelchCount distance).m_avgDeltaFreq = 0 ∧
    (construct defaults squelchLevel squelchCount distance).m_squelchOpen = false := by
  unfold construct
  exact ⟨(applyChannelSettings_correctionFrame _ _ _ _).avgDeltaFreq,
    (applyChannelSettings_configFrame _ _ _ _).squelchOpen⟩

/-- C12. Tracker type none disables feedback: in every state reached from construction
by a sequence of calls (`applySettings`, `feed`, `tick` and the other operations) in
which the configured tracker type is none, `getFrequency()` is 0, the average frequency
error is 0, and `tick()` applies no correction: it leaves the configuration, hence the
frequency offset, unchanged and the average at 0. -/
theorem tracker_none_no_correction (K : Externals) (fuel : Nat) (defaults : FreqTrackerSettings)
    (squelchLevel : ℚ) (squelchCount : Nat) (distance : ℚ) (calls : List Call)
    (s : FreqTracker)
    (hrun : run K fuel (construct defaults squelchLevel squelchCount distance) calls = some s)
    (hnone : s.m_settings.m_trackerType = TrackerType.TrackerNone) :
    getFrequency K s = 0 ∧ s.m_avgDeltaFreq = 0 ∧ tickApplies K s = false ∧
    ∀ s1, tick K s = some s1 →
      s1.m_settings = s.m_settings ∧
      s1.m_settings.m_inputFrequencyOffset = s.m_settings.m_inputFrequencyOffset ∧
      s1.m_avgDeltaFreq = 0 := by
  have h0 : s.m_avgDeltaFreq = 0 :=
    run_noTracker K fuel calls _ s
      (fun _ => (construct_avgDeltaFreq defaults squelchLevel squelchCount distance).1) hrun hnone
  have hu : (tickAverage K s).m_avgDeltaFreq = 0 := tickAverage_none K s hnone h0
  have hflag : ∀ r, tickEvaluate K (tickAverage K s) = some r → r.2 = false := by
    intro r hr
    cases hb : r.2 with
    | false => rfl
    | true =>
      have hgt := (tickEvaluate_settings K _ r hr).2.2 hb
      rw [avgDeltaFreqAbs_zero _ hu] at hgt
      have := trim_nonneg (tickAverage K s)
      omega
  refine ⟨getFrequency_none K s hnone, h0, ?_, ?_⟩
  · unfold tickApplies tickStep
    cases hr : tickEvaluate K (tickAverage K s) with
    | none => rfl
    | some r => exact hflag r hr
  · intro s1 h1
    unfold tick tickStep at h1
    cases hr : tickEvaluate K (tickAverage K s) with
    | none => rw [hr] at h1; simp at h1
    | some r =>
      rw [hr] at h1
      simp only [Option.map_some'] at h1
      rw [← Option.some.inj h1]
      have hs : r.1.m_settings = s.m_settings := by
        rw [(tickEvaluate_settings K _ r hr).2.1 (hflag r hr)]
        exact (tickAverage_frame K s).2.2.2.2.1
      refine ⟨hs, by rw [hs], ?_⟩
      rw [(tickEvaluate_frame K _ r hr).2.1]
      exact hu

/-- Witness of C12: `idleRun`, run on a constructed channel, ends in `idleChannel`, whose
tracker type is none; with tracking on and the squelch open its tick applies nothing. -/
theorem tracker_none_no_correction_witness :
    run bench 1 (construct sampleSettings (1 / 10000) 0 1) idleRun = some idleChannel ∧
    idleChannel.m_settings.m_trackerType = TrackerType.TrackerNone ∧
    idleChannel.m_settings.m_tracking = true ∧
    idleChannel.m_squelchOpen = true ∧
    tickApplies bench idleChannel = false :=
  have h1 : run bench 1 (construct sampleSettings (1 / 10000) 0 1) idleRun
      = some idleChannel := by decide!
  have h2 : idleChannel.m_settings.m_trackerType = TrackerType.TrackerNone := by decide!
  ⟨h1, h2, by decide!, by decide!,
    (tracker_none_no_correction bench 1 sampleSettings (1 / 10000) 0 1 idleRun idleChannel
      h1 h2).2.2.1⟩

/-! ## Frame lemmas of the blocks of `applySettings` -/

theorem ResamplerFrame.resamplerRefl (s : FreqTracker) : ResamplerFrame s s :=
  ⟨rfl, rfl, rfl, rfl, rfl, rfl, rfl, rfl, rfl⟩

theorem ResamplerFrame.resamplerTrans {a b c : FreqTracker} (h1 : ResamplerFrame a b)
    (h2 : ResamplerFrame b c) : ResamplerFrame a c :=
  ⟨h2.deviceSampleRate.trans h1.deviceSampleRate, h2.inputSampleRate.trans h1.inputSampleRate,
    h2.inputFrequencyOffset.trans h1.inputFrequencyOffset, h2.squelchGate.trans h1.squelchGate,
    h2.nco.trans h1.nco, h2.interpolator.trans h1.interpolator,
    h2.interpolatorDistance.trans h1.interpolatorDistance,
    h2.interpolatorDistanceRemain.trans h1.interpolatorDistanceRemain,
    h2.rrcFilter.trans h1.rrcFilter⟩

theorem connectTimer_resamplerFrame (s : FreqTracker) : ResamplerFrame s (connectTimer s) := by
  unfold connectTimer
  split_ifs <;> exact ⟨rfl, rfl, rfl, rfl, rfl, rfl, rfl, rfl, rfl⟩

theorem disconnectTimer_resamplerFrame (s : FreqTracker) :
    ResamplerFrame s (disconnectTimer s) := by
  unfold disconnectTimer
  split_ifs <;> exact ⟨rfl, rfl, rfl, rfl, rfl, rfl, rfl, rfl, rfl⟩

theorem configureChannelizer_resamplerFrame (s : FreqTracker) :
    ResamplerFrame s (configureChannelizer s) := by
  simp only [configureChannelizer]
  split_ifs <;> exact ⟨rfl, rfl, rfl, rfl, rfl, rfl, rfl, rfl, rfl⟩

theorem applySquelch_resamplerFrame (K : Externals) (s : FreqTracker)
    (c : FreqTrackerSettings) (force : Bool) : ResamplerFrame s (applySquelch K s c force) := by
  unfold applySquelch
  split_ifs <;> exact ⟨rfl, rfl, rfl, rfl, rfl, rfl, rfl, rfl, rfl⟩

theorem applyTracking_resamplerFrame (s : FreqTracker) (c : FreqTrackerSettings)
    (force : Bool) : ResamplerFrame s (applyTracking s c force) := by
  simp only [applyTracking]
  split_ifs <;> exact ⟨rfl, rfl, rfl, rfl, rfl, rfl, rfl, rfl, rfl⟩

theorem applyTrackerType_resamplerFrame (s : FreqTracker) (c : FreqTrackerSettings)
    (force : Bool) : ResamplerFrame s (applyTrackerType s c force) := by
  simp only [applyTrackerType]
  split_ifs
  all_goals first
    | exact ResamplerFrame.resamplerRefl s
    | (refine ResamplerFrame.resamplerTrans ?_ (disconnectTimer_resamplerFrame _)
       exact ⟨rfl, rfl, rfl, rfl, rfl, rfl, rfl, rfl, rfl⟩)
    | (refine ResamplerFrame.resamplerTrans ?_ (connectTimer_resamplerFrame _)
       exact ⟨rfl, rfl, rfl, rfl, rfl, rfl, rfl, rfl, rfl⟩)

theorem applyPskOrder_resamplerFrame (s : FreqTracker) (c : FreqTrackerSettings)
    (force : Bool) : ResamplerFrame s (applyPskOrder s c force) := by
  unfold applyPskOrder
  split_ifs <;> exact ⟨rfl, rfl, rfl, rfl, rfl, rfl, rfl, rfl, rfl⟩

/-- Without a change of the stream index lines 444-457 of `applySettings` do nothing. -/
theorem applyStreamIndex_same (K : Externals) (s : FreqTracker) (c : FreqTrackerSettings)
    (h : s.m_settings.m_streamIndex = c.m_streamIndex) : applyStreamIndex K s c = s := by
  unfold applyStreamIndex
  rw [if_neg (by simp [h])]

/-- The squelch level, the channel sample rate and the timer connection through the
blocks of `applySettings` that do not write them. -/
theorem applyTracking_level (s : FreqTracker) (c : FreqTrackerSettings) (force : Bool) :
    (applyTracking s c force).m_squelchLevel = s.m_squelchLevel ∧
    (applyTracking s c force).m_channelSampleRate = s.m_channelSampleRate ∧
    (applyTracking s c force).m_timerConnected = s.m_timerConnected ∧
    (applyTracking s c force).m_tickCount = s.m_tickCount := by
  simp only [applyTracking]
  split_ifs <;> exact ⟨rfl, rfl, rfl, rfl⟩

theorem connectTimer_level (s : FreqTracker) :
    (connectTimer s).m_squelchLevel = s.m_squelchLevel ∧
    (connectTimer s).m_channelSampleRate = s.m_channelSampleRate ∧
    (connectTimer s).m_timerConnected = true := by
  unfold connectTimer
  split_ifs with h
  · exact ⟨rfl, rfl, h⟩
  · exact ⟨rfl, rfl, rfl⟩

theorem disconnectTimer_level (s : FreqTracker) :
    (disconnectTimer s).m_squelchLevel = s.m_squelchLevel ∧
    (disconnectTimer s).m_channelSampleRate = s.m_channelSampleRate ∧
    (disconnectTimer s).m_timerConnected = false := by
  unfold disconnectTimer
  split_ifs with h
  · exact ⟨rfl, rfl, rfl⟩
  · exact ⟨rfl, rfl, by simpa using h⟩

theorem applyTrackerType_level (s : FreqTracker) (c : FreqTrackerSettings) (force : Bool) :
    (applyTrackerType s c force).m_squelchLevel = s.m_squelchLevel ∧
    (applyTrackerType s c force).m_channelSampleRate = s.m_channelSampleRate := by
  simp only [applyTrackerType]
  split_ifs
  all_goals first
    | exact ⟨rfl, rfl⟩
    | exact ⟨(disconnectTimer_level _).1, (disconnectTimer_level _).2.1⟩
    | exact ⟨(connectTimer_level _).1, (connectTimer_level _).2.1⟩

/-- With `force` the timer is connected after lines 402-419 iff the tracker type is not
none. -/
theorem applyTrackerType_timer (s : FreqTracker) (c : FreqTrackerSettings) :
    (applyTrackerType s c true).m_timerConnected
      = decide (c.m_trackerType ≠ TrackerType.TrackerNone) := by
  simp only [applyTrackerType, or_true, if_true]
  split_ifs with h1 h2 h3 h4 h5
  all_goals first
    | (rw [(disconnectTimer_level _).2.2]; simp [*])
    | (rw [(connectTimer_level _).2.2]; simp [*])

theorem applyPskOrder_level (s : FreqTracker) (c : FreqTrackerSettings) (force : Bool) :
    (applyPskOrder s c force).m_squelchLevel = s.m_squelchLevel ∧
    (applyPskOrder s c force).m_channelSampleRate = s.m_channelSampleRate ∧
    (applyPskOrder s c force).m_timerConnected = s.m_timerConnected ∧
    (applyPskOrder s c force).m_tickCount = s.m_tickCount := by
  unfold applyPskOrder
  split_ifs <;> exact ⟨rfl, rfl, rfl, rfl⟩

theorem applyChannelSettings_level (s : FreqTracker) (rate offset : Int) (force : Bool) :
    (applyChannelSettings s rate offset force).m_squelchLevel = s.m_squelchLevel ∧
    (applyChannelSettings s rate offset force).m_channelSampleRate = s.m_channelSampleRate ∧
    (applyChannelSettings s rate offset force).m_timerConnected = s.m_timerConnected ∧
    (applyChannelSettings s rate offset force).m_tickCount = s.m_tickCount ∧
    (applyChannelSettings s rate offset force).m_deviceSampleRate = s.m_deviceSampleRate := by
  simp only [applyChannelSettings]
  split_ifs <;> exact ⟨rfl, rfl, rfl, rfl, rfl⟩

theorem applyStreamIndex_level (K : Externals) (s : FreqTracker) (c : FreqTrackerSettings) :
    (applyStreamIndex K s c).m_squelchLevel = s.m_squelchLevel ∧
    (applyStreamIndex K s c).m_channelSampleRate = s.m_channelSampleRate ∧
    (applyStreamIndex K s c).m_timerConnected = s.m_timerConnected ∧
    (applyStreamIndex K s c).m_tickCount = s.m_tickCount ∧
    (applyStreamIndex K s c).m_deviceSampleRate = s.m_deviceSampleRate := by
  unfold applyStreamIndex
  split_ifs
  · split
    · exact applyChannelSettings_level _ _ _ _
    · exact ⟨rfl, rfl, rfl, rfl, rfl⟩
  · exact ⟨rfl, rfl, rfl, rfl, rfl⟩

theorem commitSettings_level (s : FreqTracker) (c : FreqTrackerSettings) (b1 b2 : Bool) :
    (commitSettings s c b1 b2).m_squelchLevel = s.m_squelchLevel ∧
    (commitSettings s c b1 b2).m_timerConnected = s.m_timerConnected ∧
    (commitSettings s c b1 b2).m_tickCount = s.m_tickCount ∧
    (commitSettings s c b1 b2).m_deviceSampleRate = s.m_deviceSampleRate := by
  unfold commitSettings
  split_ifs
  · simp only [configureChannelizer]
    split_ifs <;> exact ⟨rfl, rfl, rfl, rfl⟩
  · exact ⟨rfl, rfl, rfl, rfl⟩
  · exact ⟨rfl, rfl, rfl, rfl⟩

/-- The squelch level after `applySettings`: recomputed from the new threshold when the
threshold changes or `force` is set, unchanged otherwise. -/
theorem applySettings_level (K : Externals) (s : FreqTracker) (c : FreqTrackerSettings)
    (force : Bool) :
    (applySettings K s c force).m_squelchLevel
      = (if s.m_settings.m_squelch ≠ c.m_squelch ∨ force = true then K.powerFromdB c.m_squelch
          else s.m_squelchLevel) := by
  rw [applySettings_eq, (commitSettings_level _ _ _ _).1]
  unfold applyChanges
  rw [(applyStreamIndex_level K _ _).1, (applyPskOrder_level _ _ _).1,
    (applyTrackerType_level _ _ _).1, (applyTracking_level _ _ _).1]
  unfold applySquelch
  split_ifs <;> rfl

/-! ## Forced application is idempotent (C15) -/

theorem applySquelch_again (K : Externals) (s : FreqTracker) (c : FreqTrackerSettings)
    (force : Bool) (h : s.m_squelchLevel = K.powerFromdB c.m_squelch) :
    applySquelch K s c force = s := by
  unfold applySquelch
  split_ifs
  · rw [← h]
  · rfl

theorem applyTracking_again (s : FreqTracker) (c : FreqTrackerSettings) (force : Bool)
    (h1 : s.m_avgDeltaFreq = 0) (h2 : s.m_lastCorrAbs = 0) :
    withoutTrackers (applyTracking s c force) = withoutTrackers s := by
  simp only [applyTracking]
  split_ifs
  · simp only [withoutTrackers]
    rw [← h1, ← h2]
  · simp only [withoutTrackers]
    rw [← h1, ← h2]
  · rfl

theorem connectTimer_again (s : FreqTracker) (h : s.m_timerConnected = true) :
    connectTimer s = s := by
  unfold connectTimer
  rw [if_neg (by simp [h])]

theorem disconnectTimer_again (s : FreqTracker) (h : s.m_timerConnected = false) :
    disconnectTimer s = s := by
  unfold disconnectTimer
  rw [if_neg (by simp [h])]

theorem applyTrackerType_again (s : FreqTracker) (c : FreqTrackerSettings) (force : Bool)
    (h1 : s.m_avgDeltaFreq = 0) (h2 : s.m_lastCorrAbs = 0)
    (h3 : s.m_timerConnected = decide (c.m_trackerType ≠ TrackerType.TrackerNone)) :
    withoutTrackers (applyTrackerType s c force) = withoutTrackers s := by
  simp only [applyTrackerType]
  split_ifs with hch hn hfll hpll hfll2 hpll2
  · rw [disconnectTimer_again _ (by simp [h3, hn])]
    simp only [withoutTrackers]
    rw [← h1, ← h2]
  · rw [disconnectTimer_again _ (by simp [h3, hn])]
    simp only [withoutTrackers]
    rw [← h1, ← h2]
  · rw [disconnectTimer_again _ (by simp [h3, hn])]
    simp only [withoutTrackers]
    rw [← h1, ← h2]
  · rw [connectTimer_again _ (by simp [h3, hn])]
    simp only [withoutTrackers]
    rw [← h1, ← h2]
  · rw [connectTimer_again _ (by simp [h3, hn])]
    simp only [withoutTrackers]
    rw [← h1, ← h2]
  · rw [connectTimer_again _ (by simp [h3, hn])]
    simp only [withoutTrackers]
    rw [← h1, ← h2]
  · rfl

theorem applyPskOrder_again (s : FreqTracker) (c : FreqTrackerSettings) (force : Bool) :
    withoutTrackers (applyPskOrder s c force) = withoutTrackers s := by
  unfold applyPskOrder
  split_ifs <;> rfl

theorem configureChannelizer_rate (s : FreqTracker) :
    (configureChannelizer s).m_channelSampleRate
      = s.m_deviceSampleRate / 2 ^ s.m_settings.m_log2Decim ∧
    (configureChannelizer s).m_deviceSampleRate = s.m_deviceSampleRate := by
  simp only [configureChannelizer]
  split_ifs with h
  · exact ⟨rfl, rfl⟩
  · exact ⟨by simpa using h, rfl⟩

theorem commitSettings_again (s : FreqTracker) (c : FreqTrackerSettings) (b2 : Bool)
    (h1 : s.m_settings = c)
    (h2 : s.m_channelSampleRate = s.m_deviceSampleRate / 2 ^ c.m_log2Decim) :
    commitSettings s c true b2 = s := by
  unfold commitSettings
  rw [if_pos rfl]
  simp only [configureChannelizer]
  rw [if_neg (by simp [h2])]
  rw [← h1]

/-- Two states that agree up to the tracker histories agree on every other member. -/
theorem withoutTrackers_members (a b : FreqTracker) (h : withoutTrackers a = withoutTrackers b) :
    a.m_settings = b.m_settings ∧
    a.m_squelchLevel = b.m_squelchLevel ∧
    a.m_avgDeltaFreq = b.m_avgDeltaFreq ∧
    a.m_lastCorrAbs = b.m_lastCorrAbs ∧
    a.m_timerConnected = b.m_timerConnected ∧
    a.m_tickCount = b.m_tickCount ∧
    a.m_interpolator = b.m_interpolator ∧
    a.m_interpolatorDistance = b.m_interpolatorDistance ∧
    a.m_interpolatorDistanceRemain = b.m_interpolatorDistanceRemain ∧
    a.m_squelchGate = b.m_squelchGate ∧
    a.m_channelSampleRate = b.m_channelSampleRate ∧
    a.m_deviceSampleRate = b.m_deviceSampleRate := by
  have e1 := congrArg FreqTracker.m_settings h
  have e2 := congrArg FreqTracker.m_squelchLevel h
  have e3 := congrArg FreqTracker.m_avgDeltaFreq h
  have e4 := congrArg FreqTracker.m_lastCorrAbs h
  have e5 := congrArg FreqTracker.m_timerConnected h
  have e6 := congrArg FreqTracker.m_tickCount h
  have e7 := congrArg FreqTracker.m_interpolator h
  have e8 := congrArg FreqTracker.m_interpolatorDistance h
  have e9 := congrArg FreqTracker.m_interpolatorDistanceRemain h
  have e10 := congrArg FreqTracker.m_squelchGate h
  have e11 := congrArg FreqTracker.m_channelSampleRate h
  have e12 := congrArg FreqTracker.m_deviceSampleRate h
  exact ⟨e1, e2, e3, e4, e5, e6, e7, e8, e9, e10, e11, e12⟩

/-- With `force` both rebuild flags of `applySettings` are set. -/
theorem applySettings_force (K : Externals) (s : FreqTracker) (c : FreqTrackerSettings) :
    applySettings K s c true = commitSettings (applyChanges K s c true) c true true := by
  rw [applySettings_eq]
  simp

/-- The state left by a forced `applySettings`. -/
theorem applySettings_force_state (K : Externals) (s : FreqTracker) (c : FreqTrackerSettings) :
    (applySettings K s c true).m_settings = c ∧
    (applySettings K s c true).m_squelchLevel = K.powerFromdB c.m_squelch ∧
    (applySettings K s c true).m_avgDeltaFreq = 0 ∧
    (applySettings K s c true).m_lastCorrAbs = 0 ∧
    (applySettings K s c true).m_timerConnected
      = decide (c.m_trackerType ≠ TrackerType.TrackerNone) ∧
    (applySettings K s c true).m_channelSampleRate
      = (applySettings K s c true).m_deviceSampleRate / 2 ^ c.m_log2Decim := by
  obtain ⟨hm1, hm2⟩ := applySettings_memory K s c true
  refine ⟨applySettings_settings K s c true, ?_, ?_, ?_, ?_, ?_⟩
  · rw [applySettings_level, if_pos (Or.inr rfl)]
  · rw [hm1, if_pos (Or.inr (Or.inr rfl))]
  · rw [hm2, if_pos (Or.inr (Or.inr rfl))]
  · rw [applySettings_force, (commitSettings_level _ _ _ _).2.1]
    unfold applyChanges
    rw [(applyStreamIndex_level K _ _).2.2.1, (applyPskOrder_level _ _ _).2.2.1,
      applyTrackerType_timer]
  · rw [applySettings_force]
    unfold commitSettings
    rw [if_pos rfl, (configureChannelizer_rate _).1, (configureChannelizer_rate _).2]

/-- A forced `applySettings` on a state that a forced `applySettings` of the same
configuration has left only appends calls to the histories of the trackers. -/
theorem applySettings_force_again (K : Externals) (x : FreqTracker) (c : FreqTrackerSettings)
    (h1 : x.m_settings = c)
    (h2 : x.m_squelchLevel = K.powerFromdB c.m_squelch)
    (h3 : x.m_avgDeltaFreq = 0) (h4 : x.m_lastCorrAbs = 0)
    (h5 : x.m_timerConnected = decide (c.m_trackerType ≠ TrackerType.TrackerNone))
    (h6 : x.m_channelSampleRate = x.m_deviceSampleRate / 2 ^ c.m_log2Decim) :
    withoutTrackers (applySettings K x c true) = withoutTrackers x := by
  have e1 : applySquelch K x c true = x := applySquelch_again K x c true h2
  obtain ⟨m1, m2, m3⟩ := applyTracking_memory x c true
  rw [if_pos (Or.inr rfl)] at m2 m3
  obtain ⟨_, _, l3, _⟩ := applyTracking_level x c true
  have e2 : withoutTrackers (applyTracking x c true) = withoutTrackers x :=
    applyTracking_again x c true h3 h4
  have e3 : withoutTrackers (applyTrackerType (applyTracking x c true) c true)
      = withoutTrackers (applyTracking x c true) :=
    applyTrackerType_again _ c true m2 m3 (by rw [l3]; exact h5)
  have e4 := applyPskOrder_again (applyTrackerType (applyTracking x c true) c true) c true
  have e14 : withoutTrackers
      (applyPskOrder (applyTrackerType (applyTracking x c true) c true) c true)
      = withoutTrackers x := e4.trans (e3.trans e2)
  obtain ⟨f1, _, _, _, _, _, _, _, _, _, f11, f12⟩ := withoutTrackers_members _ _ e14
  have s4 : (applyPskOrder (applyTrackerType (applyTracking x c true) c true) c true).m_settings
      = c := f1.trans h1
  have e5 : applyStreamIndex K
      (applyPskOrder (applyTrackerType (applyTracking x c true) c true) c true) c
      = applyPskOrder (applyTrackerType (applyTracking x c true) c true) c true :=
    applyStreamIndex_same K _ c (by rw [s4])
  have r4 : (applyPskOrder (applyTrackerType (applyTracking x c true) c true) c true).m_channelSampleRate
      = (applyPskOrder (applyTrackerType (applyTracking x c true) c true)
          c true).m_deviceSampleRate / 2 ^ c.m_log2Decim := by
    rw [f11, f12]
    exact h6
  rw [applySettings_force]
  unfold applyChanges
  rw [e1, e5, commitSettings_again _ c true s4 r4]
  exact e14

/-- C15. Forced configuration application is idempotent: for every state `s` and every
configuration `c`, applying `applySettings(c, force = true)` a second time leaves every
member as the first application left it, except the call histories of the two trackers
(which receive the same resets and PSK order again); in particular the configuration,
the squelch level, the correction memory, the timer connection, the tick counter and
the resampler parameters are those of a single application. -/
theorem forced_applySettings_idempotent (K : Externals) (s : FreqTracker)
    (c : FreqTrackerSettings) :
    withoutTrackers (applySettings K (applySettings K s c true) c true)
      = withoutTrackers (applySettings K s c true) ∧
    (applySettings K (applySettings K s c true) c true).m_settings
      = (applySettings K s c true).m_settings ∧
    (applySettings K (applySettings K s c true) c true).m_squelchLevel
      = (applySettings K s c true).m_squelchLevel ∧
    (applySettings K (applySettings K s c true) c true).m_avgDeltaFreq
      = (applySettings K s c true).m_avgDeltaFreq ∧
    (applySettings K (applySettings K s c true) c true).m_lastCorrAbs
      = (applySettings K s c true).m_lastCorrAbs ∧
    (applySettings K (applySettings K s c true) c true).m_timerConnected
      = (applySettings K s c true).m_timerConnected ∧
    (applySettings K (applySettings K s c true) c true).m_tickCount
      = (applySettings K s c true).m_tickCount ∧
    (applySettings K (applySettings K s c true) c true).m_interpolator
      = (applySettings K s c true).m_interpolator ∧
    (applySettings K (applySettings K s c true) c true).m_interpolatorDistance
      = (applySettings K s c true).m_interpolatorDistance ∧
    (applySettings K (applySettings K s c true) c true).m_interpolatorDistanceRemain
      = (applySettings K s c true).m_interpolatorDistanceRemain ∧
    (applySettings K (applySettings K s c true) c true).m_squelchGate
      = (applySettings K s c true).m_squelchGate ∧
    (applySettings K (applySettings K s c true) c true).m_channelSampleRate
      = (applySettings K s c true).m_channelSampleRate := by
  obtain ⟨h1, h2, h3, h4, h5, h6⟩ := applySettings_force_state K s c
  have h := applySettings_force_again K (applySettings K s c true) c h1 h2 h3 h4 h5 h6
  obtain ⟨f1, f2, f3, f4, f5, f6, f7, f8, f9, f10, f11, _⟩ := withoutTrackers_members _ _ h
  exact ⟨h, f1, f2, f3, f4, f5, f6, f7, f8, f9, f10, f11⟩

/-! ## No validation in `applySettings` (C13) -/

/-- C13 (as amended). `applySettings` does not validate the configuration: for every
configuration `c`, valid or malformed, and every `force`, the active configuration
after the call is `c`, and the squelch level is recomputed from the threshold of `c`
when the threshold changes or `force` is set (it is unchanged otherwise).  Nothing is
rejected. -/
theorem applySettings_stores_every_configuration (K : Externals) (s : FreqTracker)
    (c : FreqTrackerSettings) (force : Bool) :
    (applySettings K s c force).m_settings = c ∧
    (applySettings K s c force).m_squelchLevel
      = (if s.m_settings.m_squelch ≠ c.m_squelch ∨ force = true then K.powerFromdB c.m_squelch
          else s.m_squelchLevel) :=
  ⟨applySettings_settings K s c force, applySettings_level K s c force⟩

/-- Counterexample to C13 as stated: `malformedSettings` has a non-positive RF bandwidth,
yet `applySettings` on a constructed channel makes it the active configuration and
rebuilds the resampler from it. -/
theorem applySettings_rejection_counterexample :
    malformedSettings.m_rfBandwidth ≤ 0 ∧
    constructedChannel.m_settings = sampleSettings ∧
    (applySettings bench constructedChannel malformedSettings false).m_settings
      = malformedSettings ∧
    (applySettings bench constructedChannel malformedSettings false).m_settings
      ≠ constructedChannel.m_settings ∧
    (applySettings bench constructedChannel malformedSettings false).m_interpolator
      = constructedChannel.m_interpolator ++ [InterpolatorCall.create 16 48000 (-5 / 11)] := by
  decide!

/-! ## The squelch after `start()` (C18) -/

/-- C18 (as amended). What `start()` does: for every state before the call, `start()`
sets the squelch counter to 0, calls `applyChannelSettings` with the current input rate
and offset and `force`, which sets the oscillator and runs `setInterpolator` (resampler
and RRC filter created from the active configuration, phase accumulator 0, ratio and
squelch gate in samples computed anew), and sets the run flag; every other member is the
one before the call.  In particular the open flag of the squelch is not written: it is
closed when `start()` follows the construction of the object, and it is the one before
the call otherwise. -/
theorem start_resets_counter (s : FreqTracker) (defaults : FreqTrackerSettings)
    (squelchLevel : ℚ) (squelchCount : Nat) (distance : ℚ) :
    (start s).m_squelchCount = 0 ∧
    (start s).m_squelchOpen = s.m_squelchOpen ∧
    (start (construct defaults squelchLevel squelchCount distance)).m_squelchOpen = false ∧
    start s =
      { s with
        m_squelchCount := 0
        m_running := true
        m_nco := s.m_nco ++ [NcoCall.setFreq (-s.m_inputFrequencyOffset) s.m_inputSampleRate]
        m_interpolator := s.m_interpolator ++
          [InterpolatorCall.create 16 s.m_inputSampleRate (s.m_settings.m_rfBandwidth / (11 / 5))]
        m_interpolatorDistanceRemain := 0
        m_interpolatorDistance := (s.m_inputSampleRate : ℚ) / (s.m_channelSampleRate : ℚ)
        m_rrcFilter := s.m_rrcFilter ++
          [FilterCall.create_rrc_filter
            (s.m_settings.m_rfBandwidth / (s.m_channelSampleRate : ℚ))
            ((s.m_settings.m_rrcRolloff : ℚ) / 100)]
        m_squelchGate := (s.m_channelSampleRate / 100) * s.m_settings.m_squelchGate } := by
  have h := applyChannelSettings_configFrame { s with m_squelchCount := 0 }
    s.m_inputSampleRate s.m_inputFrequencyOffset true
  have h2 := applyChannelSettings_configFrame
    { (construct defaults squelchLevel squelchCount distance) with m_squelchCount := 0 }
    (construct defaults squelchLevel squelchCount distance).m_inputSampleRate
    (construct defaults squelchLevel squelchCount distance).m_inputFrequencyOffset true
  refine ⟨h.squelchCount, h.squelchOpen, ?_, ?_⟩
  · exact h2.squelchOpen.trans
      (construct_avgDeltaFreq defaults squelchLevel squelchCount distance).2
  · unfold start applyChannelSettings
    dsimp only
    rw [if_pos (Or.inr (Or.inr rfl)), if_pos (Or.inr rfl)]
    rfl

/-- Counterexample to C18 as stated: `thresholdRun` leaves the squelch open; after
`stop()` and `start()` the counter is 0 but the squelch is still open. -/
theorem start_squelch_counterexample :
    run bench 1 constructedChannel thresholdRun = some thresholdChannel ∧
    thresholdChannel.m_squelchOpen = true ∧
    (start (stop thresholdChannel)).m_squelchCount = 0 ∧
    (start (stop thresholdChannel)).m_squelchGate = 7 ∧
    (start (stop thresholdChannel)).m_squelchOpen = true := by
  decide!

/-! ## The resampler ratio after `applyChannelSettings` (C19) -/

/-- The resampler after `applyChannelSettings` with a new rate or with `force`: the ratio
is computed by `setInterpolator` from the input rate held before the call, because the
member `m_inputSampleRate` is assigned after `setInterpolator` has run. -/
theorem applyChannelSettings_ratio (s : FreqTracker) (rate offset : Int) (force : Bool)
    (h : s.m_inputSampleRate ≠ rate ∨ force = true) :
    (applyChannelSettings s rate offset force).m_interpolatorDistance
      = (s.m_inputSampleRate : ℚ) / (s.m_channelSampleRate : ℚ) ∧
    (applyChannelSettings s rate offset force).m_interpolatorDistanceRemain = 0 ∧
    (applyChannelSettings s rate offset force).m_inputSampleRate = rate ∧
    (applyChannelSettings s rate offset force).m_channelSampleRate = s.m_channelSampleRate := by
  unfold applyChannelSettings
  dsimp only
  split_ifs <;> exact ⟨rfl, rfl, rfl, rfl⟩

/-- C19 (the code at the failing input). On a channel with input and channel rate
48 kS/s, `applyChannelSettings(96000, 0)` stores the input rate 96000 and resets the phase
accumulator, but leaves the ratio at 48000 / 48000 = 1 instead of 96000 / 48000 = 2; the
same happens through `applySettings` when the stream index of a MIMO device changes to a
stream at 96 kS/s. -/
theorem applyChannelSettings_stale_ratio :
    constructedChannel.m_inputSampleRate = 48000 ∧
    constructedChannel.m_channelSampleRate = 48000 ∧
    (applyChannelSettings constructedChannel 96000 0 false).m_inputSampleRate = 96000 ∧
    (applyChannelSettings constructedChannel 96000 0 false).m_channelSampleRate = 48000 ∧
    (applyChannelSettings constructedChannel 96000 0 false).m_interpolatorDistanceRemain = 0 ∧
    (applyChannelSettings constructedChannel 96000 0 false).m_interpolatorDistance = 1 ∧
    (applyChannelSettings constructedChannel 96000 0 false).m_interpolatorDistance
      ≠ (96000 : ℚ) / 48000 ∧
    (applySettings mimoBench constructedChannel
      { sampleSettings with m_streamIndex := 1 } false).m_inputSampleRate = 96000 ∧
    (applySettings mimoBench constructedChannel
      { sampleSettings with m_streamIndex := 1 } false).m_channelSampleRate = 48000 ∧
    (applySettings mimoBench constructedChannel
      { sampleSettings with m_streamIndex := 1 } false).m_interpolatorDistance = 1 := by
  decide!

/-! ## PSK order (C14) -/

theorem configuredPskOrder_append (calls : List PllCall) (call : PllCall) :
    configuredPskOrder (calls ++ [call])
      = (match call with
        | PllCall.setPskOrder n => some n
        | _ => configuredPskOrder calls) := by
  unfold configuredPskOrder
  rw [List.foldl_append]
  cases call <;> rfl

theorem applyTracking_pskOrder (s : FreqTracker) (c : FreqTrackerSettings) (force : Bool) :
    configuredPskOrder (applyTracking s c force).m_pll = configuredPskOrder s.m_pll := by
  simp only [applyTracking]
  split_ifs
  · exact configuredPskOrder_append _ _
  · rfl
  · rfl

theorem applyTrackerType_pskOrder (s : FreqTracker) (c : FreqTrackerSettings) (force : Bool) :
    configuredPskOrder (applyTrackerType s c force).m_pll = configuredPskOrder s.m_pll := by
  have hd : ∀ x : FreqTracker, (disconnectTimer x).m_pll = x.m_pll := by
    intro x
    unfold disconnectTimer
    split_ifs <;> rfl
  have hc : ∀ x : FreqTracker, (connectTimer x).m_pll = x.m_pll := by
    intro x
    unfold connectTimer
    split_ifs <;> rfl
  simp only [applyTrackerType]
  split_ifs
  all_goals first
    | rfl
    | (rw [hd]; exact configuredPskOrder_append _ _)
    | (rw [hc]; exact configuredPskOrder_append _ _)
    | rw [hd]
    | rw [hc]

theorem applyPskOrder_pskOrder (s : FreqTracker) (c : FreqTrackerSettings) (force : Bool) :
    configuredPskOrder (applyPskOrder s c force).m_pll
      = (if (s.m_settings.m_pllPskOrder ≠ c.m_pllPskOrder ∨ force = true) ∧ c.m_pllPskOrder < 32
          then some c.m_pllPskOrder else configuredPskOrder s.m_pll) := by
  unfold applyPskOrder
  by_cases h1 : s.m_settings.m_pllPskOrder ≠ c.m_pllPskOrder ∨ force = true
  · rw [if_pos h1]
    by_cases h2 : c.m_pllPskOrder < 32
    · rw [if_pos h2, if_pos ⟨h1, h2⟩]
      exact configuredPskOrder_append _ _
    · rw [if_neg h2, if_neg (fun h => h2 h.2)]
  · rw [if_neg h1, if_neg (fun h => h1 h.1)]

theorem applyStreamIndex_pll (K : Externals) (s : FreqTracker) (c : FreqTrackerSettings) :
    (applyStreamIndex K s c).m_pll = s.m_pll := by
  unfold applyStreamIndex
  split_ifs
  · split
    · simp only [applyChannelSettings]
      split_ifs <;> rfl
    · rfl
  · rfl

theorem commitSettings_pskOrder (s : FreqTracker) (c : FreqTrackerSettings) (b1 b2 : Bool) :
    configuredPskOrder (commitSettings s c b1 b2).m_pll = configuredPskOrder s.m_pll := by
  unfold commitSettings
  split_ifs
  · simp only [configureChannelizer]
    split_ifs
    · exact configuredPskOrder_append _ _
    · rfl
  · rfl
  · rfl

/-- The PSK order held by the phase locked loop after `applySettings`. -/
theorem applySettings_pskOrder (K : Externals) (s : FreqTracker) (c : FreqTrackerSettings)
    (force : Bool) :
    configuredPskOrder (applySettings K s c force).m_pll
      = (if (s.m_settings.m_pllPskOrder ≠ c.m_pllPskOrder ∨ force = true) ∧ c.m_pllPskOrder < 32
          then some c.m_pllPskOrder else configuredPskOrder s.m_pll) := by
  have hs : (applyTrackerType (applyTracking (applySquelch K s c force) c force)
      c force).m_settings = s.m_settings := by
    rw [(applyTrackerType_memory _ _ _).1, (applyTracking_memory _ _ _).1,
      (applySquelch_correctionFrame K s c force).settings]
  have hq : (applySquelch K s c force).m_pll = s.m_pll := by
    unfold applySquelch
    split_ifs <;> rfl
  rw [applySettings_eq, commitSettings_pskOrder]
  unfold applyChanges
  rw [applyStreamIndex_pll, applyPskOrder_pskOrder, hs, applyTrackerType_pskOrder,
    applyTracking_pskOrder, hq]

/-- C14 (as amended). PSK order in `applySettings`: when the order of the new
configuration differs from the current one or `force` is set, the order is passed to the
PLL (`setPskOrder`) if it is below 32, whether or not it is a power of two, and it is not
passed if it is above 32; without a change and without `force` nothing is passed.  When
nothing is passed the PLL keeps its order.  In every case the new order is stored in the
active configuration. -/
theorem pskOrder_passed_below_32 (K : Externals) (s : FreqTracker) (c : FreqTrackerSettings)
    (force : Bool) :
    (applySettings K s c force).m_settings.m_pllPskOrder = c.m_pllPskOrder ∧
    ((s.m_settings.m_pllPskOrder ≠ c.m_pllPskOrder ∨ force = true) → c.m_pllPskOrder < 32 →
      configuredPskOrder (applySettings K s c force).m_pll = some c.m_pllPskOrder) ∧
    (32 < c.m_pllPskOrder →
      configuredPskOrder (applySettings K s c force).m_pll = configuredPskOrder s.m_pll) ∧
    (¬ (s.m_settings.m_pllPskOrder ≠ c.m_pllPskOrder ∨ force = true) →
      configuredPskOrder (applySettings K s c force).m_pll = configuredPskOrder s.m_pll) := by
  have h := applySettings_pskOrder K s c force
  refine ⟨by rw [applySettings_settings], fun h1 h2 => ?_, fun h3 => ?_, fun h4 => ?_⟩
  · rw [h, if_pos ⟨h1, h2⟩]
  · rw [h, if_neg (fun hc => by omega)]
  · rw [h, if_neg (fun hc => h4 hc.1)]

/-- Counterexample to C14 as stated: on `configuredChannel`, whose PLL holds the order 2,
a configuration with the PSK order 3, which is not a power of two, is passed to the
PLL. -/
theorem pskOrder_counterexample :
    configuredPskOrder configuredChannel.m_pll = some 2 ∧
    (3 : Nat) ∉ [1, 2, 4, 8, 16, 32] ∧
    configuredPskOrder
      (applySettings bench configuredChannel { sampleSettings with m_pllPskOrder := 3 } false).m_pll
      = some 3 := by
  decide!

/-! ## Rebuild of the resampler by `applySettings` (C16) -/

theorem applyChannelSettings_inputSampleRate (s : FreqTracker) (rate offset : Int)
    (force : Bool) : (applyChannelSettings s rate offset force).m_inputSampleRate = rate := by
  simp only [applyChannelSettings]

/-- The blocks of `applySettings` before the storage of the configuration leave the
resampler alone when the stream index does not change. -/
theorem applyChanges_resamplerFrame (K : Externals) (s : FreqTracker) (c : FreqTrackerSettings)
    (force : Bool) (hstream : s.m_settings.m_streamIndex = c.m_streamIndex) :
    ResamplerFrame s (applyChanges K s c force) := by
  have hs : (applyPskOrder (applyTrackerType (applyTracking (applySquelch K s c force) c force)
      c force) c force).m_settings = s.m_settings := by
    rw [(applyPskOrder_correctionFrame _ _ _).settings, (applyTrackerType_memory _ _ _).1,
      (applyTracking_memory _ _ _).1, (applySquelch_correctionFrame K s c force).settings]
  unfold applyChanges
  rw [applyStreamIndex_same K _ c (by rw [hs]; exact hstream)]
  exact (((applySquelch_resamplerFrame K s c force).resamplerTrans
    (applyTracking_resamplerFrame _ _ _)).resamplerTrans
    (applyTrackerType_resamplerFrame _ _ _)).resamplerTrans (applyPskOrder_resamplerFrame _ _ _)

/-- C16 (as amended). The apply step rebuilds the resampler directly or through the
channelizer.  (1) When `applySettings` is called without `force` with a configuration
whose RF bandwidth, RRC roll-off or squelch gate differs from the current one while the
frequency offset and the decimation are unchanged, then on return `setInterpolator` has
run: resampler, RRC filter and squelch gate in samples are rebuilt from the new
configuration.  (2) When the frequency offset or the decimation changes in the same call,
or with `force`, the call configures the channelizer instead and, the stream index being
unchanged, leaves resampler, filter and gate as they were.  (3) The notification with
which the channelizer answers is handled by `applyChannelSettings` followed by
`setInterpolator`, which rebuilds them from the active configuration. -/
theorem applySettings_rebuild (K : Externals) (s : FreqTracker) (c : FreqTrackerSettings) :
    (s.m_settings.m_inputFrequencyOffset = c.m_inputFrequencyOffset →
      s.m_settings.m_log2Decim = c.m_log2Decim →
      (s.m_settings.m_rfBandwidth ≠ c.m_rfBandwidth ∨ s.m_settings.m_rrcRolloff ≠ c.m_rrcRolloff
        ∨ s.m_settings.m_squelchGate ≠ c.m_squelchGate) →
      applySettings K s c false
        = setInterpolator { (applyChanges K s c false) with m_settings := c } ∧
      (applySettings K s c false).m_squelchGate
        = ((applySettings K s c false).m_channelSampleRate / 100) * c.m_squelchGate ∧
      (applySettings K s c false).m_interpolatorDistanceRemain = 0 ∧
      (applySettings K s c false).m_interpolatorDistance
        = ((applySettings K s c false).m_inputSampleRate : ℚ)
          / ((applySettings K s c false).m_channelSampleRate : ℚ) ∧
      (applySettings K s c false).m_interpolator.getLast?
        = some (InterpolatorCall.create 16 (applySettings K s c false).m_inputSampleRate
            (c.m_rfBandwidth / (11 / 5))) ∧
      (applySettings K s c false).m_rrcFilter.getLast?
        = some (FilterCall.create_rrc_filter
            (c.m_rfBandwidth / ((applySettings K s c false).m_channelSampleRate : ℚ))
            ((c.m_rrcRolloff : ℚ) / 100))) ∧
    (∀ force : Bool,
      (s.m_settings.m_inputFrequencyOffset ≠ c.m_inputFrequencyOffset
        ∨ s.m_settings.m_log2Decim ≠ c.m_log2Decim ∨ force = true) →
      s.m_settings.m_streamIndex = c.m_streamIndex →
      (applySettings K s c force).m_squelchGate = s.m_squelchGate ∧
      (applySettings K s c force).m_interpolator = s.m_interpolator ∧
      (applySettings K s c force).m_rrcFilter = s.m_rrcFilter ∧
      (applySettings K s c force).m_interpolatorDistance = s.m_interpolatorDistance ∧
      (applySettings K s c force).m_interpolatorDistanceRemain
        = s.m_interpolatorDistanceRemain) ∧
    (∀ rate offset : Int,
      (handleMessage K s (Message.MsgChannelizerNotification rate offset)).1.m_squelchGate
        = (s.m_channelSampleRate / 100) * s.m_settings.m_squelchGate ∧
      (handleMessage K s (Message.MsgChannelizerNotification rate offset)).1.m_interpolatorDistance
        = (rate : ℚ) / (s.m_channelSampleRate : ℚ) ∧
      (handleMessage K s
        (Message.MsgChannelizerNotification rate offset)).1.m_interpolatorDistanceRemain = 0) := by
  refine ⟨?_, ?_, ?_⟩
  · intro hoff hdec hchg
    have heq : applySettings K s c false
        = setInterpolator { (applyChanges K s c false) with m_settings := c } := by
      rw [applySettings_eq]
      unfold commitSettings
      rw [if_neg (by simp [hoff, hdec]), if_pos (by simpa [or_assoc] using hchg)]
    refine ⟨heq, ?_⟩
    rw [heq]
    exact ⟨rfl, rfl, rfl, List.getLast?_concat _, List.getLast?_concat _⟩
  · intro force hupd hstream
    have heq : applySettings K s c force
        = configureChannelizer { (applyChanges K s c force) with m_settings := c } := by
      rw [applySettings_eq]
      unfold commitSettings
      rw [if_pos (by
        rcases hupd with h | h | h
        · simp [h]
        · simp [h]
        · simp [h])]
    have h1 := applyChanges_resamplerFrame K s c force hstream
    have h2 := configureChannelizer_resamplerFrame
      { (applyChanges K s c force) with m_settings := c }
    rw [heq]
    exact ⟨h2.squelchGate.trans h1.squelchGate, h2.interpolator.trans h1.interpolator,
      h2.rrcFilter.trans h1.rrcFilter,
      h2.interpolatorDistance.trans h1.interpolatorDistance,
      h2.interpolatorDistanceRemain.trans h1.interpolatorDistanceRemain⟩
  · intro rate offset
    have h1 := applyChannelSettings_level s rate offset false
    have h2 := applyChannelSettings_correctionFrame s rate offset false
    have h3 := applyChannelSettings_inputSampleRate s rate offset false
    refine ⟨?_, ?_, rfl⟩
    · show ((applyChannelSettings s rate offset false).m_channelSampleRate / 100)
        * (applyChannelSettings s rate offset false).m_settings.m_squelchGate = _
      rw [h1.2.1, h2.settings]
    · show ((applyChannelSettings s rate offset false).m_inputSampleRate : ℚ)
        / ((applyChannelSettings s rate offset false).m_channelSampleRate : ℚ) = _
      rw [h1.2.1, h3]

theorem applySettings_rebuild_witness :
    constructedChannel.m_settings.m_squelchGate ≠ 3 ∧
    (applySettings bench constructedChannel
        { sampleSettings with m_squelchGate := 3 } false).m_squelchGate
      = ((applySettings bench constructedChannel
            { sampleSettings with m_squelchGate := 3 } false).m_channelSampleRate / 100) * 3 :=
  ⟨by decide!,
    ((applySettings_rebuild bench constructedChannel
        { sampleSettings with m_squelchGate := 3 }).1
      (by decide!) (by decide!) (Or.inr (Or.inr (by decide!)))).2.1⟩

/-- Counterexample to C16 as stated: on a constructed channel (gate of 480 samples) a
configuration that changes the gate to 30 ms together with the frequency offset is
stored, but on return the gate in samples is still 480, not 1440, and the resampler has
not been rebuilt; the same holds with `force`.  The rebuild takes place when the
notification of the channelizer is handled. -/
theorem applySettings_rebuild_counterexample :
    constructedChannel.m_squelchGate = 480 ∧
    (applySettings bench constructedChannel gateAndOffsetSettings false).m_settings.m_squelchGate
      = 3 ∧
    (applySettings bench constructedChannel gateAndOffsetSettings false).m_channelSampleRate
      = 48000 ∧
    (applySettings bench constructedChannel gateAndOffsetSettings false).m_squelchGate = 480 ∧
    (applySettings bench constructedChannel gateAndOffsetSettings false).m_interpolator
      = constructedChannel.m_interpolator ∧
    (applySettings bench constructedChannel gateAndOffsetSettings false).m_rrcFilter
      = constructedChannel.m_rrcFilter ∧
    (applySettings bench constructedChannel
      { sampleSettings with m_squelchGate := 3 } true).m_squelchGate = 480 ∧
    (handleMessage bench (applySettings bench constructedChannel gateAndOffsetSettings false)
      (Message.MsgChannelizerNotification 48000 1000)).1.m_squelchGate = 1440 := by
  decide!

/-! ## The resampler at ratio 1 (C20) -/

theorem FeedFrame.feedRefl (s : FreqTracker) : FeedFrame s s :=
  ⟨rfl, rfl, rfl, rfl, rfl⟩

theorem FeedFrame.feedTrans {a b c : FreqTracker} (h1 : FeedFrame a b) (h2 : FeedFrame b c) :
    FeedFrame a c :=
  ⟨h2.running.trans h1.running, h2.nco.trans h1.nco, h2.interpolator.trans h1.interpolator,
    h2.interpolatorDistance.trans h1.interpolatorDistance,
    h2.interpolatorDistanceRemain.trans h1.interpolatorDistanceRemain⟩

theorem updateSquelch_feedFrame (s : FreqTracker) : FeedFrame s (updateSquelch s) := by
  unfold updateSquelch
  split_ifs <;> exact ⟨rfl, rfl, rfl, rfl, rfl⟩

theorem feedTracker_feedFrame (s : FreqTracker) (re im : ℚ) :
    FeedFrame s (feedTracker s re im) := by
  unfold feedTracker
  split_ifs <;> exact ⟨rfl, rfl, rfl, rfl, rfl⟩

theorem processSideband_feedFrame (K : Externals) (s : FreqTracker) (sb : Complex) :
    FeedFrame s (processSideband K s sb) := by
  have h0 : FeedFrame s (updatePower K s sb).1 := ⟨rfl, rfl, rfl, rfl, rfl⟩
  exact (h0.feedTrans (updateSquelch_feedFrame _)).feedTrans (feedTracker_feedFrame _ _ _)

theorem foldl_processSideband_feedFrame (K : Externals) (sbs : List Complex) :
    ∀ s : FreqTracker, FeedFrame s (sbs.foldl (processSideband K) s) := by
  induction sbs with
  | nil => intro s; exact FeedFrame.feedRefl s
  | cons sb rest ih =>
    intro s
    exact (processSideband_feedFrame K s sb).feedTrans (ih _)

theorem processOneSample_feedFrame (K : Externals) (s : FreqTracker) (ci : Complex) :
    FeedFrame s (processOneSample K s ci) := by
  unfold processOneSample
  split_ifs
  · have h0 : FeedFrame s { s with m_rrcFilter := s.m_rrcFilter ++ [FilterCall.runFilt ci] } :=
      ⟨rfl, rfl, rfl, rfl, rfl⟩
    exact h0.feedTrans (foldl_processSideband_feedFrame K _ _)
  · exact processSideband_feedFrame K s ci

/-- With a ratio that is not below 1 the loop body of `feed` is its decimating branch. -/
theorem feedSample_decimate (K : Externals) (fuel : Nat) (sci : FreqTracker × Complex)
    (it : Sample) (hd : ¬ sci.1.m_interpolatorDistance < 1) :
    feedSample K fuel sci it = some (decimateSample K sci it) := by
  unfold feedSample decimateSample
  simp only
  rw [if_neg hd]
  split_ifs <;> rfl

/-- The decimating branch calls the oscillator once and `decimate` once, with the mixed
sample, and leaves ratio and run flag as they are. -/
theorem decimateSample_calls (K : Externals) (sci : FreqTracker × Complex) (it : Sample) :
    (decimateSample K sci it).1.m_interpolatorDistance = sci.1.m_interpolatorDistance ∧
    (decimateSample K sci it).1.m_nco = sci.1.m_nco ++ [NcoCall.nextIQ] ∧
    (decimateSample K sci it).1.m_interpolator = sci.1.m_interpolator ++
      [InterpolatorCall.decimate sci.1.m_interpolatorDistanceRemain
        (Complex.mul { re := (it.real : ℚ), im := (it.imag : ℚ) } (K.nextIQ sci.1.m_nco))] := by
  unfold decimateSample
  simp only
  split_ifs
  · refine ⟨?_, ?_, ?_⟩
    · exact (processOneSample_feedFrame K _ _).interpolatorDistance
    · exact (processOneSample_feedFrame K _ _).nco
    · exact (processOneSample_feedFrame K _ _).interpolator
  · exact ⟨rfl, rfl, rfl⟩

theorem feedLoop_ratio_one (K : Externals) (fuel : Nat) (block : List Sample) :
    ∀ sci : FreqTracker × Complex, sci.1.m_interpolatorDistance = 1 →
      ∃ (r : FreqTracker × Complex) (ds : List ℚ),
        feedLoop K fuel sci block = some r ∧ ds.length = block.length ∧
        r.1.m_interpolatorDistance = 1 ∧
        r.1.m_interpolator = sci.1.m_interpolator ++
          List.zipWith InterpolatorCall.decimate ds (mixed K sci.1.m_nco block) := by
  induction block with
  | nil =>
    intro sci hd
    exact ⟨sci, [], rfl, rfl, hd, by simp [mixed]⟩
  | cons it rest ih =>
    intro sci hd
    have hstep := feedSample_decimate K fuel sci it (by rw [hd]; exact lt_irrefl 1)
    obtain ⟨h1, h2, h3⟩ := decimateSample_calls K sci it
    obtain ⟨r, ds, hr, hlen, hdist, hint⟩ := ih (decimateSample K sci it) (h1.trans hd)
    refine ⟨r, sci.1.m_interpolatorDistanceRemain :: ds, ?_, ?_, hdist, ?_⟩
    · simp only [feedLoop, hstep]
      exact hr
    · simp [hlen]
    · rw [hint, h2, h3]
      simp [mixed]

/-- C20 (as amended). Ratio 1 takes the decimating branch of `feed`: for every block fed to
a running channel whose resampler ratio is exactly 1, the loop body is the decimating
branch, in which `processOneSample` receives the output of `Interpolator::decimate` when
`decimate` reports one; `feed` returns, the ratio is still 1, and the calls made on the
resampler are exactly one `decimate` per input sample, with the mixed input samples in
input order, and no `interpolate`. -/
theorem feed_ratio_one (K : Externals) (fuel : Nat) (s : FreqTracker) (block : List Sample)
    (hrun : s.m_running = true) (hd : s.m_interpolatorDistance = 1) :
    (∀ (ci : Complex) (it : Sample),
      feedSample K fuel (s, ci) it = some (decimateSample K (s, ci) it)) ∧
    ∃ (s1 : FreqTracker) (ds : List ℚ),
      feed K fuel s block = some s1 ∧ ds.length = block.length ∧
      s1.m_interpolatorDistance = 1 ∧
      s1.m_interpolator = s.m_interpolator ++
        List.zipWith InterpolatorCall.decimate ds (mixed K s.m_nco block) := by
  refine ⟨fun ci it => feedSample_decimate K fuel (s, ci) it (by
    show ¬ s.m_interpolatorDistance < 1
    rw [hd]; exact lt_irrefl 1), ?_⟩
  obtain ⟨r, ds, hr, hlen, hdist, hint⟩ :=
    feedLoop_ratio_one K fuel block (s, { re := 0, im := 0 }) hd
  refine ⟨r.1, ds, ?_, hlen, hdist, hint⟩
  unfold feed
  rw [if_neg (by simp [hrun]), hr]
  rfl

theorem feed_ratio_one_witness :
    startedChannel.m_running = true ∧ startedChannel.m_interpolatorDistance = 1 ∧
    ((∀ (ci : Complex) (it : Sample),
      feedSample bench 0 (startedChannel, ci) it
        = some (decimateSample bench (startedChannel, ci) it)) ∧
    ∃ (s1 : FreqTracker) (ds : List ℚ),
      feed bench 0 startedChannel (strongBlock 2) = some s1 ∧
      ds.length = (strongBlock 2).length ∧
      s1.m_interpolatorDistance = 1 ∧
      s1.m_interpolator = startedChannel.m_interpolator ++
        List.zipWith InterpolatorCall.decimate ds
          (mixed bench startedChannel.m_nco (strongBlock 2))) :=
  ⟨by decide!, by decide!,
    feed_ratio_one bench 0 startedChannel (strongBlock 2) (by decide!) (by decide!)⟩

/-- Counterexample to C20 as stated: a started channel has the ratio exactly 1; one
sample fed to it goes through `Interpolator::decimate`, which is recorded in the history
of the resampler. -/
theorem feed_bypass_counterexample :
    startedChannel.m_running = true ∧ startedChannel.m_interpolatorDistance = 1 ∧
    (feed bench 0 startedChannel (strongBlock 1)).map FreqTracker.m_interpolator
      = some (startedChannel.m_interpolator ++
          [InterpolatorCall.decimate 0 { re := 32768, im := 0 }]) := by
  decide!

/-! ## Squelch gate in samples (C23) -/

/-- C23 (as amended). Squelch gate conversion: after `setInterpolator` the squelch gate in
samples is `(R / 100) * g` with the integer division done first, where `R` is the
channel sample rate and `g` the gate setting in tens of milliseconds.  This is `R*g/100`
when `R` is a multiple of 100; in general it is at most `R*g/100` and falls short of it by
less than `g`, and it is `0` (no gate) for every rate below 100 S/s. -/
theorem squelchGate_conversion (s : FreqTracker) :
    (setInterpolator s).m_squelchGate
      = (s.m_channelSampleRate / 100) * s.m_settings.m_squelchGate ∧
    (100 ∣ s.m_channelSampleRate →
      (setInterpolator s).m_squelchGate
        = s.m_channelSampleRate * s.m_settings.m_squelchGate / 100) ∧
    (setInterpolator s).m_squelchGate
      ≤ s.m_channelSampleRate * s.m_settings.m_squelchGate / 100 ∧
    (0 < s.m_settings.m_squelchGate →
      s.m_channelSampleRate * s.m_settings.m_squelchGate / 100
        < (setInterpolator s).m_squelchGate + s.m_settings.m_squelchGate) ∧
    (s.m_channelSampleRate < 100 → (setInterpolator s).m_squelchGate = 0) := by
  have hgate : (setInterpolator s).m_squelchGate
      = (s.m_channelSampleRate / 100) * s.m_settings.m_squelchGate := rfl
  rw [hgate]
  generalize s.m_channelSampleRate = R
  generalize s.m_settings.m_squelchGate = g
  refine ⟨rfl, ?_, ?_, ?_, ?_⟩
  · rintro ⟨q, rfl⟩
    rw [Nat.mul_div_cancel_left q (by norm_num), Nat.mul_assoc,
      Nat.mul_div_cancel_left (q * g) (by norm_num)]
  · rw [Nat.le_div_iff_mul_le (by norm_num)]
    calc R / 100 * g * 100 = (R / 100 * 100) * g := by ring
      _ ≤ R * g := Nat.mul_le_mul_right g (Nat.div_mul_le_self R 100)
  · intro hg
    rw [Nat.div_lt_iff_lt_mul (by norm_num)]
    have h1 : R < (R / 100 + 1) * 100 := by omega
    calc R * g < (R / 100 + 1) * 100 * g := Nat.mul_lt_mul_of_pos_right h1 hg
      _ = (R / 100 * g + g) * 100 := by ring
  · intro hR
    rw [Nat.div_eq_of_lt hR, Nat.zero_mul]

theorem squelchGate_conversion_witness :
    0 < slowChannel.m_settings.m_squelchGate ∧
    slowChannel.m_channelSampleRate * slowChannel.m_settings.m_squelchGate / 100
      < (setInterpolator slowChannel).m_squelchGate + slowChannel.m_settings.m_squelchGate :=
  ⟨by decide!, (squelchGate_conversion slowChannel).2.2.2.1 (by decide!)⟩

/-- Counterexample to C23 as stated: at a channel rate of 750 S/s with a gate of 30 ms
`setInterpolator` leaves a gate of 21 samples, where `750*3/100` is 22. -/
theorem squelchGate_conversion_counterexample :
    slowChannel.m_channelSampleRate = 750 ∧ slowChannel.m_settings.m_squelchGate = 3 ∧
    slowChannel.m_squelchGate = 21 ∧
    (setInterpolator slowChannel).m_squelchGate = 21 ∧
    slowChannel.m_channelSampleRate * slowChannel.m_settings.m_squelchGate / 100 = 22 := by
  decide!

/-! ## The decay divider of `tick` (C24) -/

/-- C21. Failing input: a started channel whose input rate is half of the channel rate
(interpolating branch) is fed one sample while the resampler reports no output.  The
only call made on the resampler is an `interpolate` that returns `false`, and yet
`processOneSample` has run once, on the default constructed `ci`, which no resampler call
produced: the sample counter goes from 0 to 1 and the moving average receives the power
0 of that sample. -/
theorem feed_processes_unproduced_sample :
    interpolatingChannel.m_running = true ∧
    interpolatingChannel.m_interpolatorDistance = 1 / 2 ∧
    interpolatingChannel.m_magsqCount = 0 ∧
    interpolatingChannel.m_movingAverage = [] ∧
    (bench.interpolate interpolatingChannel.m_interpolator 0
      { re := 32768, im := 0 } { re := 0, im := 0 }).1 = false ∧
    (feed bench 1 interpolatingChannel (strongBlock 1)).map (fun s => s.m_interpolator)
      = some (interpolatingChannel.m_interpolator
          ++ [InterpolatorCall.interpolate 0 { re := 32768, im := 0 }]) ∧
    (feed bench 1 interpolatingChannel (strongBlock 1)).map
        (fun s => s.m_magsqCount) = some 1 ∧
    (feed bench 1 interpolatingChannel (strongBlock 1)).map
        (fun s => s.m_movingAverage) = some [0] := by
  decide!

end FreqTracker

/-! ## Scope of the settings mutex (C22) -/

namespace FreqTracker

theorem ResamplerKept.keptRefl (s : FreqTracker) : ResamplerKept s s :=
  ⟨rfl, rfl, rfl, rfl⟩

theorem ResamplerKept.keptTrans {a b c : FreqTracker} (h1 : ResamplerKept a b)
    (h2 : ResamplerKept b c) : ResamplerKept a c :=
  ⟨h2.interpolatorDistance.trans h1.interpolatorDistance, h2.squelchGate.trans h1.squelchGate,
    h2.interpolator.trans h1.interpolator, h2.rrcFilter.trans h1.rrcFilter⟩

theorem ResamplerFrame.kept {s s1 : FreqTracker} (h : ResamplerFrame s s1) :
    ResamplerKept s s1 :=
  ⟨h.interpolatorDistance, h.squelchGate, by rw [h.interpolator], by rw [h.rrcFilter]⟩

theorem processSideband_rrcFilter (K : Externals) (s : FreqTracker) (sb : Complex) :
    (processSideband K s sb).m_rrcFilter = s.m_rrcFilter := by
  have h1 : (updateSquelch (updatePower K s sb).1).m_rrcFilter = s.m_rrcFilter := by
    unfold updateSquelch
    split_ifs <;> rfl
  unfold processSideband
  dsimp only
  unfold feedTracker
  split_ifs <;> exact h1

theorem foldl_processSideband_rrcFilter (K : Externals) (sbs : List Complex) :
    ∀ s : FreqTracker, (sbs.foldl (processSideband K) s).m_rrcFilter = s.m_rrcFilter := by
  induction sbs with
  | nil => intro s; rfl
  | cons sb rest ih =>
    intro s
    rw [List.foldl_cons, ih, processSideband_rrcFilter]

theorem processOneSample_kept (K : Externals) (s : FreqTracker) (ci : Complex) :
    ResamplerKept s (processOneSample K s ci) := by
  refine ⟨(processOneSample_feedFrame K s ci).interpolatorDistance,
    (processOneSample_sampleFrame K s ci).gate,
    by rw [(processOneSample_feedFrame K s ci).interpolator], ?_⟩
  unfold processOneSample
  split_ifs
  · rw [foldl_processSideband_rrcFilter]
    simp [FilterCall.isCreate]
  · rw [processSideband_rrcFilter]

theorem interpolateLoop_kept (K : Externals) (c : Complex) :
    ∀ (fuel : Nat) (s : FreqTracker) (ci : Complex) (r : FreqTracker × Complex),
      interpolateLoop K fuel s c ci = some r → ResamplerKept s r.1 := by
  intro fuel
  induction fuel with
  | zero => intro s ci r h; simp [interpolateLoop] at h
  | succ n ih =>
    intro s ci r h
    simp only [interpolateLoop] at h
    have h0 : ResamplerKept s
        { s with
          m_interpolator := s.m_interpolator ++
            [InterpolatorCall.interpolate s.m_interpolatorDistanceRemain c]
          m_interpolatorDistanceRemain :=
            (K.interpolate s.m_interpolator s.m_interpolatorDistanceRemain c ci).2.1 } :=
      ⟨rfl, rfl, by simp [InterpolatorCall.isCreate], rfl⟩
    split_ifs at h with hb
    · exact (h0.keptTrans (processOneSample_kept K _ _)).keptTrans (ih _ _ _ h)
    · rw [← Option.some.inj h]
      exact h0

theorem feedSample_kept (K : Externals) (fuel : Nat) (sci r : FreqTracker × Complex)
    (it : Sample) (h : feedSample K fuel sci it = some r) : ResamplerKept sci.1 r.1 := by
  unfold feedSample at h
  simp only at h
  have h0 : ResamplerKept sci.1 { sci.1 with m_nco := sci.1.m_nco ++ [NcoCall.nextIQ] } :=
    ⟨rfl, rfl, rfl, rfl⟩
  split_ifs at h with hd hb
  · split at h
    · exact absurd h (by simp)
    · rename_i r1 hloop
      have h1 := interpolateLoop_kept K _ _ _ _ _ hloop
      rw [← Option.some.inj h]
      have h2 : ResamplerKept r1.1
          { r1.1 with m_interpolatorDistanceRemain :=
              r1.1.m_interpolatorDistanceRemain + r1.1.m_interpolatorDistance } :=
        ⟨rfl, rfl, rfl, rfl⟩
      exact ((h0.keptTrans (processOneSample_kept K _ _)).keptTrans h1).keptTrans h2
  · rw [← Option.some.inj h]
    refine (h0.keptTrans ?_).keptTrans
      ((processOneSample_kept K _ _).keptTrans ⟨rfl, rfl, rfl, rfl⟩)
    exact ⟨rfl, rfl, by simp [InterpolatorCall.isCreate], rfl⟩
  · rw [← Option.some.inj h]
    exact h0.keptTrans ⟨rfl, rfl, by simp [InterpolatorCall.isCreate], rfl⟩

theorem commitSettings_resamplerFrame (s : FreqTracker) (c : FreqTrackerSettings)
    (updateChannelizer : Bool) :
    ResamplerFrame s (commitSettings s c updateChannelizer false) := by
  have h0 : ResamplerFrame s { s with m_settings := c } :=
    ⟨rfl, rfl, rfl, rfl, rfl, rfl, rfl, rfl, rfl⟩
  cases updateChannelizer
  · exact h0
  · exact h0.resamplerTrans (configureChannelizer_resamplerFrame _)

/-- The configuration that `tick` applies leaves the resampler alone. -/
theorem applySettings_corrected_resamplerFrame (K : Externals) (s : FreqTracker) :
    ResamplerFrame s (applySettings K s (correctedSettings s) false) := by
  have h1 := applyChanges_resamplerFrame K s (correctedSettings s) false rfl
  have hfalse : (decide (s.m_settings.m_rfBandwidth ≠ (correctedSettings s).m_rfBandwidth
        ∨ false = true)
      || decide (s.m_settings.m_rrcRolloff ≠ (correctedSettings s).m_rrcRolloff ∨ false = true)
      || decide (s.m_settings.m_squelchGate ≠ (correctedSettings s).m_squelchGate
        ∨ false = true)) = false := by
    simp [correctedSettings]
  rw [applySettings_eq, hfalse]
  exact h1.resamplerTrans (commitSettings_resamplerFrame _ _ _)

theorem tick_kept (K : Externals) (s s1 : FreqTracker) (h : tick K s = some s1) :
    ResamplerKept s s1 := by
  unfold tick tickStep at h
  cases hr : tickEvaluate K (tickAverage K s) with
  | none => rw [hr] at h; simp at h
  | some r =>
    rw [hr] at h
    simp only [Option.map_some'] at h
    rw [← Option.some.inj h]
    have ha : ResamplerKept s (tickAverage K s) := by
      unfold tickAverage
      split_ifs <;> exact ⟨rfl, rfl, rfl, rfl⟩
    refine ha.keptTrans ?_
    generalize tickAverage K s = u at hr
    rcases tickEvaluate_cases K _ _ hr with
      ⟨_, hr⟩ | ⟨_, _, hr⟩ | ⟨_, _, _, amount, _, _, hr⟩ | ⟨_, _, _, amount, _, _, _, hr⟩ |
      ⟨_, _, _, amount, _, _, _, hr⟩
    · rw [hr]; exact ⟨rfl, rfl, rfl, rfl⟩
    · rw [hr]; exact ⟨rfl, rfl, rfl, rfl⟩
    · rw [hr]; exact ⟨rfl, rfl, rfl, rfl⟩
    · rw [hr]; exact ⟨rfl, rfl, rfl, rfl⟩
    · rw [hr]
      have h1 : ResamplerKept u { u with m_lastCorrAbs := avgDeltaFreqAbs u } :=
        ⟨rfl, rfl, rfl, rfl⟩
      have h2 : ResamplerKept { u with m_lastCorrAbs := avgDeltaFreqAbs u }
          (applySettings K { u with m_lastCorrAbs := avgDeltaFreqAbs u }
            (correctedSettings { u with m_lastCorrAbs := avgDeltaFreqAbs u }) false) :=
        (applySettings_corrected_resamplerFrame K _).kept
      have h3 : ResamplerKept
          (applySettings K { u with m_lastCorrAbs := avgDeltaFreqAbs u }
            (correctedSettings { u with m_lastCorrAbs := avgDeltaFreqAbs u }) false)
          { (applySettings K { u with m_lastCorrAbs := avgDeltaFreqAbs u }
              (correctedSettings { u with m_lastCorrAbs := avgDeltaFreqAbs u }) false)
            with m_tickCount := 0 } :=
        ⟨rfl, rfl, rfl, rfl⟩
      exact (h1.keptTrans h2).keptTrans h3

/-! ### The programs of the control context keep the resampler outside the mutex -/

theorem guarded_run (f : FreqTracker → FreqTracker) (rest : List Statement)
    (hf : ∀ s, ResamplerKept s (f s)) (hrest : Guarded 0 rest) :
    Guarded 0 (Statement.run (onChannel f) :: rest) := by
  refine ⟨fun _ x y h => ?_, hrest⟩
  unfold onChannel at h
  rw [← Option.some.inj h]
  exact hf x.1

theorem guarded_setInterpolator (rest : List Statement) (hrest : Guarded 0 rest) :
    Guarded 0 (setInterpolatorProgram ++ rest) :=
  ⟨fun h => absurd h (by decide), by decide, hrest⟩

theorem guarded_applyChannelSettings (s : FreqTracker) (rate offset : Int) (force : Bool)
    (rest : List Statement) (hrest : Guarded 0 rest) :
    Guarded 0 (applyChannelSettingsProgram s rate offset force ++ rest) := by
  have h3 : Guarded 0 ([Statement.run (onChannel (fun x =>
      { x with m_inputSampleRate := rate, m_inputFrequencyOffset := offset }))] ++ rest) :=
    guarded_run _ _ (fun _ => ⟨rfl, rfl, rfl, rfl⟩) hrest
  have h2 : Guarded 0 ((if s.m_inputSampleRate ≠ rate ∨ force = true then setInterpolatorProgram
      else []) ++ ([Statement.run (onChannel (fun x =>
      { x with m_inputSampleRate := rate, m_inputFrequencyOffset := offset }))] ++ rest)) := by
    by_cases hB : s.m_inputSampleRate ≠ rate ∨ force = true
    · rw [if_pos hB]
      exact guarded_setInterpolator _ h3
    · rw [if_neg hB]
      exact h3
  unfold applyChannelSettingsProgram
  rw [List.append_assoc, List.append_assoc]
  by_cases hA : s.m_inputFrequencyOffset ≠ offset ∨ s.m_inputSampleRate ≠ rate ∨ force = true
  · rw [if_pos hA]
    exact guarded_run _ _ (fun _ => ⟨rfl, rfl, rfl, rfl⟩) h2
  · rw [if_neg hA]
    exact h2

theorem guarded_applySettings (K : Externals) (s : FreqTracker) (c : FreqTrackerSettings)
    (force : Bool) : Guarded 0 (applySettingsProgram K s c force) := by
  unfold applySettingsProgram
  dsimp only
  rw [List.append_assoc, List.append_assoc]
  refine guarded_run _ _ (fun x => (applySquelch_resamplerFrame K x c force).kept) ?_
  refine guarded_run _ _ (fun x => (applyTracking_resamplerFrame x c force).kept) ?_
  refine guarded_run _ _ (fun x => (applyTrackerType_resamplerFrame x c force).kept) ?_
  refine guarded_run _ _ (fun x => (applyPskOrder_resamplerFrame x c force).kept) ?_
  have hlast : Guarded 0 ([Statement.run (onChannel (fun x => { x with m_settings := c }))]
      ++ (if (decide (s.m_settings.m_inputFrequencyOffset ≠ c.m_inputFrequencyOffset
              ∨ force = true)
            || decide (s.m_settings.m_log2Decim ≠ c.m_log2Decim ∨ force = true)) = true
          then [Statement.run (onChannel configureChannelizer)]
          else if (decide (s.m_settings.m_rfBandwidth ≠ c.m_rfBandwidth ∨ force = true)
            || decide (s.m_settings.m_rrcRolloff ≠ c.m_rrcRolloff ∨ force = true)
            || decide (s.m_settings.m_squelchGate ≠ c.m_squelchGate ∨ force = true)) = true
          then setInterpolatorProgram else [])) := by
    refine guarded_run _ _ (fun _ => ⟨rfl, rfl, rfl, rfl⟩) ?_
    split_ifs
    · exact guarded_run _ _ (fun x => (configureChannelizer_resamplerFrame x).kept) trivial
    · exact guarded_setInterpolator [] trivial
    · trivial
  show Guarded 0 ((if s.m_settings.m_streamIndex ≠ c.m_streamIndex then _ else _) ++ _)
  by_cases hS : s.m_settings.m_streamIndex ≠ c.m_streamIndex
  · rw [if_pos hS]
    cases K.getSampleMIMO with
    | some g => exact guarded_applyChannelSettings _ _ _ _ _ hlast
    | none => exact hlast
  · rw [if_neg hS]
    exact hlast

theorem guarded_tick (K : Externals) : Guarded 0 (tickProgram K) := by
  refine ⟨fun _ x y h => ?_, trivial⟩
  have h1 : (tick K x.1).map (fun s => (s, x.2)) = some y := h
  cases ht : tick K x.1 with
  | none => rw [ht] at h1; simp at h1
  | some s1 =>
    rw [ht] at h1
    simp only [Option.map_some'] at h1
    rw [← Option.some.inj h1]
    exact tick_kept K _ _ ht

end FreqTracker

namespace Machine

/-! ### The mutex machine -/

theorem feedProgram_ne_nil (K : Externals) (fuel : Nat) (block : List Sample) :
    FreqTracker.feedProgram K fuel block ≠ [] := by
  unfold FreqTracker.feedProgram
  exact List.cons_ne_nil _ _

/-- One statement of either context keeps the invariant, and keeps the resampler when
the worker owns the mutex. -/
theorem step_invariant (K : Externals) (fuel : Nat) (block : List Sample) (m m1 : Machine)
    (t : Context) (hinv : Invariant K fuel block m) (hstep : step m t = some m1) :
    Invariant K fuel block m1 ∧
    (m.owner = some Context.worker → FreqTracker.ResamplerKept m.channel m1.channel) ∧
    (m.worker = [] → m1.worker = []) ∧
    (m.owner = some Context.worker → m1.owner = some Context.worker ∨ m1.worker = []) := by
  obtain ⟨hphase, hfree, hctl, hout⟩ := hinv
  cases t with
  | worker =>
    unfold step program at hstep
    dsimp only at hstep
    rcases hphase with ⟨hw, hown⟩ | ⟨⟨rest, hw⟩, hown, hdepth⟩ | ⟨hw, hown⟩
    · -- the worker locks the mutex
      rw [hw] at hstep
      unfold FreqTracker.feedProgram at hstep
      dsimp only at hstep
      by_cases hfreeNow : m.owner = none ∨ m.owner = some Context.worker
      · rw [if_pos hfreeNow] at hstep
        have hnone : m.owner = none := by
          rcases hfreeNow with h | h
          · exact h
          · exact absurd h hown
        rw [← Option.some.inj hstep]
        refine ⟨⟨Or.inr (Or.inl ⟨⟨block, rfl⟩, rfl, ?_⟩), ?_, ?_, ?_⟩, ?_, ?_, ?_⟩
        · show m.depth + 1 = 1
          rw [hfree hnone]
        · intro h; exact absurd h (by simp [advance])
        · intro h; exact absurd h (by simp [advance])
        · intro _
          exact hout (by rw [hnone]; simp)
        · intro h; exact absurd h hown
        · intro h; rw [hw] at h; exact absurd h (feedProgram_ne_nil K fuel block)
        · intro h; exact absurd h hown
      · rw [if_neg hfreeNow] at hstep
        exact absurd hstep (by simp)
    · rw [hw] at hstep
      cases rest with
      | nil =>
        -- the worker unlocks the mutex
        simp only [List.map_nil, List.nil_append] at hstep
        rw [if_pos hown] at hstep
        rw [← Option.some.inj hstep]
        refine ⟨⟨Or.inr (Or.inr ⟨rfl, ?_⟩), ?_, ?_, ?_⟩, ?_, ?_, fun _ => Or.inr rfl⟩
        · show (if m.depth ≤ 1 then none else some Context.worker) ≠ some Context.worker
          rw [if_pos (by omega)]
          simp
        · intro _
          show m.depth - 1 = 0
          omega
        · intro h
          have h1 : (if m.depth ≤ 1 then none else some Context.worker)
              = some Context.control := h
          rw [if_pos (by omega)] at h1
          exact absurd h1 (by simp)
        · intro _
          exact hout (by rw [hown]; simp)
        · intro _; exact FreqTracker.ResamplerKept.keptRefl _
        · intro h; rw [hw] at h; exact absurd h (by simp)
      | cons it rest1 =>
        -- the worker runs the loop body on one sample
        simp only [List.map_cons, List.cons_append] at hstep
        cases hf : FreqTracker.feedSample K fuel (m.channel, m.ci) it with
        | none => rw [hf] at hstep; exact absurd hstep (by simp)
        | some r =>
          rw [hf] at hstep
          rw [← Option.some.inj hstep]
          refine ⟨⟨Or.inr (Or.inl ⟨⟨rest1, rfl⟩, hown, hdepth⟩), ?_, ?_, ?_⟩, ?_, ?_,
            fun h => Or.inl h⟩
          · intro h
            have h1 : m.owner = none := h
            rw [hown] at h1
            exact absurd h1 (by simp)
          · intro h
            have h1 : m.owner = some Context.control := h
            rw [hown] at h1
            exact absurd h1 (by simp)
          · intro _
            exact hout (by rw [hown]; simp)
          · intro _
            exact FreqTracker.feedSample_kept K fuel (m.channel, m.ci) r it hf
          · intro h; rw [hw] at h; exact absurd h (by simp)
    · rw [hw] at hstep
      exact absurd hstep (by simp)
  | control =>
    unfold step program at hstep
    dsimp only at hstep
    have hphase1 : ∀ (o : Option Context) (d : Nat) (ch : FreqTracker) (c : Complex)
        (rest : List Statement),
        (m.owner = some Context.worker → o = some Context.worker ∧ d = m.depth) →
        (m.owner ≠ some Context.worker → o ≠ some Context.worker) →
        ((({ m with channel := ch, ci := c, owner := o, depth := d } : Machine).advance
            Context.control rest).worker = FreqTracker.feedProgram K fuel block ∧
          (({ m with channel := ch, ci := c, owner := o, depth := d } : Machine).advance
            Context.control rest).owner ≠ some Context.worker) ∨
        (MidBlock K fuel (({ m with channel := ch, ci := c, owner := o, depth := d } : Machine).advance
            Context.control rest) ∧
          (({ m with channel := ch, ci := c, owner := o, depth := d } : Machine).advance
            Context.control rest).owner = some Context.worker ∧
          (({ m with channel := ch, ci := c, owner := o, depth := d } : Machine).advance
            Context.control rest).depth = 1) ∨
        ((({ m with channel := ch, ci := c, owner := o, depth := d } : Machine).advance
            Context.control rest).worker = [] ∧
          (({ m with channel := ch, ci := c, owner := o, depth := d } : Machine).advance
            Context.control rest).owner ≠ some Context.worker) := by
      intro o d ch c rest h1 h2
      rcases hphase with ⟨hw, hown⟩ | ⟨hmid, hown, hdepth⟩ | ⟨hw, hown⟩
      · exact Or.inl ⟨hw, h2 hown⟩
      · exact Or.inr (Or.inl ⟨hmid, (h1 hown).1, by
          show d = 1
          rw [(h1 hown).2]; exact hdepth⟩)
      · exact Or.inr (Or.inr ⟨hw, h2 hown⟩)
    cases hp : m.control with
    | nil => rw [hp] at hstep; exact absurd hstep (by simp)
    | cons st rest =>
      rw [hp] at hstep
      cases st with
      | lock =>
        dsimp only at hstep
        by_cases hfreeNow : m.owner = none ∨ m.owner = some Context.control
        · rw [if_pos hfreeNow] at hstep
          rw [← Option.some.inj hstep]
          have hnw : m.owner ≠ some Context.worker := by
            rcases hfreeNow with h | h <;> rw [h] <;> simp
          refine ⟨⟨hphase1 _ _ m.channel m.ci rest (fun h => absurd h hnw) (fun _ => by simp),
            ?_, ?_, ?_⟩, ?_, ?_, ?_⟩
          · intro h; exact absurd h (by simp [advance])
          · intro _
            show FreqTracker.Guarded (m.depth + 1) rest
            rcases hfreeNow with h | h
            · have hg := hout (by rw [h]; simp)
              rw [hp] at hg
              rw [hfree h]
              exact hg
            · have hg := hctl h
              rw [hp] at hg
              exact hg
          · intro h; exact absurd rfl h
          · intro h; exact absurd h hnw
          · intro h; exact h
          · intro h; exact absurd h hnw
        · rw [if_neg hfreeNow] at hstep
          exact absurd hstep (by simp)
      | unlock =>
        dsimp only at hstep
        by_cases hown : m.owner = some Context.control
        · rw [if_pos hown] at hstep
          rw [← Option.some.inj hstep]
          have hnw : m.owner ≠ some Context.worker := by rw [hown]; simp
          have hg := hctl hown
          rw [hp] at hg
          refine ⟨⟨hphase1 _ _ m.channel m.ci rest (fun h => absurd h hnw)
            (fun _ => by split_ifs <;> simp), ?_, ?_, ?_⟩, ?_, ?_, fun h => absurd h hnw⟩
          · intro h
            have h1 : (if m.depth ≤ 1 then none else some Context.control) = none := h
            show m.depth - 1 = 0
            by_cases hd : m.depth ≤ 1
            · omega
            · rw [if_neg hd] at h1
              exact absurd h1 (by simp)
          · intro h
            have h1 : (if m.depth ≤ 1 then none else some Context.control)
                = some Context.control := h
            show FreqTracker.Guarded (m.depth - 1) rest
            exact hg.2
          · intro h
            have h1 : (if m.depth ≤ 1 then none else some Context.control)
                ≠ some Context.control := h
            show FreqTracker.Guarded 0 rest
            by_cases hd : m.depth ≤ 1
            · have h0 : m.depth - 1 = 0 := by omega
              rw [← h0]
              exact hg.2
            · rw [if_neg hd] at h1
              exact absurd rfl h1
          · intro h; exact absurd h hnw
          · intro h; exact h
        · rw [if_neg hown] at hstep
          exact absurd hstep (by simp)
      | run f =>
        dsimp only at hstep
        cases hf : f (m.channel, m.ci) with
        | none => rw [hf] at hstep; exact absurd hstep (by simp)
        | some r =>
          rw [hf] at hstep
          rw [← Option.some.inj hstep]
          refine ⟨⟨hphase1 _ _ r.1 r.2 rest (fun h => ⟨h, rfl⟩) (fun h => h), ?_, ?_, ?_⟩, ?_, ?_,
            fun h => Or.inl h⟩
          · intro h; exact hfree h
          · intro h
            have hg := hctl h
            rw [hp] at hg
            exact hg.2
          · intro h
            have hg := hout h
            rw [hp] at hg
            exact hg.2
          · intro h
            have hg := hout (by rw [h]; simp)
            rw [hp] at hg
            exact hg.1 rfl _ _ hf
          · intro h; exact h

theorem schedule_invariant (K : Externals) (fuel : Nat) (block : List Sample)
    (order : List Context) :
    ∀ m m1 : Machine, Invariant K fuel block m → schedule m order = some m1 →
      Invariant K fuel block m1 := by
  induction order with
  | nil =>
    intro m m1 hinv h
    simp only [schedule] at h
    rw [← Option.some.inj h]
    exact hinv
  | cons t rest ih =>
    intro m m1 hinv h
    simp only [schedule] at h
    cases hs : step m t with
    | none => rw [hs] at h; exact absurd h (by simp)
    | some m2 =>
      rw [hs] at h
      exact ih m2 m1 (step_invariant K fuel block m m2 t hinv hs).1 h

theorem trace_worker_nil (order : List Context) (K : Externals) (fuel : Nat)
    (block : List Sample) :
    ∀ (m : Machine) (ms : List Machine), Invariant K fuel block m → m.worker = [] →
      trace m order = some ms → ∀ x ∈ ms, x.worker = [] := by
  induction order with
  | nil =>
    intro m ms _ _ h x hx
    simp only [trace] at h
    rw [← Option.some.inj h] at hx
    exact absurd hx (by simp)
  | cons t rest ih =>
    intro m ms hinv hnil h x hx
    simp only [trace] at h
    cases hs : step m t with
    | none => rw [hs] at h; exact absurd h (by simp)
    | some m2 =>
      rw [hs] at h
      obtain ⟨hinv2, _, hw, _⟩ := step_invariant K fuel block m m2 t hinv hs
      dsimp only at h
      cases ht : trace m2 rest with
      | none => rw [ht] at h; exact absurd h (by simp)
      | some ms2 =>
        rw [ht] at h
        simp only [Option.map_some'] at h
        rw [← Option.some.inj h] at hx
        rcases List.mem_cons.mp hx with hx | hx
        · rw [hx]; exact hw hnil
        · exact ih m2 ms2 hinv2 (hw hnil) ht x hx

theorem trace_kept (order : List Context) (K : Externals) (fuel : Nat) (block : List Sample) :
    ∀ (m : Machine) (ms : List Machine), Invariant K fuel block m →
      m.owner = some Context.worker → trace m order = some ms →
      ∀ x ∈ ms, x.worker ≠ [] →
        x.owner = some Context.worker ∧ FreqTracker.ResamplerKept m.channel x.channel := by
  induction order with
  | nil =>
    intro m ms _ _ h x hx
    simp only [trace] at h
    rw [← Option.some.inj h] at hx
    exact absurd hx (by simp)
  | cons t rest ih =>
    intro m ms hinv hown h x hx hxw
    simp only [trace] at h
    cases hs : step m t with
    | none => rw [hs] at h; exact absurd h (by simp)
    | some m2 =>
      rw [hs] at h
      dsimp only at h
      obtain ⟨hinv2, hk, _, hnext⟩ := step_invariant K fuel block m m2 t hinv hs
      cases ht : trace m2 rest with
      | none => rw [ht] at h; exact absurd h (by simp)
      | some ms2 =>
        rw [ht] at h
        simp only [Option.map_some'] at h
        rw [← Option.some.inj h] at hx
        rcases List.mem_cons.mp hx with hx | hx
        · rw [hx] at hxw ⊢
          rcases hnext hown with ho | hnil
          · exact ⟨ho, hk hown⟩
          · exact absurd hnil hxw
        · rcases hnext hown with ho | hnil
          · obtain ⟨hxo, hxk⟩ := ih m2 ms2 hinv2 ho ht x hx hxw
            exact ⟨hxo, (hk hown).keptTrans hxk⟩
          · exact absurd (trace_worker_nil rest K fuel block m2 ms2 hinv2 hnil ht x hx) hxw

end Machine

namespace FreqTracker

/-! ### The programs, run alone, are the methods -/

theorem alone_append (p q : List Statement) :
    ∀ x : FreqTracker × Complex, alone (p ++ q) x = (alone p x).bind (alone q) := by
  induction p with
  | nil => intro x; rfl
  | cons st rest ih =>
    intro x
    cases st with
    | lock => exact ih x
    | unlock => exact ih x
    | run f =>
      simp only [List.cons_append, alone]
      cases f x with
      | none => rfl
      | some y => exact ih y

theorem alone_feedProgram (K : Externals) (fuel : Nat) (block : List Sample)
    (x : FreqTracker × Complex) :
    alone (feedProgram K fuel block) x = feedLoop K fuel x block := by
  unfold feedProgram
  simp only [alone]
  induction block generalizing x with
  | nil => rfl
  | cons it rest ih =>
    simp only [List.map_cons, List.cons_append, alone, feedLoop]
    cases feedSample K fuel x it with
    | none => rfl
    | some y => exact ih y

theorem alone_run (f : FreqTracker → FreqTracker) (rest : List Statement) (x : FreqTracker)
    (ci : Complex) :
    alone (Statement.run (onChannel f) :: rest) (x, ci) = alone rest (f x, ci) :=
  rfl

theorem alone_setInterpolator (s : FreqTracker) (ci : Complex) :
    alone setInterpolatorProgram (s, ci) = some (setInterpolator s, ci) :=
  rfl

theorem alone_applyChannelSettings (s x : FreqTracker) (ci : Complex) (rate offset : Int)
    (force : Bool) (hrate : x.m_inputSampleRate = s.m_inputSampleRate)
    (hoffset : x.m_inputFrequencyOffset = s.m_inputFrequencyOffset) :
    alone (applyChannelSettingsProgram s rate offset force) (x, ci)
      = some (applyChannelSettings x rate offset force, ci) := by
  unfold applyChannelSettingsProgram
  rw [← hrate, ← hoffset]
  unfold applyChannelSettings
  by_cases hA : x.m_inputFrequencyOffset ≠ offset ∨ x.m_inputSampleRate ≠ rate ∨ force = true <;>
    by_cases hB : x.m_inputSampleRate ≠ rate ∨ force = true
  · rw [if_pos hA, if_pos hB, if_pos hA]
    dsimp only
    rw [if_pos hB]
    rfl
  · rw [if_pos hA, if_neg hB, if_pos hA]
    dsimp only
    rw [if_neg hB]
    rfl
  · rw [if_neg hA, if_pos hB, if_neg hA]
    dsimp only
    rw [if_pos hB]
    rfl
  · rw [if_neg hA, if_neg hB, if_neg hA]
    dsimp only
    rw [if_neg hB]
    rfl

theorem alone_applySettings (K : Externals) (s : FreqTracker) (c : FreqTrackerSettings)
    (force : Bool) (ci : Complex) :
    alone (applySettingsProgram K s c force) (s, ci) = some (applySettings K s c force, ci) := by
  have hframe : ResamplerFrame s (applyPskOrder (applyTrackerType (applyTracking
      (applySquelch K s c force) c force) c force) c force) :=
    (((applySquelch_resamplerFrame K s c force).resamplerTrans
      (applyTracking_resamplerFrame _ _ _)).resamplerTrans
      (applyTrackerType_resamplerFrame _ _ _)).resamplerTrans (applyPskOrder_resamplerFrame _ _ _)
  have hs : (applyPskOrder (applyTrackerType (applyTracking (applySquelch K s c force) c force)
      c force) c force).m_settings = s.m_settings := by
    rw [(applyPskOrder_correctionFrame _ _ _).settings, (applyTrackerType_memory _ _ _).1,
      (applyTracking_memory _ _ _).1, (applySquelch_correctionFrame K s c force).settings]
  generalize hx : applyPskOrder (applyTrackerType (applyTracking (applySquelch K s c force)
      c force) c force) c force = x at hframe hs
  have hstream : alone (if s.m_settings.m_streamIndex ≠ c.m_streamIndex then
        match K.getSampleMIMO with
        | some getSourceSampleRate =>
          applyChannelSettingsProgram s (getSourceSampleRate c.m_streamIndex)
            s.m_inputFrequencyOffset false
        | none => []
      else []) (x, ci) = some (applyStreamIndex K x c, ci) := by
    unfold applyStreamIndex
    rw [hs]
    by_cases hS : s.m_settings.m_streamIndex ≠ c.m_streamIndex
    · rw [if_pos hS, if_pos hS]
      cases K.getSampleMIMO with
      | none => rfl
      | some g =>
        dsimp only
        rw [alone_applyChannelSettings s x ci _ _ false hframe.inputSampleRate
          hframe.inputFrequencyOffset, hframe.inputFrequencyOffset]
    · rw [if_neg hS, if_neg hS]
      rfl
  rw [applySettings_eq]
  unfold applySettingsProgram applyChanges commitSettings
  dsimp only
  simp only [List.append_assoc, List.cons_append, List.nil_append]
  rw [alone_run, alone_run, alone_run, alone_run, hx, alone_append, hstream, Option.some_bind,
    alone_run]
  split_ifs <;> rfl

end FreqTracker

namespace Machine

theorem start_invariant (K : Externals) (fuel : Nat) (s : FreqTracker) (block : List Sample)
    (control : List Statement) (hcontrol : FreqTracker.Guarded 0 control) :
    Invariant K fuel block (start K fuel s block control) :=
  ⟨Or.inl ⟨rfl, by simp [start]⟩, fun _ => rfl, fun h => absurd h (by simp [start]),
    fun _ => hcontrol⟩

/-- C22 (as amended). Scope of the settings mutex: `feed` holds `m_settingsMutex` for the
whole input block, and the body of `setInterpolator` runs under the same mutex.  In every
interleaving of a `feed` call with a control context whose statements outside the mutex
keep the resampler, from the moment the worker has locked until it unlocks, the worker
owns the mutex and the resampler ratio, the squelch gate in samples and the creations of
the resampler and of the RRC filter are unchanged.  The programs of `applySettings`,
`applyChannelSettings`, `setInterpolator` and `tick` are such control programs: all that
they do to the resampler is done in `setInterpolator`, under the mutex.  (What they write
outside the mutex, the configuration `m_settings` among it, is not covered.) -/
theorem settings_mutex_scope (K : Externals) (fuel : Nat) (s : FreqTracker)
    (block : List Sample) (control : List Statement)
    (hcontrol : FreqTracker.Guarded 0 control) (before : List Context) (m : Machine)
    (hreach : schedule (start K fuel s block control) before = some m)
    (hlocked : m.worker.length ≤ block.length + 1) (hbusy : 0 < m.worker.length) :
    m.owner = some Context.worker ∧
    (∀ (after : List Context) (ms : List Machine), trace m after = some ms →
      ∀ x ∈ ms, x.worker ≠ [] →
        x.owner = some Context.worker ∧ FreqTracker.ResamplerKept m.channel x.channel) ∧
    (∀ (s0 : FreqTracker) (c : FreqTrackerSettings) (force : Bool),
      FreqTracker.Guarded 0 (FreqTracker.applySettingsProgram K s0 c force)) ∧
    (∀ (s0 : FreqTracker) (rate offset : Int) (force : Bool),
      FreqTracker.Guarded 0 (FreqTracker.applyChannelSettingsProgram s0 rate offset force)) ∧
    FreqTracker.Guarded 0 FreqTracker.setInterpolatorProgram ∧
    FreqTracker.Guarded 0 (FreqTracker.tickProgram K) := by
  have hinv := schedule_invariant K fuel block before _ m
    (start_invariant K fuel s block control hcontrol) hreach
  have hown : m.owner = some Context.worker := by
    rcases hinv.1 with ⟨hw, _⟩ | ⟨_, ho, _⟩ | ⟨hw, _⟩
    · rw [hw] at hlocked
      simp [FreqTracker.feedProgram] at hlocked
    · exact ho
    · rw [hw] at hbusy
      exact absurd hbusy (by simp)
  refine ⟨hown, fun after ms ht => trace_kept after K fuel block m ms hinv hown ht,
    FreqTracker.guarded_applySettings K, fun s0 rate offset force => ?_,
    FreqTracker.guarded_setInterpolator [] trivial, FreqTracker.guarded_tick K⟩
  have h := FreqTracker.guarded_applyChannelSettings s0 rate offset force [] trivial
  rw [List.append_nil] at h
  exact h

theorem settings_mutex_scope_witness :
    (schedule raceMachine [Context.worker]).isSome = true ∧
    lockedRaceMachine.owner = some Context.worker ∧
    (∀ (after : List Context) (ms : List Machine), trace lockedRaceMachine after = some ms →
      ∀ x ∈ ms, x.worker ≠ [] →
        x.owner = some Context.worker ∧
        FreqTracker.ResamplerKept lockedRaceMachine.channel x.channel) :=
  ⟨rfl,
    (settings_mutex_scope bench 1 ungatedChannel (strongBlock 2)
      (FreqTracker.applySettingsProgram bench ungatedChannel raisedSquelchSettings false)
      (FreqTracker.guarded_applySettings bench ungatedChannel raisedSquelchSettings false)
      [Context.worker] lockedRaceMachine rfl (by decide) (by decide)).1,
    (settings_mutex_scope bench 1 ungatedChannel (strongBlock 2)
      (FreqTracker.applySettingsProgram bench ungatedChannel raisedSquelchSettings false)
      (FreqTracker.guarded_applySettings bench ungatedChannel raisedSquelchSettings false)
      [Context.worker] lockedRaceMachine rfl (by decide) (by decide)).2.1⟩

/-- Counterexample to C22 as stated: `applySettings` stores a configuration without
touching the mutex.  While the worker holds the mutex in the middle of a block of two
strong samples, the control context raises the squelch threshold from -40 dB to 10 dB;
the first sample is processed with the squelch level of the old configuration (squelch
open, tracker fed), the second with the level of the new one (squelch closed, tracker not
fed).  The tracker is fed once, where either order of the two calls without interleaving
feeds it twice or not at all. -/
theorem settings_mutex_counterexample :
    ungatedChannel.m_settings.m_squelch = -40 ∧
    ungatedChannel.m_fll.countP FllCall.isFeed = 0 ∧
    (schedule raceMachine (raceSchedule.take 7)).map
        (fun m => (m.owner, m.worker.length, m.control.length,
          m.channel.m_settings.m_squelch, m.channel.m_squelchLevel, m.channel.m_magsqCount))
      = some (some Context.worker, 2, 0, 10, 10, 1) ∧
    (schedule raceMachine raceSchedule).map
        (fun m => (m.owner, m.worker.length, m.channel.m_magsqCount,
          m.channel.m_fll.countP FllCall.isFeed))
      = some (none, 0, 2, 1) ∧
    (FreqTracker.run bench 1 ungatedChannel
        [Call.feed (strongBlock 2), Call.applySettings raisedSquelchSettings false]).map
        (fun s => s.m_fll.countP FllCall.isFeed) = some 2 ∧
    (FreqTracker.run bench 1 ungatedChannel
        [Call.applySettings raisedSquelchSettings false, Call.feed (strongBlock 2)]).map
        (fun s => s.m_fll.countP FllCall.isFeed) = some 0 := by
  decide!

end Machine

namespace DeviceEnumerator

/-! ## Selection of a device by a device set (C25) -/

theorem changeEntry_reselected (tabIndex deviceIndex : Int) (ht : 0 ≤ tabIndex)
    (it : DeviceEnumeration) :
    Reselected tabIndex deviceIndex it (changeEntry tabIndex deviceIndex it) := by
  unfold Reselected changeEntry
  by_cases h1 : it.m_samplingDevice.claimed = tabIndex <;>
    by_cases h2 : it.m_index = deviceIndex <;>
    simp [h1, h2]
  omega

theorem map_changeEntry_entries (tabIndex deviceIndex : Int) (ht : 0 ≤ tabIndex)
    (l : List DeviceEnumeration) :
    List.Forall₂ (Reselected tabIndex deviceIndex) l (l.map (changeEntry tabIndex deviceIndex)) := by
  induction l with
  | nil => exact List.Forall₂.nil
  | cons it rest ih => exact List.Forall₂.cons (changeEntry_reselected _ _ ht it) ih

theorem claimedBy_changeEntry (tabIndex deviceIndex : Int) (ht : 0 ≤ tabIndex)
    (l : List DeviceEnumeration) :
    claimedBy tabIndex (l.map (changeEntry tabIndex deviceIndex))
      = (l.map DeviceEnumeration.m_index).count deviceIndex := by
  induction l with
  | nil => rfl
  | cons it rest ih =>
    unfold claimedBy at ih ⊢
    rw [List.map_cons, List.map_cons, List.countP_cons, List.count_cons, ih]
    have h := (changeEntry_reselected tabIndex deviceIndex ht it).2.2.1
    by_cases h2 : it.m_index = deviceIndex
    · simp [h.mpr h2, h2]
    · have h3 : ¬ (changeEntry tabIndex deviceIndex it).m_samplingDevice.claimed = tabIndex :=
        fun hc => h2 (h.mp hc)
      simp [h3, h2]

theorem map_changeEntry_selectionChanged (tabIndex deviceIndex : Int) (ht : 0 ≤ tabIndex)
    (l : List DeviceEnumeration) :
    SelectionChanged tabIndex deviceIndex l (l.map (changeEntry tabIndex deviceIndex)) := by
  refine ⟨map_changeEntry_entries tabIndex deviceIndex ht l, fun hd hp => ?_⟩
  rw [claimedBy_changeEntry tabIndex deviceIndex ht]
  exact List.count_eq_one_of_mem hd hp

/-- The indexes given by the enumeration loop are consecutive from the first index. -/
theorem pushDevices_indexes (samplingDevices : List SamplingDevice) :
    ∀ acc : List DeviceEnumeration × Int,
      (pushDevices acc samplingDevices).2 = acc.2 + (samplingDevices.length : Int) ∧
      (pushDevices acc samplingDevices).1.map DeviceEnumeration.m_index
        = acc.1.map DeviceEnumeration.m_index
          ++ (List.range samplingDevices.length).map (fun (k : Nat) => acc.2 + (k : Int)) := by
  induction samplingDevices with
  | nil => intro acc; simp [pushDevices]
  | cons d rest ih =>
    intro acc
    have h := ih (acc.1 ++ [{ m_samplingDevice := d, m_index := acc.2 }], acc.2 + 1)
    unfold pushDevices at h ⊢
    rw [List.foldl_cons]
    refine ⟨?_, ?_⟩
    · rw [h.1, List.length_cons]; push_cast; ring
    · rw [h.2, List.length_cons, List.range_succ_eq_map]
      simp only [List.map_append, List.map_cons, List.map_nil, List.map_map, List.append_assoc,
        List.singleton_append, Nat.cast_zero, add_zero]
      congr 2
      apply List.map_congr_left
      intro k _
      simp only [Function.comp_apply, Nat.cast_succ]
      ring

theorem foldl_pushDevices_indexes (registrations : List (List SamplingDevice)) :
    ∀ acc : List DeviceEnumeration × Int,
      (registrations.foldl pushDevices acc).1.map DeviceEnumeration.m_index
        = acc.1.map DeviceEnumeration.m_index
          ++ (List.range registrations.flatten.length).map (fun (k : Nat) => acc.2 + (k : Int)) := by
  induction registrations with
  | nil => intro acc; simp
  | cons r rest ih =>
    intro acc
    rw [List.foldl_cons, ih, (pushDevices_indexes r acc).1, (pushDevices_indexes r acc).2,
      List.flatten_cons, List.length_append, List.range_add, List.map_append, List.map_map,
      List.append_assoc]
    congr 2
    apply List.map_congr_left
    intro k _
    simp only [Function.comp_apply]
    push_cast
    ring

/-- The indexes that `enumerateRxDevices` gives to the entries are `0, 1, 2, ...`: they
are pairwise distinct. -/
theorem enumerateRxDevices_nodup (d : DeviceEnumerator)
    (registrations : List (List SamplingDevice)) :
    ((enumerateRxDevices d registrations).m_rxEnumeration.map DeviceEnumeration.m_index).Nodup := by
  unfold enumerateRxDevices
  rw [foldl_pushDevices_indexes]
  simp only [List.map_nil, List.nil_append, zero_add]
  exact (List.nodup_range _).map (fun a b h => by exact_mod_cast h)

/-- C25. Device selection is exclusive per device set: for every enumerator, every tab
index `t >= 0` and every device index `d`, after `changeRxSelection(t, d)` the Rx
enumeration has the same entries in the same order but for their claims, an entry is
claimed by `t` iff its index is `d`, and an entry that neither has the index `d` nor was
claimed by `t` keeps its claim; when the indexes are pairwise distinct and `d` is present
exactly one entry is claimed by `t`.  The other two enumerations are untouched.
`changeTxSelection` and `changeMIMOSelection` do the same on their enumerations. -/
theorem changeSelection_exclusive (d : DeviceEnumerator) (tabIndex deviceIndex : Int)
    (ht : 0 ≤ tabIndex) :
    (SelectionChanged tabIndex deviceIndex d.m_rxEnumeration
        (changeRxSelection d tabIndex deviceIndex).m_rxEnumeration ∧
      (changeRxSelection d tabIndex deviceIndex).m_txEnumeration = d.m_txEnumeration ∧
      (changeRxSelection d tabIndex deviceIndex).m_mimoEnumeration = d.m_mimoEnumeration) ∧
    (SelectionChanged tabIndex deviceIndex d.m_txEnumeration
        (changeTxSelection d tabIndex deviceIndex).m_txEnumeration ∧
      (changeTxSelection d tabIndex deviceIndex).m_rxEnumeration = d.m_rxEnumeration ∧
      (changeTxSelection d tabIndex deviceIndex).m_mimoEnumeration = d.m_mimoEnumeration) ∧
    (SelectionChanged tabIndex deviceIndex d.m_mimoEnumeration
        (changeMIMOSelection d tabIndex deviceIndex).m_mimoEnumeration ∧
      (changeMIMOSelection d tabIndex deviceIndex).m_rxEnumeration = d.m_rxEnumeration ∧
      (changeMIMOSelection d tabIndex deviceIndex).m_txEnumeration = d.m_txEnumeration) :=
  ⟨⟨map_changeEntry_selectionChanged tabIndex deviceIndex ht _, rfl, rfl⟩,
    ⟨map_changeEntry_selectionChanged tabIndex deviceIndex ht _, rfl, rfl⟩,
    ⟨map_changeEntry_selectionChanged tabIndex deviceIndex ht _, rfl, rfl⟩⟩

theorem changeSelection_exclusive_witness :
    (sampleEnumerator.m_rxEnumeration.map DeviceEnumeration.m_index).Nodup ∧
    (2 : Int) ∈ sampleEnumerator.m_rxEnumeration.map DeviceEnumeration.m_index ∧
    claimedBy 0 sampleEnumerator.m_rxEnumeration = 1 ∧
    claimedBy 0 (changeRxSelection sampleEnumerator 0 2).m_rxEnumeration = 1 ∧
    (changeRxSelection sampleEnumerator 0 2).m_rxEnumeration.map
        (fun it => (it.m_index, it.m_samplingDevice.claimed))
      = [(0, -1), (1, -1), (2, 0)] :=
  ⟨by decide!, by decide!, by decide!,
    (changeSelection_exclusive sampleEnumerator 0 2 (by decide)).1.1.2 (by decide!) (by decide!),
    by decide!⟩

end DeviceEnumerator

namespace ATVModSource

/-! ## Base rate of the ATV modulator (C26) -/

theorem toUInt32_of_range (x : Int) (h0 : 0 ≤ x) (h : x < 2 ^ 32) : toUInt32 x = x.toNat := by
  unfold toUInt32
  rw [Int.emod_eq_of_lt h0 h]

theorem toInt32_of_range (x : Nat) (h : x < 2 ^ 31) : toInt32 x = (x : Int) := by
  unfold toInt32
  have h1 : x % 2 ^ 32 = x := Nat.mod_eq_of_lt (by omega)
  rw [h1, if_pos h]

/-- The loop of `getBaseValues` stops at the largest `i` not above its start for which
`i * linesPerSecond` is a multiple of 10, and runs down to 0 when there is none. -/
theorem searchPoints_spec (linesPerSecond : Int) (n : Nat) :
    searchPoints linesPerSecond n ≤ n ∧
    (∀ j : Nat, searchPoints linesPerSecond n < j → j ≤ n →
      ¬ (10 : Int) ∣ (j : Int) * linesPerSecond) ∧
    (searchPoints linesPerSecond n ≠ 0 →
      (10 : Int) ∣ (searchPoints linesPerSecond n : Int) * linesPerSecond) := by
  induction n with
  | zero =>
    refine ⟨le_refl _, fun j h1 h2 => ?_, fun h => absurd rfl h⟩
    simp only [searchPoints] at h1
    omega
  | succ n ih =>
    simp only [searchPoints]
    split_ifs with h
    · refine ⟨le_refl _, fun j h1 h2 => by omega, fun _ => ?_⟩
      exact Int.dvd_of_tmod_eq_zero h
    · refine ⟨Nat.le_succ_of_le ih.1, fun j h1 h2 => ?_, ih.2.2⟩
      rcases Nat.eq_or_lt_of_le h2 with h3 | h3
      · rw [h3]
        intro hd
        exact h (Int.tmod_eq_zero_of_dvd hd)
      · exact ih.2.1 j h1 (by omega)

/-- C26. ATV base rate computation: for every output sample rate `S` (an `int`) and
lines-per-second `L` with `S >= L > 0`, `getBaseValues` returns `nbPointsPerRateUnit`,
which lies in `[1, S div L]`, and `sampleRateUnits = nbPointsPerRateUnit * L`, a positive
multiple of `L` not above `S`.  When some `i` in `[1, S div L]` makes `i*L` a multiple of
10, `nbPointsPerRateUnit` is the largest such `i`; otherwise it is `S div L`.  For
`L = 0` the function has no result (division by zero). -/
theorem getBaseValues_spec (outputSampleRate linesPerSecond : Int)
    (hL : 0 < linesPerSecond) (hSL : linesPerSecond ≤ outputSampleRate)
    (hS : outputSampleRate < 2 ^ 31) :
    (∃ (sampleRateUnits : Int) (nbPointsPerRateUnit : Nat),
      getBaseValues outputSampleRate linesPerSecond
        = some (sampleRateUnits, nbPointsPerRateUnit) ∧
      1 ≤ nbPointsPerRateUnit ∧
      (nbPointsPerRateUnit : Int) ≤ outputSampleRate / linesPerSecond ∧
      sampleRateUnits = (nbPointsPerRateUnit : Int) * linesPerSecond ∧
      0 < sampleRateUnits ∧ sampleRateUnits ≤ outputSampleRate ∧
      linesPerSecond ∣ sampleRateUnits ∧
      ((∃ i : Nat, 1 ≤ i ∧ (i : Int) ≤ outputSampleRate / linesPerSecond ∧
          (10 : Int) ∣ (i : Int) * linesPerSecond) →
        (10 : Int) ∣ (nbPointsPerRateUnit : Int) * linesPerSecond ∧
        ∀ j : Nat, nbPointsPerRateUnit < j → (j : Int) ≤ outputSampleRate / linesPerSecond →
          ¬ (10 : Int) ∣ (j : Int) * linesPerSecond) ∧
      ((¬ ∃ i : Nat, 1 ≤ i ∧ (i : Int) ≤ outputSampleRate / linesPerSecond ∧
          (10 : Int) ∣ (i : Int) * linesPerSecond) →
        (nbPointsPerRateUnit : Int) = outputSampleRate / linesPerSecond)) ∧
    (∀ rate : Int, getBaseValues rate 0 = none) := by
  refine ⟨?_, fun rate => by simp [getBaseValues]⟩
  have hS0 : 0 ≤ outputSampleRate := by omega
  have hdiv : Int.tdiv outputSampleRate linesPerSecond = outputSampleRate / linesPerSecond :=
    Int.tdiv_eq_ediv hS0 (le_of_lt hL)
  obtain ⟨m, hm⟩ := Int.eq_ofNat_of_zero_le
    (Int.ediv_nonneg hS0 (le_of_lt hL) : 0 ≤ outputSampleRate / linesPerSecond)
  have hm1 : 1 ≤ m := by
    have : 1 ≤ outputSampleRate / linesPerSecond :=
      (Int.le_ediv_iff_mul_le hL).mpr (by omega)
    omega
  have hmL : (m : Int) * linesPerSecond ≤ outputSampleRate := by
    rw [← hm]; exact Int.ediv_mul_le _ (ne_of_gt hL)
  obtain ⟨hle, hmax, hdvd⟩ := searchPoints_spec linesPerSecond m
  obtain ⟨r, hr⟩ : ∃ r : Nat,
      r = if searchPoints linesPerSecond m = 0 then m else searchPoints linesPerSecond m :=
    ⟨_, rfl⟩
  have hr1 : 1 ≤ r := by rw [hr]; split_ifs <;> omega
  have hrm : r ≤ m := by rw [hr]; split_ifs <;> omega
  have hrL : (r : Int) * linesPerSecond ≤ outputSampleRate :=
    le_trans (Int.mul_le_mul_of_nonneg_right (by exact_mod_cast hrm) (le_of_lt hL)) hmL
  have hrpos : 0 < (r : Int) * linesPerSecond := Int.mul_pos (by exact_mod_cast hr1) hL
  have hr32 : (r : Int) < 2 ^ 32 := by
    have : (r : Int) ≤ (r : Int) * linesPerSecond := by nlinarith
    omega
  have hi : (if (m : Int) > 0 then ((searchPoints linesPerSecond (m : Int).toNat : Nat) : Int)
      else (m : Int)) = ((searchPoints linesPerSecond m : Nat) : Int) := by
    rw [if_pos (by omega), Int.toNat_ofNat]
  have hnb : toUInt32 (if ((searchPoints linesPerSecond m : Nat) : Int) = 0 then (m : Int)
      else ((searchPoints linesPerSecond m : Nat) : Int)) = r := by
    have : (if ((searchPoints linesPerSecond m : Nat) : Int) = 0 then (m : Int)
        else ((searchPoints linesPerSecond m : Nat) : Int)) = (r : Int) := by
      rw [hr]; split_ifs <;> first | rfl | omega
    rw [this, toUInt32_of_range _ (by omega) hr32, Int.toNat_ofNat]
  have hl32 : toUInt32 linesPerSecond = linesPerSecond.toNat :=
    toUInt32_of_range _ (le_of_lt hL) (by omega)
  have hcast : ((r * linesPerSecond.toNat : Nat) : Int) = (r : Int) * linesPerSecond := by
    push_cast; rw [Int.toNat_of_nonneg (le_of_lt hL)]
  have hprod : (r * linesPerSecond.toNat : Nat) < 2 ^ 31 := by omega
  have hval : getBaseValues outputSampleRate linesPerSecond
      = some ((r : Int) * linesPerSecond, r) := by
    unfold getBaseValues
    rw [if_neg (ne_of_gt hL)]
    dsimp only
    rw [hdiv, hm, hi, hnb, hl32, Nat.mod_eq_of_lt (by omega), toInt32_of_range _ hprod, hcast]
  refine ⟨(r : Int) * linesPerSecond, r, hval, hr1, by rw [hm]; exact_mod_cast hrm, rfl, hrpos,
    hrL, Dvd.intro_left _ rfl, ?_, ?_⟩
  · rintro ⟨i, hi1, hi2, hi3⟩
    have him : i ≤ m := by rw [hm] at hi2; exact_mod_cast hi2
    have hne : searchPoints linesPerSecond m ≠ 0 := by
      intro h0
      exact hmax i (by omega) him hi3
    have hreq : r = searchPoints linesPerSecond m := by rw [hr, if_neg hne]
    rw [hreq]
    exact ⟨hdvd hne, fun j hj1 hj2 => hmax j hj1 (by rw [hm] at hj2; exact_mod_cast hj2)⟩
  · intro hno
    have h0 : searchPoints linesPerSecond m = 0 := by
      by_contra hne
      exact hno ⟨searchPoints linesPerSecond m, by omega, by rw [hm]; exact_mod_cast hle,
        hdvd hne⟩
    rw [hr, if_pos h0, hm]

theorem getBaseValues_spec_witness :
    (0 : Int) < 15625 ∧ (15625 : Int) ≤ 1000000 ∧ (1000000 : Int) < 2 ^ 31 ∧
    getBaseValues 1000000 15625 = some (1000000, 64) ∧
    getBaseValues 48000 15625 = some (31250, 2) ∧
    getBaseValues 1000007 7 = some (999950, 142850) ∧
    ((∃ (sampleRateUnits : Int) (nbPointsPerRateUnit : Nat),
      getBaseValues 1000000 15625 = some (sampleRateUnits, nbPointsPerRateUnit) ∧
      1 ≤ nbPointsPerRateUnit ∧
      (nbPointsPerRateUnit : Int) ≤ 1000000 / 15625 ∧
      sampleRateUnits = (nbPointsPerRateUnit : Int) * 15625 ∧
      0 < sampleRateUnits ∧ sampleRateUnits ≤ 1000000 ∧
      (15625 : Int) ∣ sampleRateUnits ∧
      ((∃ i : Nat, 1 ≤ i ∧ (i : Int) ≤ 1000000 / 15625 ∧
          (10 : Int) ∣ (i : Int) * 15625) →
        (10 : Int) ∣ (nbPointsPerRateUnit : Int) * 15625 ∧
        ∀ j : Nat, nbPointsPerRateUnit < j → (j : Int) ≤ 1000000 / 15625 →
          ¬ (10 : Int) ∣ (j : Int) * 15625) ∧
      ((¬ ∃ i : Nat, 1 ≤ i ∧ (i : Int) ≤ 1000000 / 15625 ∧
          (10 : Int) ∣ (i : Int) * 15625) →
        (nbPointsPerRateUnit : Int) = 1000000 / 15625)) ∧
    (∀ rate : Int, getBaseValues rate 0 = none)) :=
  ⟨by decide, by decide, by decide, by decide!, by decide!, by decide!,
    getBaseValues_spec 1000000 15625 (by decide) (by decide) (by decide)⟩

end ATVModSource

namespace ATVModSource

/-! ## Raster counters of the ATV modulator (C27) -/

theorem pullVideo_values (r : Raster) :
    (pullVideo r).m_nbHorizPoints = r.m_nbHorizPoints ∧
    (pullVideo r).m_nbLines = r.m_nbLines ∧
    (pullVideo r).m_horizontalCount
      = (if r.m_horizontalCount < r.m_nbHorizPoints - 1 then r.m_horizontalCount + 1 else 0) ∧
    (pullVideo r).m_lineCount
      = (if r.m_horizontalCount < r.m_nbHorizPoints - 1 then r.m_lineCount
          else if r.m_lineCount < r.m_nbLines - 1 then r.m_lineCount + 1 else 0) := by
  unfold pullVideo
  dsimp only
  split_ifs <;> exact ⟨rfl, rfl, rfl, rfl⟩

/-- C27. ATV raster counters stay in range: for every raster whose counters are in range
before a `pullVideo` call, `0 <= horizontalCount < nbHorizPoints` and
`0 <= lineCount < nbLines` (so that `nbHorizPoints >= 1` and `nbLines >= 1`), both
counters are in range after it and the raster sizes are unchanged.  The horizontal counter
advances by 1, or wraps from `nbHorizPoints - 1` to 0; the line counter is unchanged on
the calls where the horizontal counter does not wrap, and on the calls where it wraps the
line counter advances by 1, wrapping to 0 after `nbLines - 1`.  With at least two lines
the line counter changes exactly on the calls where the horizontal counter wraps. -/
theorem pullVideo_counters (r : Raster)
    (hh0 : 0 ≤ r.m_horizontalCount) (hh1 : r.m_horizontalCount < r.m_nbHorizPoints)
    (hl0 : 0 ≤ r.m_lineCount) (hl1 : r.m_lineCount < r.m_nbLines) :
    (pullVideo r).m_nbHorizPoints = r.m_nbHorizPoints ∧
    (pullVideo r).m_nbLines = r.m_nbLines ∧
    0 ≤ (pullVideo r).m_horizontalCount ∧
    (pullVideo r).m_horizontalCount < r.m_nbHorizPoints ∧
    0 ≤ (pullVideo r).m_lineCount ∧
    (pullVideo r).m_lineCount < r.m_nbLines ∧
    (r.m_horizontalCount < r.m_nbHorizPoints - 1 →
      (pullVideo r).m_horizontalCount = r.m_horizontalCount + 1 ∧
      (pullVideo r).m_lineCount = r.m_lineCount) ∧
    (r.m_horizontalCount = r.m_nbHorizPoints - 1 →
      (pullVideo r).m_horizontalCount = 0 ∧
      (pullVideo r).m_lineCount
        = if r.m_lineCount < r.m_nbLines - 1 then r.m_lineCount + 1 else 0) ∧
    (2 ≤ r.m_nbLines →
      ((pullVideo r).m_lineCount ≠ r.m_lineCount ↔
        r.m_horizontalCount = r.m_nbHorizPoints - 1)) := by
  obtain ⟨e1, e2, e3, e4⟩ := pullVideo_values r
  rw [e1, e2, e3, e4]
  refine ⟨rfl, rfl, ?_, ?_, ?_, ?_, fun h => ?_, fun h => ?_, fun h2 => ?_⟩
  · split_ifs <;> omega
  · split_ifs <;> omega
  · split_ifs <;> omega
  · split_ifs <;> omega
  · rw [if_pos h, if_pos h]
    exact ⟨rfl, rfl⟩
  · rw [if_neg (by omega), if_neg (by omega)]
    exact ⟨rfl, rfl⟩
  · split_ifs <;> constructor <;> intro _ <;> omega

theorem pullVideo_counters_witness :
    (pullVideo smallRaster).m_horizontalCount = 0 ∧ (pullVideo smallRaster).m_lineCount = 0 ∧
    (pullVideo (pullVideo smallRaster)).m_horizontalCount = 1 ∧
    (pullVideo smallRaster).m_lineCount < smallRaster.m_nbLines :=
  ⟨by decide, by decide, by decide,
    (pullVideo_counters smallRaster (by decide) (by decide) (by decide)
      (by decide)).2.2.2.2.2.1⟩

end ATVModSource

namespace ATVModSource

/-! ## Reads of the SSB output buffer (C28) -/

theorem modulateSSB_invariant (runSSB : Nat → Int)
    (hfilter : ∀ calls : Nat, runSSB calls
      = if (calls + 1) % (m_ssbFftLen / 2) = 0 then ((m_ssbFftLen / 2 : Nat) : Int) else 0)
    (s : SSBStage) (h : SSBInvariant s) :
    SSBInvariant (modulateSSB runSSB s).1 ∧
    0 ≤ (modulateSSB runSSB s).2.readIndex ∧
    (modulateSSB runSSB s).2.readIndex < (bufferLength : Int) ∧
    0 ≤ (modulateSSB runSSB s).2.copied ∧
    (modulateSSB runSSB s).2.copied ≤ (bufferLength : Int) := by
  obtain ⟨h0, h1⟩ := h
  unfold SSBInvariant modulateSSB
  dsimp only
  rw [hfilter s.m_SSBFilter]
  have hL : m_ssbFftLen / 2 = 512 := rfl
  have hB : bufferLength = 512 := rfl
  rw [hL] at h1 ⊢
  rw [hB]
  by_cases hc : (s.m_SSBFilter + 1) % 512 = 0
  · simp only [hc, if_true]
    norm_num
    omega
  · simp only [hc, if_false]
    norm_num
    omega

theorem runSSBCalls_bounds (runSSB : Nat → Int)
    (hfilter : ∀ calls : Nat, runSSB calls
      = if (calls + 1) % (m_ssbFftLen / 2) = 0 then ((m_ssbFftLen / 2 : Nat) : Int) else 0)
    (calls : List SSBCall) :
    ∀ s : SSBStage, SSBInvariant s →
      ∀ a ∈ (runSSBCalls runSSB s calls).2,
        0 ≤ a.readIndex ∧ a.readIndex < (bufferLength : Int) ∧
        0 ≤ a.copied ∧ a.copied ≤ (bufferLength : Int) := by
  induction calls with
  | nil => intro s _ a ha; simp [runSSBCalls] at ha
  | cons c rest ih =>
    intro s hs a ha
    cases c with
    | modulateSSB =>
      obtain ⟨hi, hr0, hr1, hc0, hc1⟩ := modulateSSB_invariant runSSB hfilter s hs
      simp only [runSSBCalls, List.mem_cons] at ha
      rcases ha with ha | ha
      · rw [ha]
        exact ⟨hr0, hr1, hc0, hc1⟩
      · exact ih _ hi a ha
    | reset =>
      simp only [runSSBCalls] at ha
      have hres : SSBInvariant (resetSSB s) := by
        unfold SSBInvariant resetSSB
        dsimp only
        omega
      exact ih _ hres a ha

/-- C28. SSB output buffer reads stay in bounds: assume that the filter returns exactly
half of its FFT size (`m_ssbFftLen/2` samples) on every `(m_ssbFftLen/2)`-th call since
it was last created and 0 on every other call.  Then in every sequence of `modulateSSB`
calls and reconfigurations (which create the filter anew and reset the buffer index
together) that follows the constructor, every `modulateSSB` call reads
`m_SSBFilterBuffer` at an index in `[0, m_ssbFftLen/2)`, inside the buffer that the
constructor allocated, and copies at most `m_ssbFftLen/2` samples into it. -/
theorem modulateSSB_in_bounds (runSSB : Nat → Int)
    (hfilter : ∀ calls : Nat, runSSB calls
      = if (calls + 1) % (m_ssbFftLen / 2) = 0 then ((m_ssbFftLen / 2 : Nat) : Int) else 0)
    (calls : List SSBCall) :
    bufferLength = m_ssbFftLen / 2 ∧
    ∀ a ∈ (runSSBCalls runSSB constructSSB calls).2,
      0 ≤ a.readIndex ∧ a.readIndex < (bufferLength : Int) ∧
      0 ≤ a.copied ∧ a.copied ≤ (bufferLength : Int) := by
  have hinv : SSBInvariant constructSSB := by
    unfold SSBInvariant constructSSB
    dsimp only
    omega
  exact ⟨rfl, runSSBCalls_bounds runSSB hfilter calls constructSSB hinv⟩

theorem modulateSSB_in_bounds_witness :
    (runSSBCalls blockFilter constructSSB
      (List.replicate 3 SSBCall.modulateSSB ++ [SSBCall.reset, SSBCall.modulateSSB])).2
      = [ { copied := 0, readIndex := 0 }, { copied := 0, readIndex := 1 },
          { copied := 0, readIndex := 2 }, { copied := 0, readIndex := 0 } ] ∧
    ((runSSBCalls blockFilter constructSSB (List.replicate 513 SSBCall.modulateSSB)).2.drop 510
      = [ { copied := 0, readIndex := 510 }, { copied := 512, readIndex := 0 },
          { copied := 0, readIndex := 1 } ]) ∧
    ∀ a ∈ (runSSBCalls blockFilter constructSSB
        (List.replicate 3 SSBCall.modulateSSB ++ [SSBCall.reset, SSBCall.modulateSSB])).2,
      0 ≤ a.readIndex ∧ a.readIndex < (bufferLength : Int) ∧
      0 ≤ a.copied ∧ a.copied ≤ (bufferLength : Int) :=
  ⟨by decide!, by decide!,
    (modulateSSB_in_bounds blockFilter (fun _ => rfl)
      (List.replicate 3 SSBCall.modulateSSB ++ [SSBCall.reset, SSBCall.modulateSSB])).2⟩

end ATVModSource

namespace ATVModSource

/-! ## Phase accumulator of the FM modulation (C30) -/

/-- One FM step changes the accumulator by the phase increment and a multiple of
`2*pi`. -/
theorem modulateFM_step (M_PI fmExcursion m_modPhasor t : ℚ) :
    ∃ k : Int, modulateFM M_PI fmExcursion m_modPhasor t
      = m_modPhasor + (t - 1 / 2) * fmExcursion * 2 * M_PI + (k : ℚ) * (2 * M_PI) := by
  unfold modulateFM
  dsimp only
  split_ifs
  · exact ⟨0, by push_cast; ring⟩
  · exact ⟨-1, by push_cast; ring⟩
  · exact ⟨1, by push_cast; ring⟩
  · exact ⟨0, by push_cast; ring⟩

/-- From 0, or from a value of `[pi, 4*pi]`, one FM step leads into `[pi, 4*pi]`. -/
theorem modulateFM_range (M_PI fmExcursion m_modPhasor t : ℚ) (hpi : 0 < M_PI)
    (ht0 : 0 ≤ t) (ht1 : t ≤ 1) (he0 : 0 ≤ fmExcursion) (he1 : fmExcursion ≤ 1)
    (hp : m_modPhasor = 0 ∨ (M_PI ≤ m_modPhasor ∧ m_modPhasor ≤ 4 * M_PI)) :
    M_PI ≤ modulateFM M_PI fmExcursion m_modPhasor t ∧
    modulateFM M_PI fmExcursion m_modPhasor t ≤ 4 * M_PI := by
  have hd1 : (t - 1 / 2) * fmExcursion * 2 * M_PI ≤ M_PI := by
    have h1 : (t - 1 / 2) * fmExcursion ≤ 1 / 2 := by nlinarith
    nlinarith
  have hd0 : -M_PI ≤ (t - 1 / 2) * fmExcursion * 2 * M_PI := by
    have h1 : -(1 / 2) ≤ (t - 1 / 2) * fmExcursion := by nlinarith
    nlinarith
  unfold modulateFM
  dsimp only
  generalize (t - 1 / 2) * fmExcursion * 2 * M_PI = d at hd0 hd1
  rcases hp with hp | ⟨hp0, hp1⟩
  · rw [hp]
    split_ifs <;> constructor <;> linarith
  · split_ifs <;> constructor <;> linarith

theorem phasors_range (M_PI : ℚ) (hpi : 0 < M_PI) (steps : List (ℚ × ℚ)) :
    ∀ m_modPhasor : ℚ,
      (m_modPhasor = 0 ∨ (M_PI ≤ m_modPhasor ∧ m_modPhasor ≤ 4 * M_PI)) →
      (∀ step ∈ steps, 0 ≤ step.1 ∧ step.1 ≤ 1 ∧ 0 ≤ step.2 ∧ step.2 ≤ 1) →
      ∀ p ∈ phasors M_PI m_modPhasor steps, M_PI ≤ p ∧ p ≤ 4 * M_PI := by
  induction steps with
  | nil => intro _ _ _ p hp; simp [phasors] at hp
  | cons step rest ih =>
    intro m hm hsteps p hp
    obtain ⟨h1, h2, h3, h4⟩ := hsteps step (List.mem_cons_self _ _)
    have hr := modulateFM_range M_PI step.2 m step.1 hpi h1 h2 h3 h4 hm
    simp only [phasors, List.mem_cons] at hp
    rcases hp with hp | hp
    · rw [hp]; exact hr
    · exact ih _ (Or.inr hr) (fun s hs => hsteps s (List.mem_cons_of_mem _ hs)) p hp

/-- C30. FM phase accumulator growth is limited: starting from the phasor 0, for every
sequence of FM `modulateSample` steps with video levels `t` in `[0, 1]` and FM
excursions in `[0, 1]`, the phase accumulator lies in `[0, 4*pi]` after each step (in
`[pi, 4*pi]` in fact), and each step leaves a value that differs from
`previous + (t - 0.5)*excursion*2*pi` by an integer multiple of `2*pi`. -/
theorem fm_phasor_bounded (M_PI : ℚ) (hpi : 0 < M_PI) (steps : List (ℚ × ℚ))
    (hsteps : ∀ step ∈ steps, 0 ≤ step.1 ∧ step.1 ≤ 1 ∧ 0 ≤ step.2 ∧ step.2 ≤ 1) :
    (∀ p ∈ phasors M_PI 0 steps, 0 ≤ p ∧ M_PI ≤ p ∧ p ≤ 4 * M_PI) ∧
    (∀ fmExcursion m_modPhasor t : ℚ, ∃ k : Int,
      modulateFM M_PI fmExcursion m_modPhasor t
        = m_modPhasor + (t - 1 / 2) * fmExcursion * 2 * M_PI + (k : ℚ) * (2 * M_PI)) := by
  refine ⟨fun p hp => ?_, fun e m t => modulateFM_step M_PI e m t⟩
  obtain ⟨h1, h2⟩ := phasors_range M_PI hpi steps 0 (Or.inl rfl) hsteps p hp
  exact ⟨by linarith, h1, h2⟩

theorem fm_phasor_bounded_witness :
    phasors (355 / 113) 0 [(0, 1), (0, 1), (1, 1), (1, 1), (1, 1)]
      = [355 / 113, 2 * (355 / 113), 3 * (355 / 113), 2 * (355 / 113), 3 * (355 / 113)] ∧
    ∀ p ∈ phasors (355 / 113) 0 [(0, 1), (0, 1), (1, 1), (1, 1), (1, 1)],
      0 ≤ p ∧ (355 / 113 : ℚ) ≤ p ∧ p ≤ 4 * (355 / 113) :=
  ⟨by decide!,
    (fm_phasor_bounded (355 / 113) (by norm_num) [(0, 1), (0, 1), (1, 1), (1, 1), (1, 1)]
      (by decide!)).1⟩

end ATVModSource

namespace RemoteSinkGUI

/-! ## The two data port handlers (C29) -/

/-- C29. Failing input: the text `65535` in the port field.  `on_dataPort_returnPressed`
accepts the ports of `[1024, 65535]` and stores 65535, `on_dataApplyButton_clicked`
tests `udpDataPort < 65535` and leaves the port 9090 in place.  For every text the first
handler stores the value iff it parses to an integer in `[1024, 65535]`, the second iff
it parses to an integer in `[1024, 65535)`. -/
theorem dataPort_handlers_differ :
    decimalToInt lastPortForm.dataPort = (65535, true) ∧
    (on_dataPort_returnPressed decimalToInt lastPortForm).m_settings.m_dataPort = 65535 ∧
    (on_dataApplyButton_clicked decimalToInt lastPortForm).m_settings.m_dataPort = 9090 ∧
    (∀ (toInt : String → Int × Bool) (g : RemoteSinkGUI),
      (on_dataPort_returnPressed toInt g).m_settings.m_dataPort
        = (if (toInt g.dataPort).2 = true ∧ 1024 ≤ (toInt g.dataPort).1
              ∧ (toInt g.dataPort).1 ≤ 65535
            then (toInt g.dataPort).1 else g.m_settings.m_dataPort) ∧
      (on_dataApplyButton_clicked toInt g).m_settings.m_dataPort
        = (if (toInt g.dataPort).2 = true ∧ 1024 ≤ (toInt g.dataPort).1
              ∧ (toInt g.dataPort).1 < 65535
            then (toInt g.dataPort).1 else g.m_settings.m_dataPort)) := by
  refine ⟨by decide!, by decide!, by decide!, fun toInt g => ⟨?_, ?_⟩⟩
  · unfold on_dataPort_returnPressed
    dsimp only
    cases hok : (toInt g.dataPort).2 <;>
      by_cases h1 : (toInt g.dataPort).1 < 1024 <;>
      by_cases h2 : (toInt g.dataPort).1 > 65535 <;>
      simp [h1, h2] <;> omega
  · unfold on_dataApplyButton_clicked
    dsimp only
    cases hok : (toInt g.dataPort).2 <;>
      by_cases h1 : (toInt g.dataPort).1 ≥ 1024 <;>
      by_cases h2 : (toInt g.dataPort).1 < 65535 <;>
      simp [h1, h2]

end RemoteSinkGUI

end SDRangel
